import Mathlib

/-!
# Image-treatment pipeline: treatments, their parameters, the treatment chain, image sources

A shallow embedding of `include/Treatment.h`, `include/TreatmentChain.h`,
`include/ImageSource.h` and the ten headers under `include/treatments/`, followed by
theorems about them.

Conventions of the embedding

* `cv::Mat` is a value (`Mat`): shape plus samples.  `Mat::clone()` is a deep copy, so
  on values it is the identity; `Mat::empty()` is "no element".
* A C++ `int` is an `Int` lying in `[INT_MIN, INT_MAX]`; the two increments of the
  source go through `wrapInt`.  `a % 2` is the truncated remainder `Int.tmod`.
* A C++ exception is a value of `Exception`; a function that may throw returns
  `Except Exception _` together with the state it leaves behind.
* `double`, `std::stod` and `std::to_string(double)` are not part of the repository:
  they are the parameter `DoubleOps D`.
* The pixel algorithms of OpenCV are not part of the repository: a treatment, as the
  chain sees it, is its `validateInput` and `process` functions, and the `process` of
  the ten classes takes the OpenCV functions as the parameter `OpenCV D`.
* A capture device is the sequence of frames its successive reads deliver; `cv::mean`
  is a parameter, and the finite `double`s of its `cv::Scalar` are rationals.  The
  `sleep_for` calls and the `release()` calls are recorded in ghost fields.
-/

namespace ImageTreatment

/-! ## Buffers and exceptions -/

/-- The value held by a `cv::Mat`: its shape and its samples (row-major, channels
interleaved). -/
structure Mat where
  rows : Nat
  cols : Nat
  channels : Nat
  data : List Nat
deriving DecidableEq, Repr

/-- `cv::Mat::empty()`: the buffer has no element. -/
def Mat.empty (m : Mat) : Bool :=
  m.rows * m.cols == 0

/-- `cv::Mat::clone()`: a deep copy, which on values is the same value. -/
def Mat.clone (m : Mat) : Mat :=
  m

/-- The standard exceptions thrown by `TreatmentChain`, each with its `what()` text. -/
inductive Exception where
  | invalid_argument (what : String)
  | runtime_error (what : String)
  | out_of_range (what : String)
deriving DecidableEq, Repr

/-! ## The chain (`TreatmentChain.h`) -/

/-- The abstract base class `Treatment` as `TreatmentChain` uses it through its
`unique_ptr<Treatment>` elements: the name and the two virtual functions called during
a run.  `process` stands for the external pixel algorithm of the variant. -/
structure Treatment where
  getName : String
  validateInput : Mat → Bool
  process : Mat → Mat

/-- `Treatment::validateInput`, the default body of the base class. -/
def Treatment.defaultValidateInput (input : Mat) : Bool :=
  !input.empty

/-- The three data members of `TreatmentChain`. -/
structure TreatmentChain where
  treatments : List Treatment
  originalImage : Mat
  intermediateResults : List Mat

/-- A default-constructed `TreatmentChain`. -/
def TreatmentChain.new : TreatmentChain :=
  { treatments := [], originalImage := ⟨0, 0, 1, []⟩, intermediateResults := [] }

/-- What a call of `processChain` leaves behind: the returned value or the exception,
the chain afterwards, and (ghost) the indices of the stages whose `process` was called,
in call order. -/
structure ChainRun where
  outcome : Except Exception Mat
  chain : TreatmentChain
  processCalls : List Nat

/-- The `for` loop of `processChain`, from stage index `i` on: `rest` are the treatments
`treatments[i], treatments[i+1], ...`, `current` is the local `current`, `results` is
`intermediateResults` and `calls` the ghost call log. -/
def TreatmentChain.processLoop :
    List Treatment → Nat → Mat → List Mat → List Nat →
      Except Exception Mat × List Mat × List Nat
  | [], _, current, results, calls => (.ok current, results, calls)
  | t :: rest, i, current, results, calls =>
    if !t.validateInput current then
      (.error (.runtime_error
        ("Treatment " ++ toString i ++ " cannot process the current image")),
        results, calls)
    else
      let current1 := t.process current
      TreatmentChain.processLoop rest (i + 1) current1 (results ++ [current1.clone])
        (calls ++ [i])

/-- `TreatmentChain::processChain`. -/
def TreatmentChain.processChain (c : TreatmentChain) (input : Mat) : ChainRun :=
  if input.empty then
    { outcome := .error (.invalid_argument "Input image is empty"), chain := c,
      processCalls := [] }
  else
    let originalImage := input.clone
    let r := TreatmentChain.processLoop c.treatments 0 input [originalImage] []
    { outcome := r.1,
      chain := { treatments := c.treatments, originalImage := originalImage,
                 intermediateResults := r.2.1 },
      processCalls := r.2.2 }

/-- `TreatmentChain::getIntermediateResult`. -/
def TreatmentChain.getIntermediateResult (c : TreatmentChain) (index : Nat) :
    Except Exception Mat :=
  match c.intermediateResults[index]? with
  | none => .error (.out_of_range "Index out of range")
  | some m => .ok m

/-- `TreatmentChain::getTreatmentCount`. -/
def TreatmentChain.getTreatmentCount (c : TreatmentChain) : Nat :=
  c.treatments.length

/-- `TreatmentChain::addTreatment`: `push_back` on the treatment sequence. -/
def TreatmentChain.addTreatment (c : TreatmentChain) (treatment : Treatment) :
    TreatmentChain :=
  { c with treatments := c.treatments ++ [treatment] }

/-- `TreatmentChain::insertTreatment`: the thrown exception, if any, and the chain
afterwards.  `treatments.insert(treatments.begin() + index, ...)` puts the new element
before the element that was at `index`. -/
def TreatmentChain.insertTreatment (c : TreatmentChain) (index : Nat)
    (treatment : Treatment) : Except Exception Unit × TreatmentChain :=
  if index > c.treatments.length then
    (.error (.out_of_range "Index out of range"), c)
  else
    (.ok (), { c with
      treatments := c.treatments.take index ++ treatment :: c.treatments.drop index })

/-- `TreatmentChain::removeTreatment`: the thrown exception, if any, and the chain
afterwards. -/
def TreatmentChain.removeTreatment (c : TreatmentChain) (index : Nat) :
    Except Exception Unit × TreatmentChain :=
  if index ≥ c.treatments.length then
    (.error (.out_of_range "Index out of range"), c)
  else
    (.ok (), { c with treatments := c.treatments.eraseIdx index })

/-- `TreatmentChain::getTreatment` (a non-`const` member): the treatment pointed to, or
the thrown exception, and the chain afterwards. -/
def TreatmentChain.getTreatment (c : TreatmentChain) (index : Nat) :
    Except Exception Treatment × TreatmentChain :=
  match c.treatments[index]? with
  | none => (.error (.out_of_range "Index out of range"), c)
  | some t => (.ok t, c)

/-- `TreatmentChain::clear`. -/
def TreatmentChain.clear (c : TreatmentChain) : TreatmentChain :=
  { c with treatments := [], intermediateResults := [] }

/-- `TreatmentChain::getTreatmentNames`: the loop appends the name of each treatment,
in sequence order. -/
def TreatmentChain.getTreatmentNames (c : TreatmentChain) : List String :=
  c.treatments.foldl (fun names treatment => names ++ [treatment.getName]) []

/-- The buffer obtained from `input` by applying the `process` of each treatment of
`ts` in sequence order (the reference the chain run is compared with). -/
def applyInOrder (ts : List Treatment) (input : Mat) : Mat :=
  ts.foldl (fun current t => t.process current) input

/-- Every stage accepts the buffer it is given: stage `i` receives `input` after the
`process` of stages `0 .. i-1`. -/
def AllAccept (ts : List Treatment) (input : Mat) : Prop :=
  ∀ (i : Nat) (t : Treatment), ts[i]? = some t →
    t.validateInput (applyInOrder (ts.take i) input) = true

/-- Stage `j` is the first stage whose `validateInput` rejects the buffer it is given. -/
def FirstRejectAt (ts : List Treatment) (input : Mat) (j : Nat) : Prop :=
  (∃ t : Treatment, ts[j]? = some t ∧
    t.validateInput (applyInOrder (ts.take j) input) = false) ∧
  ∀ (i : Nat) (t : Treatment), i < j → ts[i]? = some t →
    t.validateInput (applyInOrder (ts.take i) input) = true

/-- The list `input, stage 0 output, ..., stage n-1 output` for the first `n` stages. -/
def stageOutputs (ts : List Treatment) (input : Mat) (n : Nat) : List Mat :=
  (List.range (n + 1)).map (fun i => applyInOrder (ts.take i) input)

/-! ## `int`, `std::stoi`, `std::to_string`, `std::map` -/

/-- The largest `int`. -/
def INT_MAX : Int := 2147483647

/-- The smallest `int`. -/
def INT_MIN : Int := -2147483648

/-- The value is representable as an `int`. -/
def InIntRange (v : Int) : Prop :=
  INT_MIN ≤ v ∧ v ≤ INT_MAX

instance (v : Int) : Decidable (InIntRange v) := by
  unfold InIntRange
  infer_instance

/-- The `int` holding `v` modulo `2^32` (two's complement). -/
def wrapInt (v : Int) : Int :=
  (v - INT_MIN) % 4294967296 + INT_MIN

/-- `isspace` in the "C" locale. -/
def isspace (c : Char) : Bool :=
  c == ' ' || c == '\t' || c == '\n' || c == '\x0b' || c == '\x0c' || c == '\r'

/-- The number written by a run of decimal digits. -/
def digitsValue (ds : List Char) : Nat :=
  ds.foldl (fun acc c => 10 * acc + (c.toNat - 48)) 0

/-- The conversion done by `strtol(str, &end, 10)` inside `std::stoi`: white space is
skipped, one sign is read, then the longest run of decimal digits; what follows the
digits is not looked at.  `none` when there is no digit; the value is mathematical
(not yet range-checked). -/
def strtol (s : String) : Option Int :=
  match s.toList.dropWhile isspace with
  | '-' :: rest =>
    let ds := rest.takeWhile Char.isDigit
    if ds.isEmpty then none else some (-(digitsValue ds : Int))
  | '+' :: rest =>
    let ds := rest.takeWhile Char.isDigit
    if ds.isEmpty then none else some (digitsValue ds : Int)
  | rest =>
    let ds := rest.takeWhile Char.isDigit
    if ds.isEmpty then none else some (digitsValue ds : Int)

/-- `std::stoi(value)` with its default arguments.  `none` stands for a thrown
exception: `std::invalid_argument` when no conversion could be done,
`std::out_of_range` when the value does not fit an `int`. -/
def stoi (s : String) : Option Int :=
  match strtol s with
  | none => none
  | some v => if InIntRange v then some v else none

/-- `std::to_string(int)`. -/
def to_string (v : Int) : String :=
  toString v

/-- `operator<` of `std::string`, on the characters of the two strings. -/
def ltChars : List Char → List Char → Bool
  | [], [] => false
  | [], _ :: _ => true
  | _ :: _, [] => false
  | a :: as, b :: bs =>
    if a.toNat < b.toNat then true
    else if b.toNat < a.toNat then false
    else ltChars as bs

/-- A `std::map<std::string, std::string>`: its entries in key order, one per key. -/
abbrev StdMap := List (String × String)

/-- The assignment `m[k] = v` on a `std::map`. -/
def StdMap.set : StdMap → String → String → StdMap
  | [], k, v => [(k, v)]
  | (k0, v0) :: rest, k, v =>
    if k = k0 then (k0, v) :: rest
    else if ltChars k.toList k0.toList then (k, v) :: (k0, v0) :: rest
    else (k0, v0) :: StdMap.set rest k v

/-- The keys of a `std::map`. -/
def StdMap.keys (m : StdMap) : List String :=
  m.map Prod.fst

/-! ## `double` -/

/-- What the treatments use of the type `double`: `std::stod` (`none` when it throws),
`std::to_string(double)`, and the comparison of a value with `0.0` (`none` when the
value is unordered with `0.0`, i.e. a NaN). -/
structure DoubleOps (D : Type) where
  stod : String → Option D
  to_string : D → String
  cmpZero : D → Option Ordering

/-- The C++ test `val >= 0.0`. -/
def DoubleOps.geZero {D : Type} (ops : DoubleOps D) (val : D) : Bool :=
  match ops.cmpZero val with
  | some .gt => true
  | some .eq => true
  | _ => false

/-- The C++ test `val < 0.0`. -/
def DoubleOps.ltZero {D : Type} (ops : DoubleOps D) (val : D) : Bool :=
  match ops.cmpZero val with
  | some .lt => true
  | _ => false

/-- A small concrete `DoubleOps`, used to evaluate the definitions on examples: the
doubles of integer value, read and written without fraction digits other than zeros. -/
def intDoubleOps : DoubleOps Int where
  stod := strtol
  to_string := fun v => toString v ++ ".000000"
  cmpZero := fun v => some (compare v 0)

/-- `cv::MORPH_RECT`. -/
def MORPH_RECT : Int := 0

/-- `cv::THRESH_BINARY`. -/
def THRESH_BINARY : Int := 0

/-! ## The ten treatments (`include/treatments/*.h`): parameter state -/

section Treatments

variable {D : Type}

/-! ### BrightnessTreatment -/

/-- Data members of `BrightnessTreatment`. -/
structure BrightnessTreatment (D : Type) where
  alpha : D
  beta : D

/-- The constructor `BrightnessTreatment(a, b)`. -/
def BrightnessTreatment.new (a b : D) : BrightnessTreatment D :=
  { alpha := a, beta := b }

/-- `BrightnessTreatment::getParameters`. -/
def BrightnessTreatment.getParameters (ops : DoubleOps D) (t : BrightnessTreatment D) :
    StdMap :=
  let params : StdMap := []
  let params := params.set "alpha" (ops.to_string t.alpha)
  let params := params.set "beta" (ops.to_string t.beta)
  params

/-- `BrightnessTreatment::setParameter`: the returned `bool` and the object afterwards. -/
def BrightnessTreatment.setParameter (ops : DoubleOps D) (t : BrightnessTreatment D)
    (paramName value : String) : Bool × BrightnessTreatment D :=
  if paramName = "alpha" then
    match ops.stod value with
    | none => (false, t)
    | some v => (true, { t with alpha := v })
  else if paramName = "beta" then
    match ops.stod value with
    | none => (false, t)
    | some v => (true, { t with beta := v })
  else (false, t)

/-- `BrightnessTreatment::getParameterInfo`. -/
def BrightnessTreatment.getParameterInfo : StdMap :=
  let info : StdMap := []
  let info := info.set "alpha" "double - Contrast control (1.0-3.0 typical)"
  let info := info.set "beta" "double - Brightness control (-100 to 100 typical)"
  info

/-- `BrightnessTreatment::clone`: the object built by `make_unique`. -/
def BrightnessTreatment.clone (t : BrightnessTreatment D) : BrightnessTreatment D :=
  BrightnessTreatment.new t.alpha t.beta

/-! ### GaussianBlurTreatment -/

/-- Data members of `GaussianBlurTreatment`. -/
structure GaussianBlurTreatment (D : Type) where
  kernelSize : Int
  sigmaX : D
  sigmaY : D

/-- The constructor `GaussianBlurTreatment(kSize, sX, sY)`. -/
def GaussianBlurTreatment.new (kSize : Int) (sX sY : D) : GaussianBlurTreatment D :=
  let kernelSize := kSize
  let kernelSize := if Int.tmod kernelSize 2 = 0 then wrapInt (kernelSize + 1) else kernelSize
  let kernelSize := if kernelSize < 1 then 1 else kernelSize
  { kernelSize := kernelSize, sigmaX := sX, sigmaY := sY }

/-- `GaussianBlurTreatment::getParameters`. -/
def GaussianBlurTreatment.getParameters (ops : DoubleOps D) (t : GaussianBlurTreatment D) :
    StdMap :=
  let params : StdMap := []
  let params := params.set "kernelSize" (to_string t.kernelSize)
  let params := params.set "sigmaX" (ops.to_string t.sigmaX)
  let params := params.set "sigmaY" (ops.to_string t.sigmaY)
  params

/-- `GaussianBlurTreatment::setParameter`. -/
def GaussianBlurTreatment.setParameter (ops : DoubleOps D) (t : GaussianBlurTreatment D)
    (paramName value : String) : Bool × GaussianBlurTreatment D :=
  if paramName = "kernelSize" then
    match stoi value with
    | none => (false, t)
    | some val =>
      if val > 0 then
        (true, { t with
          kernelSize := if Int.tmod val 2 = 0 then wrapInt (val + 1) else val })
      else (false, t)
  else if paramName = "sigmaX" then
    match ops.stod value with
    | none => (false, t)
    | some v => (true, { t with sigmaX := v })
  else if paramName = "sigmaY" then
    match ops.stod value with
    | none => (false, t)
    | some v => (true, { t with sigmaY := v })
  else (false, t)

/-- `GaussianBlurTreatment::getParameterInfo`. -/
def GaussianBlurTreatment.getParameterInfo : StdMap :=
  let info : StdMap := []
  let info := info.set "kernelSize" "int (odd, positive) - Size of the Gaussian kernel"
  let info := info.set "sigmaX" "double - Standard deviation in X direction (0 = auto)"
  let info := info.set "sigmaY" "double - Standard deviation in Y direction (0 = auto)"
  info

/-- `GaussianBlurTreatment::clone`. -/
def GaussianBlurTreatment.clone (t : GaussianBlurTreatment D) : GaussianBlurTreatment D :=
  GaussianBlurTreatment.new t.kernelSize t.sigmaX t.sigmaY

/-! ### MedianBlurTreatment -/

/-- Data member of `MedianBlurTreatment`. -/
structure MedianBlurTreatment where
  kernelSize : Int
deriving DecidableEq, Repr

/-- The constructor `MedianBlurTreatment(kSize)`. -/
def MedianBlurTreatment.new (kSize : Int) : MedianBlurTreatment :=
  let kernelSize := kSize
  let kernelSize := if Int.tmod kernelSize 2 = 0 then wrapInt (kernelSize + 1) else kernelSize
  let kernelSize := if kernelSize < 1 then 1 else kernelSize
  { kernelSize := kernelSize }

/-- `MedianBlurTreatment::getParameters`. -/
def MedianBlurTreatment.getParameters (t : MedianBlurTreatment) : StdMap :=
  let params : StdMap := []
  let params := params.set "kernelSize" (to_string t.kernelSize)
  params

/-- `MedianBlurTreatment::setParameter`. -/
def MedianBlurTreatment.setParameter (t : MedianBlurTreatment)
    (paramName value : String) : Bool × MedianBlurTreatment :=
  if paramName = "kernelSize" then
    match stoi value with
    | none => (false, t)
    | some val =>
      if val > 0 then
        (true, { t with
          kernelSize := if Int.tmod val 2 = 0 then wrapInt (val + 1) else val })
      else (false, t)
  else (false, t)

/-- `MedianBlurTreatment::getParameterInfo`. -/
def MedianBlurTreatment.getParameterInfo : StdMap :=
  let info : StdMap := []
  let info := info.set "kernelSize" "int (odd, positive) - Size of the median filter kernel"
  info

/-- `MedianBlurTreatment::clone`. -/
def MedianBlurTreatment.clone (t : MedianBlurTreatment) : MedianBlurTreatment :=
  MedianBlurTreatment.new t.kernelSize

/-! ### GrayscaleTreatment -/

/-- `GrayscaleTreatment` has no data member. -/
structure GrayscaleTreatment where
deriving DecidableEq, Repr

/-- The defaulted constructor `GrayscaleTreatment()`. -/
def GrayscaleTreatment.new : GrayscaleTreatment :=
  {}

/-- `GrayscaleTreatment::getParameters`. -/
def GrayscaleTreatment.getParameters (_t : GrayscaleTreatment) : StdMap :=
  []

/-- `GrayscaleTreatment::setParameter`. -/
def GrayscaleTreatment.setParameter (t : GrayscaleTreatment)
    (_paramName _value : String) : Bool × GrayscaleTreatment :=
  (false, t)

/-- `GrayscaleTreatment::getParameterInfo`. -/
def GrayscaleTreatment.getParameterInfo : StdMap :=
  []

/-- `GrayscaleTreatment::clone`. -/
def GrayscaleTreatment.clone (_t : GrayscaleTreatment) : GrayscaleTreatment :=
  GrayscaleTreatment.new

/-! ### CannyEdgeTreatment -/

/-- Data members of `CannyEdgeTreatment`. -/
structure CannyEdgeTreatment (D : Type) where
  threshold1 : D
  threshold2 : D
  apertureSize : Int

/-- The constructor `CannyEdgeTreatment(t1, t2, aperture)`. -/
def CannyEdgeTreatment.new (t1 t2 : D) (aperture : Int) : CannyEdgeTreatment D :=
  let apertureSize := aperture
  let apertureSize :=
    if apertureSize ≠ 3 ∧ apertureSize ≠ 5 ∧ apertureSize ≠ 7 then 3 else apertureSize
  { threshold1 := t1, threshold2 := t2, apertureSize := apertureSize }

/-- `CannyEdgeTreatment::getParameters`. -/
def CannyEdgeTreatment.getParameters (ops : DoubleOps D) (t : CannyEdgeTreatment D) :
    StdMap :=
  let params : StdMap := []
  let params := params.set "threshold1" (ops.to_string t.threshold1)
  let params := params.set "threshold2" (ops.to_string t.threshold2)
  let params := params.set "apertureSize" (to_string t.apertureSize)
  params

/-- `CannyEdgeTreatment::setParameter`. -/
def CannyEdgeTreatment.setParameter (ops : DoubleOps D) (t : CannyEdgeTreatment D)
    (paramName value : String) : Bool × CannyEdgeTreatment D :=
  if paramName = "threshold1" then
    match ops.stod value with
    | none => (false, t)
    | some v => (true, { t with threshold1 := v })
  else if paramName = "threshold2" then
    match ops.stod value with
    | none => (false, t)
    | some v => (true, { t with threshold2 := v })
  else if paramName = "apertureSize" then
    match stoi value with
    | none => (false, t)
    | some val =>
      if val = 3 ∨ val = 5 ∨ val = 7 then (true, { t with apertureSize := val })
      else (false, t)
  else (false, t)

/-- `CannyEdgeTreatment::getParameterInfo`. -/
def CannyEdgeTreatment.getParameterInfo : StdMap :=
  let info : StdMap := []
  let info := info.set "threshold1" "double - First threshold for hysteresis"
  let info := info.set "threshold2" "double - Second threshold for hysteresis"
  let info := info.set "apertureSize" "int (3, 5, or 7) - Sobel aperture size"
  info

/-- `CannyEdgeTreatment::clone`. -/
def CannyEdgeTreatment.clone (t : CannyEdgeTreatment D) : CannyEdgeTreatment D :=
  CannyEdgeTreatment.new t.threshold1 t.threshold2 t.apertureSize

/-! ### ThresholdTreatment -/

/-- Data members of `ThresholdTreatment`. -/
structure ThresholdTreatment (D : Type) where
  thresholdValue : D
  maxValue : D
  thresholdType : Int

/-- The constructor `ThresholdTreatment(thresh, maxVal, type)`. -/
def ThresholdTreatment.new (thresh maxVal : D) (type : Int) : ThresholdTreatment D :=
  { thresholdValue := thresh, maxValue := maxVal, thresholdType := type }

/-- `ThresholdTreatment::getParameters`. -/
def ThresholdTreatment.getParameters (ops : DoubleOps D) (t : ThresholdTreatment D) :
    StdMap :=
  let params : StdMap := []
  let params := params.set "thresholdValue" (ops.to_string t.thresholdValue)
  let params := params.set "maxValue" (ops.to_string t.maxValue)
  let params := params.set "thresholdType" (to_string t.thresholdType)
  params

/-- `ThresholdTreatment::setParameter`. -/
def ThresholdTreatment.setParameter (ops : DoubleOps D) (t : ThresholdTreatment D)
    (paramName value : String) : Bool × ThresholdTreatment D :=
  if paramName = "thresholdValue" then
    match ops.stod value with
    | none => (false, t)
    | some v => (true, { t with thresholdValue := v })
  else if paramName = "maxValue" then
    match ops.stod value with
    | none => (false, t)
    | some v => (true, { t with maxValue := v })
  else if paramName = "thresholdType" then
    match stoi value with
    | none => (false, t)
    | some val =>
      if val ≥ 0 ∧ val ≤ 4 then (true, { t with thresholdType := val })
      else (false, t)
  else (false, t)

/-- `ThresholdTreatment::getParameterInfo`. -/
def ThresholdTreatment.getParameterInfo : StdMap :=
  let info : StdMap := []
  let info := info.set "thresholdValue" "double - Threshold value"
  let info := info.set "maxValue" "double - Maximum value for binary modes"
  let info := info.set "thresholdType"
    "int (0-4) - 0:BINARY, 1:BINARY_INV, 2:TRUNC, 3:TOZERO, 4:TOZERO_INV"
  info

/-- `ThresholdTreatment::clone`. -/
def ThresholdTreatment.clone (t : ThresholdTreatment D) : ThresholdTreatment D :=
  ThresholdTreatment.new t.thresholdValue t.maxValue t.thresholdType

/-! ### SharpenTreatment -/

/-- Data member of `SharpenTreatment`. -/
structure SharpenTreatment (D : Type) where
  strength : D

/-- The constructor `SharpenTreatment(s)`. -/
def SharpenTreatment.new (s : D) : SharpenTreatment D :=
  { strength := s }

/-- `SharpenTreatment::getParameters`. -/
def SharpenTreatment.getParameters (ops : DoubleOps D) (t : SharpenTreatment D) : StdMap :=
  let params : StdMap := []
  let params := params.set "strength" (ops.to_string t.strength)
  params

/-- `SharpenTreatment::setParameter`. -/
def SharpenTreatment.setParameter (ops : DoubleOps D) (t : SharpenTreatment D)
    (paramName value : String) : Bool × SharpenTreatment D :=
  if paramName = "strength" then
    match ops.stod value with
    | none => (false, t)
    | some val =>
      if ops.geZero val then (true, { t with strength := val })
      else (false, t)
  else (false, t)

/-- `SharpenTreatment::getParameterInfo`. -/
def SharpenTreatment.getParameterInfo : StdMap :=
  let info : StdMap := []
  let info := info.set "strength"
    "double - Sharpening strength (0.0 to 1.0+, typical 0.5-2.0)"
  info

/-- `SharpenTreatment::clone`. -/
def SharpenTreatment.clone (t : SharpenTreatment D) : SharpenTreatment D :=
  SharpenTreatment.new t.strength

/-! ### ErosionTreatment -/

/-- Data members of `ErosionTreatment`. -/
structure ErosionTreatment where
  kernelSize : Int
  kernelShape : Int
  iterations : Int
deriving DecidableEq, Repr

/-- The constructor `ErosionTreatment(kSize, shape, iter)`. -/
def ErosionTreatment.new (kSize shape iter : Int) : ErosionTreatment :=
  let kernelSize := kSize
  let iterations := iter
  let kernelSize := if kernelSize < 1 then 1 else kernelSize
  let iterations := if iterations < 1 then 1 else iterations
  { kernelSize := kernelSize, kernelShape := shape, iterations := iterations }

/-- `ErosionTreatment::getParameters`. -/
def ErosionTreatment.getParameters (t : ErosionTreatment) : StdMap :=
  let params : StdMap := []
  let params := params.set "kernelSize" (to_string t.kernelSize)
  let params := params.set "kernelShape" (to_string t.kernelShape)
  let params := params.set "iterations" (to_string t.iterations)
  params

/-- `ErosionTreatment::setParameter`. -/
def ErosionTreatment.setParameter (t : ErosionTreatment)
    (paramName value : String) : Bool × ErosionTreatment :=
  if paramName = "kernelSize" then
    match stoi value with
    | none => (false, t)
    | some val =>
      if val > 0 then (true, { t with kernelSize := val })
      else (false, t)
  else if paramName = "kernelShape" then
    match stoi value with
    | none => (false, t)
    | some val =>
      if val ≥ 0 ∧ val ≤ 2 then (true, { t with kernelShape := val })
      else (false, t)
  else if paramName = "iterations" then
    match stoi value with
    | none => (false, t)
    | some val =>
      if val > 0 then (true, { t with iterations := val })
      else (false, t)
  else (false, t)

/-- `ErosionTreatment::getParameterInfo`. -/
def ErosionTreatment.getParameterInfo : StdMap :=
  let info : StdMap := []
  let info := info.set "kernelSize" "int - Size of structuring element"
  let info := info.set "kernelShape" "int - Shape: 0=RECT, 1=CROSS, 2=ELLIPSE"
  let info := info.set "iterations" "int - Number of erosion iterations"
  info

/-- `ErosionTreatment::clone`. -/
def ErosionTreatment.clone (t : ErosionTreatment) : ErosionTreatment :=
  ErosionTreatment.new t.kernelSize t.kernelShape t.iterations

/-! ### DilationTreatment -/

/-- Data members of `DilationTreatment`. -/
structure DilationTreatment where
  kernelSize : Int
  kernelShape : Int
  iterations : Int
deriving DecidableEq, Repr

/-- The constructor `DilationTreatment(kSize, shape, iter)`. -/
def DilationTreatment.new (kSize shape iter : Int) : DilationTreatment :=
  let kernelSize := kSize
  let iterations := iter
  let kernelSize := if kernelSize < 1 then 1 else kernelSize
  let iterations := if iterations < 1 then 1 else iterations
  { kernelSize := kernelSize, kernelShape := shape, iterations := iterations }

/-- `DilationTreatment::getParameters`. -/
def DilationTreatment.getParameters (t : DilationTreatment) : StdMap :=
  let params : StdMap := []
  let params := params.set "kernelSize" (to_string t.kernelSize)
  let params := params.set "kernelShape" (to_string t.kernelShape)
  let params := params.set "iterations" (to_string t.iterations)
  params

/-- `DilationTreatment::setParameter`. -/
def DilationTreatment.setParameter (t : DilationTreatment)
    (paramName value : String) : Bool × DilationTreatment :=
  if paramName = "kernelSize" then
    match stoi value with
    | none => (false, t)
    | some val =>
      if val > 0 then (true, { t with kernelSize := val })
      else (false, t)
  else if paramName = "kernelShape" then
    match stoi value with
    | none => (false, t)
    | some val =>
      if val ≥ 0 ∧ val ≤ 2 then (true, { t with kernelShape := val })
      else (false, t)
  else if paramName = "iterations" then
    match stoi value with
    | none => (false, t)
    | some val =>
      if val > 0 then (true, { t with iterations := val })
      else (false, t)
  else (false, t)

/-- `DilationTreatment::getParameterInfo`. -/
def DilationTreatment.getParameterInfo : StdMap :=
  let info : StdMap := []
  let info := info.set "kernelSize" "int - Size of structuring element"
  let info := info.set "kernelShape" "int - Shape: 0=RECT, 1=CROSS, 2=ELLIPSE"
  let info := info.set "iterations" "int - Number of dilation iterations"
  info

/-- `DilationTreatment::clone`. -/
def DilationTreatment.clone (t : DilationTreatment) : DilationTreatment :=
  DilationTreatment.new t.kernelSize t.kernelShape t.iterations

/-! ### MosaicTreatment -/

/-- Data member of `MosaicTreatment`. -/
structure MosaicTreatment where
  blockSize : Int
deriving DecidableEq, Repr

/-- The constructor `MosaicTreatment(blockSize)`. -/
def MosaicTreatment.new (blockSize : Int) : MosaicTreatment :=
  if blockSize < 1 then { blockSize := 1 } else { blockSize := blockSize }

/-- `MosaicTreatment::getParameters`. -/
def MosaicTreatment.getParameters (t : MosaicTreatment) : StdMap :=
  let params : StdMap := []
  let params := params.set "blockSize" (to_string t.blockSize)
  params

/-- `MosaicTreatment::setParameter`. -/
def MosaicTreatment.setParameter (t : MosaicTreatment)
    (paramName value : String) : Bool × MosaicTreatment :=
  if paramName = "blockSize" then
    match stoi value with
    | none => (false, t)
    | some val =>
      if val ≥ 1 then (true, { t with blockSize := val })
      else (false, t)
  else (false, t)

/-- `MosaicTreatment::getParameterInfo`. -/
def MosaicTreatment.getParameterInfo : StdMap :=
  let info : StdMap := []
  let info := info.set "blockSize"
    "int (positive) - Size of mosaic blocks (larger = more pixelated)"
  info

/-- `MosaicTreatment::clone`. -/
def MosaicTreatment.clone (t : MosaicTreatment) : MosaicTreatment :=
  MosaicTreatment.new t.blockSize

/-- `MosaicTreatment::setBlockSize`. -/
def MosaicTreatment.setBlockSize (t : MosaicTreatment) (size : Int) : MosaicTreatment :=
  if size ≥ 1 then { t with blockSize := size } else t

/-- `MosaicTreatment::getBlockSize`. -/
def MosaicTreatment.getBlockSize (t : MosaicTreatment) : Int :=
  t.blockSize

/-! ### A treatment object of any of the ten classes, and virtual dispatch -/

/-- A treatment object: its dynamic class and the data members of that class. -/
inductive TreatmentObject (D : Type) where
  | brightness (t : BrightnessTreatment D)
  | gaussianBlur (t : GaussianBlurTreatment D)
  | medianBlur (t : MedianBlurTreatment)
  | grayscale (t : GrayscaleTreatment)
  | cannyEdge (t : CannyEdgeTreatment D)
  | threshold (t : ThresholdTreatment D)
  | sharpen (t : SharpenTreatment D)
  | erosion (t : ErosionTreatment)
  | dilation (t : DilationTreatment)
  | mosaic (t : MosaicTreatment)

/-- The virtual call `t->getParameters()`. -/
def TreatmentObject.getParameters (ops : DoubleOps D) : TreatmentObject D → StdMap
  | .brightness t => t.getParameters ops
  | .gaussianBlur t => t.getParameters ops
  | .medianBlur t => t.getParameters
  | .grayscale t => t.getParameters
  | .cannyEdge t => t.getParameters ops
  | .threshold t => t.getParameters ops
  | .sharpen t => t.getParameters ops
  | .erosion t => t.getParameters
  | .dilation t => t.getParameters
  | .mosaic t => t.getParameters

/-- The virtual call `t->setParameter(paramName, value)`: the returned `bool` and the
object afterwards. -/
def TreatmentObject.setParameter (ops : DoubleOps D) (o : TreatmentObject D)
    (paramName value : String) : Bool × TreatmentObject D :=
  match o with
  | .brightness t =>
    let r := t.setParameter ops paramName value
    (r.1, .brightness r.2)
  | .gaussianBlur t =>
    let r := t.setParameter ops paramName value
    (r.1, .gaussianBlur r.2)
  | .medianBlur t =>
    let r := t.setParameter paramName value
    (r.1, .medianBlur r.2)
  | .grayscale t =>
    let r := t.setParameter paramName value
    (r.1, .grayscale r.2)
  | .cannyEdge t =>
    let r := t.setParameter ops paramName value
    (r.1, .cannyEdge r.2)
  | .threshold t =>
    let r := t.setParameter ops paramName value
    (r.1, .threshold r.2)
  | .sharpen t =>
    let r := t.setParameter ops paramName value
    (r.1, .sharpen r.2)
  | .erosion t =>
    let r := t.setParameter paramName value
    (r.1, .erosion r.2)
  | .dilation t =>
    let r := t.setParameter paramName value
    (r.1, .dilation r.2)
  | .mosaic t =>
    let r := t.setParameter paramName value
    (r.1, .mosaic r.2)

/-- The virtual call `t->getParameterInfo()`. -/
def TreatmentObject.getParameterInfo : TreatmentObject D → StdMap
  | .brightness _ => BrightnessTreatment.getParameterInfo
  | .gaussianBlur _ => GaussianBlurTreatment.getParameterInfo
  | .medianBlur _ => MedianBlurTreatment.getParameterInfo
  | .grayscale _ => GrayscaleTreatment.getParameterInfo
  | .cannyEdge _ => CannyEdgeTreatment.getParameterInfo
  | .threshold _ => ThresholdTreatment.getParameterInfo
  | .sharpen _ => SharpenTreatment.getParameterInfo
  | .erosion _ => ErosionTreatment.getParameterInfo
  | .dilation _ => DilationTreatment.getParameterInfo
  | .mosaic _ => MosaicTreatment.getParameterInfo

/-- The virtual call `t->clone()`: the value of the newly made object. -/
def TreatmentObject.clone : TreatmentObject D → TreatmentObject D
  | .brightness t => .brightness t.clone
  | .gaussianBlur t => .gaussianBlur t.clone
  | .medianBlur t => .medianBlur t.clone
  | .grayscale t => .grayscale t.clone
  | .cannyEdge t => .cannyEdge t.clone
  | .threshold t => .threshold t.clone
  | .sharpen t => .sharpen t.clone
  | .erosion t => .erosion t.clone
  | .dilation t => .dilation t.clone
  | .mosaic t => .mosaic t.clone

/-- `CannyEdgeTreatment::validateInput` (the override). -/
def CannyEdgeTreatment.validateInput (_t : CannyEdgeTreatment D) (input : Mat) : Bool :=
  !input.empty && (input.channels == 1 || input.channels == 3)

/-- `ThresholdTreatment::validateInput` (the override). -/
def ThresholdTreatment.validateInput (_t : ThresholdTreatment D) (input : Mat) : Bool :=
  !input.empty && (input.channels == 1 || input.channels == 3)

/-- The virtual call `t->validateInput(input)`: the override of Canny and threshold, the
body of the base class for the eight classes that do not override it. -/
def TreatmentObject.validateInput : TreatmentObject D → Mat → Bool
  | .brightness _ => Treatment.defaultValidateInput
  | .gaussianBlur _ => Treatment.defaultValidateInput
  | .medianBlur _ => Treatment.defaultValidateInput
  | .grayscale _ => Treatment.defaultValidateInput
  | .cannyEdge t => t.validateInput
  | .threshold t => t.validateInput
  | .sharpen _ => Treatment.defaultValidateInput
  | .erosion _ => Treatment.defaultValidateInput
  | .dilation _ => Treatment.defaultValidateInput
  | .mosaic _ => Treatment.defaultValidateInput

/-- The states a treatment object can be in: built by the constructor of its class from
arguments of the declared types (any `double`, any `int`), then changed by any number
of `setParameter` calls. -/
inductive Reachable (ops : DoubleOps D) : TreatmentObject D → Prop where
  | brightness (a b : D) : Reachable ops (.brightness (BrightnessTreatment.new a b))
  | gaussianBlur (kSize : Int) (sX sY : D) (hk : InIntRange kSize) :
      Reachable ops (.gaussianBlur (GaussianBlurTreatment.new kSize sX sY))
  | medianBlur (kSize : Int) (hk : InIntRange kSize) :
      Reachable ops (.medianBlur (MedianBlurTreatment.new kSize))
  | grayscale : Reachable ops (.grayscale GrayscaleTreatment.new)
  | cannyEdge (t1 t2 : D) (aperture : Int) (ha : InIntRange aperture) :
      Reachable ops (.cannyEdge (CannyEdgeTreatment.new t1 t2 aperture))
  | threshold (thresh maxVal : D) (type : Int) (ht : InIntRange type) :
      Reachable ops (.threshold (ThresholdTreatment.new thresh maxVal type))
  | sharpen (s : D) : Reachable ops (.sharpen (SharpenTreatment.new s))
  | erosion (kSize shape iter : Int) (hk : InIntRange kSize) (hs : InIntRange shape)
      (hi : InIntRange iter) :
      Reachable ops (.erosion (ErosionTreatment.new kSize shape iter))
  | dilation (kSize shape iter : Int) (hk : InIntRange kSize) (hs : InIntRange shape)
      (hi : InIntRange iter) :
      Reachable ops (.dilation (DilationTreatment.new kSize shape iter))
  | mosaic (blockSize : Int) (hb : InIntRange blockSize) :
      Reachable ops (.mosaic (MosaicTreatment.new blockSize))
  | setParameter (o : TreatmentObject D) (paramName value : String)
      (h : Reachable ops o) : Reachable ops (o.setParameter ops paramName value).2

/-! ### Objects behind pointers -/

/-- The treatment objects alive in the program, by address. -/
abbrev Heap (D : Type) := List (TreatmentObject D)

/-- `std::make_unique`: a new object holding `o`, at an address not used before. -/
def Heap.alloc (h : Heap D) (o : TreatmentObject D) : Heap D × Nat :=
  (h ++ [o], h.length)

/-- `p->clone()`: the heap afterwards and the address of the clone. -/
def Heap.clone (h : Heap D) (p : Nat) : Option (Heap D × Nat) :=
  match h[p]? with
  | none => none
  | some o => some (h.alloc o.clone)

/-- `p->setParameter(paramName, value)`: the returned `bool` and the heap afterwards. -/
def Heap.setParameter (ops : DoubleOps D) (h : Heap D) (p : Nat)
    (paramName value : String) : Option (Bool × Heap D) :=
  match h[p]? with
  | none => none
  | some o =>
    let r := o.setParameter ops paramName value
    some (r.1, h.set p r.2)

/-- `p->getParameters()`. -/
def Heap.getParameters (ops : DoubleOps D) (h : Heap D) (p : Nat) : Option StdMap :=
  match h[p]? with
  | none => none
  | some o => some (o.getParameters ops)

/-! ### Names and `process` of the ten classes -/

/-- The conversion codes given to `cv::cvtColor` by the treatments. -/
inductive ColorConversion where
  | COLOR_BGR2GRAY
  | COLOR_BGRA2GRAY
deriving DecidableEq, Repr

/-- The interpolation flags given to `cv::resize` by the mosaic treatment. -/
inductive Interpolation where
  | INTER_LINEAR
  | INTER_NEAREST
deriving DecidableEq, Repr

/-- The OpenCV functions the treatments delegate to.  They are not part of the
repository: each is an arbitrary function of the arguments the treatment passes.
`sharpen` is `cv::filter2D` with the 3 x 3 kernel that `SharpenTreatment::process`
fills from `strength`; `erode` and `dilate` take the shape and size given to
`cv::getStructuringElement` and the iteration count; the sizes of `GaussianBlur` and
`resize` are passed as width and height. -/
structure OpenCV (D : Type) where
  convertTo : Mat → D → D → Mat
  GaussianBlur : Mat → Int → Int → D → D → Mat
  medianBlur : Mat → Int → Mat
  cvtColor : Mat → ColorConversion → Mat
  Canny : Mat → D → D → Int → Mat
  threshold : Mat → D → D → Int → Mat
  sharpen : Mat → D → Mat
  erode : Mat → Int → Int → Int → Mat
  dilate : Mat → Int → Int → Int → Mat
  resize : Mat → Int → Int → Interpolation → Mat

/-- `BrightnessTreatment::getName`. -/
def BrightnessTreatment.getName (_t : BrightnessTreatment D) : String :=
  "Brightness/Contrast"

/-- `BrightnessTreatment::process`. -/
def BrightnessTreatment.process (cv : OpenCV D) (t : BrightnessTreatment D) (input : Mat) :
    Mat :=
  cv.convertTo input t.alpha t.beta

/-- `GaussianBlurTreatment::getName`. -/
def GaussianBlurTreatment.getName (_t : GaussianBlurTreatment D) : String :=
  "Gaussian Blur"

/-- `GaussianBlurTreatment::process`. -/
def GaussianBlurTreatment.process (cv : OpenCV D) (t : GaussianBlurTreatment D)
    (input : Mat) : Mat :=
  cv.GaussianBlur input t.kernelSize t.kernelSize t.sigmaX t.sigmaY

/-- `MedianBlurTreatment::getName`. -/
def MedianBlurTreatment.getName (_t : MedianBlurTreatment) : String :=
  "Median Blur"

/-- `MedianBlurTreatment::process`. -/
def MedianBlurTreatment.process (cv : OpenCV D) (t : MedianBlurTreatment) (input : Mat) :
    Mat :=
  cv.medianBlur input t.kernelSize

/-- `GrayscaleTreatment::getName`. -/
def GrayscaleTreatment.getName (_t : GrayscaleTreatment) : String :=
  "Grayscale"

/-- `GrayscaleTreatment::process`. -/
def GrayscaleTreatment.process (cv : OpenCV D) (_t : GrayscaleTreatment) (input : Mat) :
    Mat :=
  if input.channels = 3 then cv.cvtColor input .COLOR_BGR2GRAY
  else if input.channels = 4 then cv.cvtColor input .COLOR_BGRA2GRAY
  else input.clone

/-- `CannyEdgeTreatment::getName`. -/
def CannyEdgeTreatment.getName (_t : CannyEdgeTreatment D) : String :=
  "Canny Edge Detection"

/-- `CannyEdgeTreatment::process`. -/
def CannyEdgeTreatment.process (cv : OpenCV D) (t : CannyEdgeTreatment D) (input : Mat) :
    Mat :=
  let gray := if input.channels = 3 then cv.cvtColor input .COLOR_BGR2GRAY else input
  cv.Canny gray t.threshold1 t.threshold2 t.apertureSize

/-- `ThresholdTreatment::getName`. -/
def ThresholdTreatment.getName (_t : ThresholdTreatment D) : String :=
  "Threshold"

/-- `ThresholdTreatment::process`. -/
def ThresholdTreatment.process (cv : OpenCV D) (t : ThresholdTreatment D) (input : Mat) :
    Mat :=
  let gray := if input.channels = 3 then cv.cvtColor input .COLOR_BGR2GRAY else input
  cv.threshold gray t.thresholdValue t.maxValue t.thresholdType

/-- `SharpenTreatment::getName`. -/
def SharpenTreatment.getName (_t : SharpenTreatment D) : String :=
  "Sharpen"

/-- `SharpenTreatment::process`. -/
def SharpenTreatment.process (cv : OpenCV D) (t : SharpenTreatment D) (input : Mat) : Mat :=
  cv.sharpen input t.strength

/-- `ErosionTreatment::getName`. -/
def ErosionTreatment.getName (_t : ErosionTreatment) : String :=
  "Erosion"

/-- `ErosionTreatment::process`. -/
def ErosionTreatment.process (cv : OpenCV D) (t : ErosionTreatment) (input : Mat) : Mat :=
  cv.erode input t.kernelShape t.kernelSize t.iterations

/-- `DilationTreatment::getName`. -/
def DilationTreatment.getName (_t : DilationTreatment) : String :=
  "Dilation"

/-- `DilationTreatment::process`. -/
def DilationTreatment.process (cv : OpenCV D) (t : DilationTreatment) (input : Mat) : Mat :=
  cv.dilate input t.kernelShape t.kernelSize t.iterations

/-- `MosaicTreatment::getName`. -/
def MosaicTreatment.getName (_t : MosaicTreatment) : String :=
  "Mosaic Effect"

/-- `MosaicTreatment::process`.  `image.cols / blockSize` is the division of two `int`s
(truncated). -/
def MosaicTreatment.process (cv : OpenCV D) (t : MosaicTreatment) (image : Mat) : Mat :=
  if image.empty then image
  else
    let newWidth := max 1 (Int.tdiv (image.cols : Int) t.blockSize)
    let newHeight := max 1 (Int.tdiv (image.rows : Int) t.blockSize)
    let smallImage := cv.resize image newWidth newHeight .INTER_LINEAR
    cv.resize smallImage (image.cols : Int) (image.rows : Int) .INTER_NEAREST

/-- The virtual call `t->getName()`. -/
def TreatmentObject.getName : TreatmentObject D → String
  | .brightness t => t.getName
  | .gaussianBlur t => t.getName
  | .medianBlur t => t.getName
  | .grayscale t => t.getName
  | .cannyEdge t => t.getName
  | .threshold t => t.getName
  | .sharpen t => t.getName
  | .erosion t => t.getName
  | .dilation t => t.getName
  | .mosaic t => t.getName

/-- The virtual call `t->process(input)`. -/
def TreatmentObject.process (cv : OpenCV D) : TreatmentObject D → Mat → Mat
  | .brightness t => t.process cv
  | .gaussianBlur t => t.process cv
  | .medianBlur t => t.process cv
  | .grayscale t => t.process cv
  | .cannyEdge t => t.process cv
  | .threshold t => t.process cv
  | .sharpen t => t.process cv
  | .erosion t => t.process cv
  | .dilation t => t.process cv
  | .mosaic t => t.process cv

/-- A treatment object as an element of a chain: what the chain calls on it. -/
def TreatmentObject.toTreatment (cv : OpenCV D) (o : TreatmentObject D) : Treatment :=
  { getName := o.getName, validateInput := o.validateInput, process := o.process cv }

/-- The states a mosaic treatment can be in: built by its constructor from any `int`,
then changed by any number of `setParameter` and `setBlockSize` calls. -/
inductive MosaicTreatment.Reachable : MosaicTreatment → Prop where
  | new (blockSize : Int) (hb : InIntRange blockSize) :
      MosaicTreatment.Reachable (MosaicTreatment.new blockSize)
  | setParameter (t : MosaicTreatment) (paramName value : String)
      (h : MosaicTreatment.Reachable t) :
      MosaicTreatment.Reachable (t.setParameter paramName value).2
  | setBlockSize (t : MosaicTreatment) (size : Int) (hs : InIntRange size)
      (h : MosaicTreatment.Reachable t) :
      MosaicTreatment.Reachable (t.setBlockSize size)

end Treatments

/-! ## Image sources (`ImageSource.h`) -/

/-- A default-constructed `cv::Mat` (`cv::Mat frame;`): no element. -/
def Mat.new : Mat :=
  { rows := 0, cols := 0, channels := 1, data := [] }

/-- A `cv::Scalar`: four numbers.  The finite `double`s it holds are the rationals they
denote, so that `std::max` and `>` on them are the order of the rationals. -/
structure Scalar where
  v0 : ℚ
  v1 : ℚ
  v2 : ℚ
  v3 : ℚ

/-- The sum of the samples of channel `c` of a buffer. -/
def Mat.channelSum (m : Mat) (c : Nat) : Nat :=
  ((List.range (m.rows * m.cols)).map (fun p => m.data.getD (p * m.channels + c) 0)).sum

/-- The mean of channel `c` of a buffer in exact arithmetic, 0 for a channel the buffer
does not have. -/
def Mat.channelMean (m : Mat) (c : Nat) : ℚ :=
  if c < m.channels then (m.channelSum c : ℚ) / ((m.rows * m.cols : Nat) : ℚ) else 0

/-- `cv::mean` of OpenCV, in exact arithmetic: the mean of each of the (up to four)
channels, 0 for the channels the buffer does not have. -/
def cvMean (m : Mat) : Scalar :=
  { v0 := m.channelMean 0, v1 := m.channelMean 1, v2 := m.channelMean 2,
    v3 := m.channelMean 3 }

/-- A `WebcamImageSource`: the `cv::VideoCapture` member seen as the device behind it
(`frames n` is what the `n`-th read of the device delivers, an empty buffer when that
read fails), whether the capture is open, how many reads were done, and `deviceId`;
with two ghost records, the `sleep_for` calls made (milliseconds, in call order) and the
number of `capture.release()` calls made. -/
structure WebcamImageSource where
  frames : Nat → Mat
  opened : Bool
  reads : Nat
  deviceId : Int
  delays : List Nat
  releases : Nat

/-- The constructor `WebcamImageSource(id)`: `capture.open(deviceId)` succeeds or not,
which the environment decides. -/
def WebcamImageSource.new (frames : Nat → Mat) (openSucceeds : Bool) (id : Int) :
    WebcamImageSource :=
  { frames := frames, opened := openSucceeds, reads := 0, deviceId := id, delays := [],
    releases := 0 }

/-- `capture >> frame`: the next frame of the device; on a capture that is not open, an
empty buffer and no device read. -/
def WebcamImageSource.read (w : WebcamImageSource) : Mat × WebcamImageSource :=
  if w.opened then (w.frames w.reads, { w with reads := w.reads + 1 })
  else (Mat.new, w)

/-- `std::this_thread::sleep_for(std::chrono::milliseconds(ms))`. -/
def WebcamImageSource.sleep_for (w : WebcamImageSource) (ms : Nat) : WebcamImageSource :=
  { w with delays := w.delays ++ [ms] }

/-- `capture.release()`. -/
def WebcamImageSource.release (w : WebcamImageSource) : WebcamImageSource :=
  { w with opened := false, releases := w.releases + 1 }

/-- `WebcamImageSource::isAvailable`. -/
def WebcamImageSource.isAvailable (w : WebcamImageSource) : Bool :=
  w.opened

/-- The destructor `~WebcamImageSource`: the state it leaves. -/
def WebcamImageSource.destroy (w : WebcamImageSource) : WebcamImageSource :=
  if w.opened then w.release else w

/-- The `for (attempt = 0; attempt < 3; attempt++)` loop of `getImage`, with `n`
iterations left. -/
def WebcamImageSource.getImageLoop : Nat → Mat → WebcamImageSource → Mat × WebcamImageSource
  | 0, frame, w => (frame, w)
  | n + 1, _, w =>
    let w1 := w.sleep_for 50
    let r := w1.read
    if !r.1.empty then (r.1, r.2)
    else WebcamImageSource.getImageLoop n r.1 r.2

/-- `WebcamImageSource::getImage`: the returned frame and the source afterwards. -/
def WebcamImageSource.getImage (w : WebcamImageSource) : Mat × WebcamImageSource :=
  let frame := Mat.new
  if w.opened then
    let r := w.read
    if r.1.empty then WebcamImageSource.getImageLoop 3 r.1 r.2
    else (r.1, r.2)
  else (frame, w)

/-- The loop `for (int i = 0; i < skipFrames; i++)` of `getImageWithRetry`, with `n`
iterations left and the loop counter at `i`. -/
def WebcamImageSource.skipLoop (skipFrames : Int) :
    Nat → Nat → Mat → WebcamImageSource → Mat × WebcamImageSource
  | 0, _, frame, w => (frame, w)
  | n + 1, i, _, w =>
    let r := w.read
    let w1 := if (i : Int) < skipFrames - 1 then r.2.sleep_for 30 else r.2
    WebcamImageSource.skipLoop skipFrames n (i + 1) r.1 w1

/-- The loop `for (int attempt = 0; attempt < retries; attempt++)` of
`getImageWithRetry`, with `n` iterations left.  `mean` is `cv::mean`. -/
def WebcamImageSource.retryLoop (mean : Mat → Scalar) (validateNonBlack : Bool) :
    Nat → Mat → WebcamImageSource → Mat × WebcamImageSource
  | 0, frame, w => (frame, w)
  | n + 1, _, w =>
    let r := w.read
    if !r.1.empty then
      if validateNonBlack then
        let m := mean r.1
        let maxMean := max (max m.v0 m.v1) m.v2
        if maxMean > 5 then (r.1, r.2)
        else WebcamImageSource.retryLoop mean validateNonBlack n r.1 (r.2.sleep_for 50)
      else (r.1, r.2)
    else WebcamImageSource.retryLoop mean validateNonBlack n r.1 (r.2.sleep_for 50)

/-- `WebcamImageSource::getImageWithRetry`: the returned frame and the source
afterwards.  A loop `for (int i = 0; i < n; i++)` runs `n` times for `n > 0` and not at
all otherwise, that is `n.toNat` times. -/
def WebcamImageSource.getImageWithRetry (mean : Mat → Scalar) (w : WebcamImageSource)
    (skipFrames retries : Int) (validateNonBlack : Bool) : Mat × WebcamImageSource :=
  let frame := Mat.new
  if !w.opened then (frame, w)
  else
    let r := WebcamImageSource.skipLoop skipFrames skipFrames.toNat 0 frame w
    WebcamImageSource.retryLoop mean validateNonBlack retries.toNat r.1 r.2

/-- `WebcamImageSource::getStableImage`. -/
def WebcamImageSource.getStableImage (mean : Mat → Scalar) (w : WebcamImageSource) :
    Mat × WebcamImageSource :=
  w.getImageWithRetry mean 8 20 true

/-- `WebcamImageSource::captureFrame`. -/
def WebcamImageSource.captureFrame (w : WebcamImageSource) : Mat × WebcamImageSource :=
  let r := w.getImage
  if r.2.opened then (r.1, r.2.release) else (r.1, r.2)

/-- The value `maxMean` that `getImageWithRetry` compares with 5.0: the largest of the
first three entries of the `cv::Scalar`. -/
def Scalar.maxOfFirstThree (s : Scalar) : ℚ :=
  max (max s.v0 s.v1) s.v2

/-- The largest of the per-channel means of a frame of `channels` channels (one to
four), read from the `cv::Scalar` that `cv::mean` computed for it. -/
def Scalar.maxChannelMean (s : Scalar) (channels : Nat) : ℚ :=
  match channels with
  | 0 => s.v0
  | 1 => s.v0
  | 2 => max s.v0 s.v1
  | 3 => max (max s.v0 s.v1) s.v2
  | _ => max (max (max s.v0 s.v1) s.v2) s.v3

/-- What `cv::mean` guarantees about the entries of channels a buffer does not have:
they are 0. -/
def AbsentChannelsZero (mean : Mat → Scalar) : Prop :=
  ∀ f : Mat, (f.channels ≤ 1 → (mean f).v1 = 0) ∧ (f.channels ≤ 2 → (mean f).v2 = 0) ∧
    (f.channels ≤ 3 → (mean f).v3 = 0)

/-- The retry loop of `getImageWithRetry` returns the frame `f` as soon as it has read
it: `f` is not empty and, when validation is on, `maxMean > 5.0`. -/
def acceptsFrame (mean : Mat → Scalar) (validateNonBlack : Bool) (f : Mat) : Bool :=
  !f.empty && (!validateNonBlack || decide (5 < (mean f).maxOfFirstThree))

/-- A device that delivers the frames of a list, then empty buffers. -/
def framesOfList (l : List Mat) : Nat → Mat :=
  fun n => l.getD n Mat.new

/-! ## Predicates used in the statements -/

section Predicates

variable {D : Type}

/-- The constraints the constructors establish on the `int` members they normalise:
Gaussian and median kernel size odd and at least 1, Canny aperture 3, 5 or 7, erosion
and dilation kernel size and iterations at least 1, mosaic block size at least 1. -/
def ConstructorNormal : TreatmentObject D → Prop
  | .brightness _ => True
  | .gaussianBlur t => Int.tmod t.kernelSize 2 ≠ 0 ∧ 1 ≤ t.kernelSize
  | .medianBlur t => Int.tmod t.kernelSize 2 ≠ 0 ∧ 1 ≤ t.kernelSize
  | .grayscale _ => True
  | .cannyEdge t => t.apertureSize = 3 ∨ t.apertureSize = 5 ∨ t.apertureSize = 7
  | .threshold _ => True
  | .sharpen _ => True
  | .erosion t => 1 ≤ t.kernelSize ∧ 1 ≤ t.iterations
  | .dilation t => 1 ≤ t.kernelSize ∧ 1 ≤ t.iterations
  | .mosaic t => 1 ≤ t.blockSize

/-- The allowed range of the integer parameters: `kernelSize`, `iterations` and
`blockSize` at least 1, `kernelShape` in `0..2`, `thresholdType` in `0..4`,
`apertureSize` one of 3, 5, 7.  `IntOutOfRange paramName v` says that `v` lies outside
the range of the parameter `paramName`. -/
def IntOutOfRange (paramName : String) (v : Int) : Prop :=
  ((paramName = "kernelSize" ∨ paramName = "iterations" ∨ paramName = "blockSize") ∧ v < 1) ∨
  (paramName = "kernelShape" ∧ (v < 0 ∨ 2 < v)) ∨
  (paramName = "thresholdType" ∧ (v < 0 ∨ 4 < v)) ∨
  (paramName = "apertureSize" ∧ v ≠ 3 ∧ v ≠ 5 ∧ v ≠ 7)

/-- The names of the parameters declared `int` in the ten classes. -/
def intParameterNames : List String :=
  ["kernelSize", "apertureSize", "thresholdType", "kernelShape", "iterations", "blockSize"]

/-- The names of the parameters declared `double` in the ten classes. -/
def doubleParameterNames : List String :=
  ["alpha", "beta", "sigmaX", "sigmaY", "threshold1", "threshold2", "thresholdValue",
    "maxValue", "strength"]

/-- Restoring a parameter state from a mapping: `u.setParameter(name, value)` is called
for each entry in turn; the result tells whether every call returned `true`, and gives
the object afterwards. -/
def restoreFrom (ops : DoubleOps D) (u : TreatmentObject D) (m : StdMap) :
    Bool × TreatmentObject D :=
  m.foldl (fun acc entry =>
    let r := acc.2.setParameter ops entry.1 entry.2
    (acc.1 && r.1, r.2)) (true, u)

/-- The string is, in its entirety, an optionally signed decimal integer. -/
def IsDecimalInteger (s : String) : Bool :=
  match s.toList with
  | '-' :: ds => !ds.isEmpty && ds.all Char.isDigit
  | '+' :: ds => !ds.isEmpty && ds.all Char.isDigit
  | ds => !ds.isEmpty && ds.all Char.isDigit

/-- The string begins, after optional white space and at most one sign, with a decimal
digit. -/
def StartsWithInteger (s : String) : Prop :=
  ∃ (ws sign : List Char) (d : Char) (rest : List Char),
    s.toList = ws ++ sign ++ d :: rest ∧ (∀ c ∈ ws, isspace c = true) ∧
    (sign = [] ∨ sign = ['+'] ∨ sign = ['-']) ∧ d.isDigit = true

end Predicates

/-! ## Concrete values used to evaluate the definitions -/

/-- A 2 x 2 buffer with three channels. -/
def exampleInput : Mat :=
  { rows := 2, cols := 2, channels := 3, data := [10, 20, 30, 40, 50, 60, 70, 80, 90, 15, 25, 35] }

/-- A stage with the default `validateInput` whose output has one channel. -/
def stageToGray : Treatment :=
  { getName := "Grayscale"
    validateInput := Treatment.defaultValidateInput
    process := fun m => { m with channels := 1, data := [20, 50, 80, 25] } }

/-- A stage with the default `validateInput` whose output has four channels. -/
def stageAddAlpha : Treatment :=
  { getName := "Add alpha"
    validateInput := Treatment.defaultValidateInput
    process := fun m => { m with channels := 4 } }

/-- A stage that accepts non-empty buffers of 1 or 3 channels only. -/
def stageEdges : Treatment :=
  { getName := "Canny Edge Detection"
    validateInput := fun m => !m.empty && (m.channels == 1 || m.channels == 3)
    process := fun m => { m with channels := 1 } }

/-- A chain of two stages that has already been run once on some other buffer. -/
def exampleChain : TreatmentChain :=
  { treatments := [stageToGray, stageEdges]
    originalImage := { rows := 1, cols := 1, channels := 1, data := [7] }
    intermediateResults := [{ rows := 1, cols := 1, channels := 1, data := [7] }] }

/-- A chain whose second stage rejects the output of its first stage. -/
def rejectingChain : TreatmentChain :=
  { treatments := [stageAddAlpha, stageEdges]
    originalImage := { rows := 1, cols := 1, channels := 1, data := [7] }
    intermediateResults := [{ rows := 1, cols := 1, channels := 1, data := [7] }] }

/-- A default-constructed `cv::Mat`: no element. -/
def emptyMat : Mat :=
  { rows := 0, cols := 0, channels := 1, data := [] }

/-- A Gaussian blur built with the even kernel size 4, over the example doubles. -/
def exampleBlur : TreatmentObject Int :=
  .gaussianBlur (GaussianBlurTreatment.new 4 0 0)

/-- A threshold treatment with its default arguments, over the example doubles. -/
def exampleThreshold : TreatmentObject Int :=
  .threshold (ThresholdTreatment.new 127 255 THRESH_BINARY)

/-- A default-constructed erosion. -/
def exampleErosion : TreatmentObject Int :=
  .erosion (ErosionTreatment.new 3 MORPH_RECT 1)

/-- A sharpen treatment of strength 1, over the example doubles. -/
def exampleSharpen : TreatmentObject Int :=
  .sharpen (SharpenTreatment.new 1)

/-- A mosaic treatment with its default block size. -/
def exampleMosaic : TreatmentObject Int :=
  .mosaic (MosaicTreatment.new 10)

/-- A bright 1 x 1 frame of three channels. -/
def brightFrame : Mat :=
  { rows := 1, cols := 1, channels := 3, data := [200, 180, 160] }

/-- A black 1 x 1 frame of three channels. -/
def blackFrame : Mat :=
  { rows := 1, cols := 1, channels := 3, data := [0, 0, 0] }

/-- A 1 x 1 frame of four channels, black but for its fourth channel. -/
def alphaOnlyFrame : Mat :=
  { rows := 1, cols := 1, channels := 4, data := [0, 0, 0, 255] }

/-- A 1 x 2 frame of one channel whose mean is exactly 5. -/
def grayFiveFrame : Mat :=
  { rows := 1, cols := 2, channels := 1, data := [4, 6] }

/-- Stand-ins for the OpenCV functions that only track shapes: colour conversion to gray
gives one channel, every other function keeps the shape of its input. -/
def shapeOnlyOpenCV : OpenCV Int :=
  { convertTo := fun m _ _ => m
    GaussianBlur := fun m _ _ _ _ => m
    medianBlur := fun m _ => m
    cvtColor := fun m _ => { m with channels := 1, data := [] }
    Canny := fun m _ _ _ => m
    threshold := fun m _ _ _ => m
    sharpen := fun m _ => m
    erode := fun m _ _ _ => m
    dilate := fun m _ _ _ => m
    resize := fun m w h _ => { m with cols := w.toNat, rows := h.toNat } }

/-- A 100 x 100 buffer of three channels (its samples are left out). -/
def hundredSquareInput : Mat :=
  { rows := 100, cols := 100, channels := 3, data := [] }

/-- The scenario chain `[Grayscale, GaussianBlur(5), Threshold(127, 255, BINARY)]` over
the shape-only stand-ins, before any run. -/
def scenarioChain : TreatmentChain :=
  { treatments :=
      [(TreatmentObject.grayscale GrayscaleTreatment.new).toTreatment shapeOnlyOpenCV,
       (TreatmentObject.gaussianBlur (GaussianBlurTreatment.new 5 0 0)).toTreatment
         shapeOnlyOpenCV,
       (TreatmentObject.threshold (ThresholdTreatment.new 127 255 THRESH_BINARY)).toTreatment
         shapeOnlyOpenCV]
    originalImage := Mat.new
    intermediateResults := [] }

/-! ## The display loop of the demos, map lookup, the reduced size of the mosaic -/

/-- The display loop of the demos in `test_webcam.cpp`,
`for (size_t i = 0; i <= chain.getTreatmentCount(); i++)`, over the indices still to
visit: it reads `getIntermediateResult(i)` and, for `i != 0`, the name of
`getTreatment(i - 1)`.  `shown` is the (ghost) list of the `cv::imshow` calls, each with
its window name and buffer; `label` is the text the window names start with, and
`skipEmpty` tells whether the loop has the `if (intermediate.empty()) continue;` of the
second demo. -/
def displayLoop (label : String) (skipEmpty : Bool) (c : TreatmentChain) :
    List Nat → List (String × Mat) → Except Exception (List (String × Mat))
  | [], shown => .ok shown
  | i :: rest, shown =>
    match c.getIntermediateResult i with
    | .error e => .error e
    | .ok intermediate =>
      if skipEmpty && intermediate.empty then displayLoop label skipEmpty c rest shown
      else if i = 0 then
        displayLoop label skipEmpty c rest
          (shown ++ [(label ++ toString i ++ " - Original", intermediate)])
      else
        match (c.getTreatment (i - 1)).1 with
        | .error e => .error e
        | .ok t =>
          displayLoop label skipEmpty c rest
            (shown ++ [(label ++ toString i ++ " - " ++ t.getName, intermediate)])

/-- The display loop of the demos, from `i = 0` to `i = getTreatmentCount()`. -/
def showIntermediateResults (label : String) (skipEmpty : Bool) (c : TreatmentChain) :
    Except Exception (List (String × Mat)) :=
  displayLoop label skipEmpty c (List.range (c.getTreatmentCount + 1)) []

/-- A fresh chain that holds the stage to gray only. -/
def chainToGray : TreatmentChain :=
  { treatments := [stageToGray], originalImage := emptyMat, intermediateResults := [] }

/-- A fresh chain that holds the stage adding a fourth channel only. -/
def chainAddAlpha : TreatmentChain :=
  { treatments := [stageAddAlpha], originalImage := emptyMat, intermediateResults := [] }

/-- A fresh chain that holds the edge stage only. -/
def chainEdges : TreatmentChain :=
  { treatments := [stageEdges], originalImage := emptyMat, intermediateResults := [] }

/-- The lookup `m.find(k)` on a `std::map`: the value stored under `k`, if any. -/
def StdMap.find : StdMap → String → Option String
  | [], _ => none
  | (k0, v0) :: rest, k => if k = k0 then some v0 else StdMap.find rest k

/-- Whether two treatment objects have the same dynamic class. -/
def TreatmentObject.sameClass {D : Type} : TreatmentObject D → TreatmentObject D → Bool
  | .brightness _, .brightness _ => true
  | .gaussianBlur _, .gaussianBlur _ => true
  | .medianBlur _, .medianBlur _ => true
  | .grayscale _, .grayscale _ => true
  | .cannyEdge _, .cannyEdge _ => true
  | .threshold _, .threshold _ => true
  | .sharpen _, .sharpen _ => true
  | .erosion _, .erosion _ => true
  | .dilation _, .dilation _ => true
  | .mosaic _, .mosaic _ => true
  | _, _ => false

/-- The division `a / b` of two `int`s: the truncated quotient, `none` where the
division is undefined (`b` is 0, or the quotient `INT_MIN / -1` does not fit). -/
def intDiv (a b : Int) : Option Int :=
  if b = 0 then none
  else if a = INT_MIN ∧ b = -1 then none
  else some (Int.tdiv a b)

/-- The size `cv::Size(newWidth, newHeight)` that `MosaicTreatment::process` computes
for a non-empty image: `std::max(1, image.cols / blockSize)` and
`std::max(1, image.rows / blockSize)`; `none` when one of the divisions is undefined. -/
def MosaicTreatment.reducedSize (t : MosaicTreatment) (image : Mat) : Option (Int × Int) :=
  match intDiv (image.cols : Int) t.blockSize, intDiv (image.rows : Int) t.blockSize with
  | some w, some h => some (max 1 w, max 1 h)
  | _, _ => none

/-! ## The chain run -/

theorem allAccept_cons (t : Treatment) (rest : List Treatment) (input : Mat) :
    AllAccept (t :: rest) input ↔
      t.validateInput input = true ∧ AllAccept rest (t.process input) := by
  constructor
  · intro h
    refine ⟨by simpa [applyInOrder] using h 0 t (by simp), ?_⟩
    intro i u hu
    simpa [applyInOrder] using h (i + 1) u (by simpa using hu)
  · rintro ⟨h0, h⟩ i u hu
    cases i with
    | zero =>
      simp only [List.getElem?_cons_zero, Option.some.injEq] at hu
      subst hu
      simpa [applyInOrder] using h0
    | succ n =>
      simpa [applyInOrder] using h n u (by simpa using hu)

theorem firstRejectAt_zero (t : Treatment) (rest : List Treatment) (input : Mat) :
    FirstRejectAt (t :: rest) input 0 ↔ t.validateInput input = false := by
  simp [FirstRejectAt, applyInOrder]

theorem firstRejectAt_succ (t : Treatment) (rest : List Treatment) (input : Mat) (j : Nat) :
    FirstRejectAt (t :: rest) input (j + 1) ↔
      t.validateInput input = true ∧ FirstRejectAt rest (t.process input) j := by
  constructor
  · rintro ⟨⟨u, hu, hrej⟩, hacc⟩
    refine ⟨by simpa [applyInOrder] using hacc 0 t (Nat.succ_pos j) (by simp),
      ⟨u, by simpa using hu, by simpa [applyInOrder] using hrej⟩, ?_⟩
    intro i v hi hv
    simpa [applyInOrder] using hacc (i + 1) v (Nat.succ_lt_succ hi) (by simpa using hv)
  · rintro ⟨h0, ⟨u, hu, hrej⟩, hacc⟩
    refine ⟨⟨u, by simpa using hu, by simpa [applyInOrder] using hrej⟩, ?_⟩
    intro i v hi hv
    cases i with
    | zero =>
      simp only [List.getElem?_cons_zero, Option.some.injEq] at hv
      subst hv
      simpa [applyInOrder] using h0
    | succ n =>
      simpa [applyInOrder] using
        hacc n v (Nat.lt_of_succ_lt_succ hi) (by simpa using hv)

theorem firstRejectAt_nil (input : Mat) (j : Nat) : ¬ FirstRejectAt [] input j := by
  rintro ⟨⟨u, hu, _⟩, _⟩
  simp at hu

/-- The outputs of stages `1 .. n` of `ts` started on `current`. -/
theorem map_range_cons_shift (t : Treatment) (rest : List Treatment) (current : Mat)
    (n : Nat) :
    (List.range (n + 1)).map (fun k => applyInOrder ((t :: rest).take (k + 1)) current) =
      t.process current ::
        (List.range n).map (fun k => applyInOrder (rest.take (k + 1)) (t.process current)) := by
  rw [List.range_succ_eq_map]
  simp [applyInOrder, Function.comp_def]

theorem processLoop_ok (rest : List Treatment) :
    ∀ (i : Nat) (current : Mat) (results : List Mat) (calls : List Nat),
      AllAccept rest current →
      TreatmentChain.processLoop rest i current results calls =
        (.ok (applyInOrder rest current),
         results ++ (List.range rest.length).map
           (fun k => applyInOrder (rest.take (k + 1)) current),
         calls ++ List.range' i rest.length) := by
  induction rest with
  | nil =>
    intro i current results calls _
    simp [TreatmentChain.processLoop, applyInOrder]
  | cons t rest ih =>
    intro i current results calls h
    obtain ⟨h0, h1⟩ := (allAccept_cons t rest current).1 h
    rw [TreatmentChain.processLoop]
    simp only [h0, Bool.not_true, Bool.false_eq_true, if_false]
    rw [ih (i + 1) (t.process current) _ _ h1, List.length_cons,
      map_range_cons_shift]
    simp [Mat.clone, applyInOrder, List.range'_succ]

theorem processLoop_reject (rest : List Treatment) :
    ∀ (i : Nat) (current : Mat) (results : List Mat) (calls : List Nat) (j : Nat),
      FirstRejectAt rest current j →
      TreatmentChain.processLoop rest i current results calls =
        (.error (.runtime_error
          ("Treatment " ++ toString (i + j) ++ " cannot process the current image")),
         results ++ (List.range j).map
           (fun k => applyInOrder (rest.take (k + 1)) current),
         calls ++ List.range' i j) := by
  induction rest with
  | nil =>
    intro i current results calls j h
    exact absurd h (firstRejectAt_nil current j)
  | cons t rest ih =>
    intro i current results calls j h
    cases j with
    | zero =>
      have h0 := (firstRejectAt_zero t rest current).1 h
      rw [TreatmentChain.processLoop]
      simp [h0]
    | succ n =>
      obtain ⟨h0, h1⟩ := (firstRejectAt_succ t rest current n).1 h
      rw [TreatmentChain.processLoop]
      simp only [h0, Bool.not_true, Bool.false_eq_true, if_false]
      rw [ih (i + 1) (t.process current) _ _ n h1, map_range_cons_shift]
      simp [Mat.clone, List.range'_succ, Nat.add_assoc, Nat.add_comm 1 n]

theorem stageOutputs_eq (ts : List Treatment) (input : Mat) (n : Nat) :
    stageOutputs ts input n =
      [input.clone] ++ (List.range n).map (fun k => applyInOrder (ts.take (k + 1)) input) := by
  rw [stageOutputs, List.range_succ_eq_map]
  simp [applyInOrder, Mat.clone, Function.comp_def]

theorem stageOutputs_getElem? (ts : List Treatment) (input : Mat) (n i : Nat) (h : i ≤ n) :
    (stageOutputs ts input n)[i]? = some (applyInOrder (ts.take i) input) := by
  simp [stageOutputs, List.getElem?_map, List.getElem?_range (Nat.lt_succ_of_le h)]

theorem applyInOrder_take_succ (ts : List Treatment) (input : Mat) (n : Nat) (t : Treatment)
    (h : ts[n]? = some t) :
    applyInOrder (ts.take (n + 1)) input = t.process (applyInOrder (ts.take n) input) := by
  rw [List.take_succ, h]
  simp [applyInOrder, List.foldl_append]

theorem processLoop_ok_allAccept (rest : List Treatment) :
    ∀ (i : Nat) (current : Mat) (results : List Mat) (calls : List Nat) (m : Mat),
      (TreatmentChain.processLoop rest i current results calls).1 = .ok m →
      AllAccept rest current := by
  induction rest with
  | nil =>
    intro i current results calls m _ k t hk
    simp at hk
  | cons t rest ih =>
    intro i current results calls m h
    rw [TreatmentChain.processLoop] at h
    cases hv : t.validateInput current with
    | false => simp [hv] at h
    | true =>
      simp only [hv, Bool.not_true, Bool.false_eq_true, if_false] at h
      exact (allAccept_cons t rest current).2 ⟨hv, ih _ _ _ _ m h⟩

theorem allAccept_nil (input : Mat) : AllAccept [] input := by
  intro i t h
  simp at h

theorem processChain_of_allAccept (c : TreatmentChain) (input : Mat)
    (hne : input.empty = false) (hacc : AllAccept c.treatments input) :
    (c.processChain input).outcome = .ok (applyInOrder c.treatments input) ∧
    (c.processChain input).chain.intermediateResults =
      stageOutputs c.treatments input c.treatments.length := by
  have hloop := processLoop_ok c.treatments 0 input [input.clone] [] hacc
  constructor
  · simp only [TreatmentChain.processChain, hne, Bool.false_eq_true, if_false, hloop]
  · simp only [TreatmentChain.processChain, hne, Bool.false_eq_true, if_false, hloop]
    rw [stageOutputs_eq]

/-- C1. A run of a chain of `k` treatments on a non-empty input that every stage accepts
returns the input passed through `treatments[0].process`, ..., `treatments[k-1].process`
in that order, whatever the chain held before; afterwards the intermediate list has
`k + 1` entries (the input and the output of each stage) and entry 0 is the input. -/
theorem processChain_applies_in_order (c : TreatmentChain) (input : Mat)
    (hne : input.empty = false) (hacc : AllAccept c.treatments input) :
    (c.processChain input).outcome = .ok (applyInOrder c.treatments input) ∧
    (c.processChain input).chain.intermediateResults =
      stageOutputs c.treatments input c.treatments.length ∧
    (c.processChain input).chain.intermediateResults.length = c.treatments.length + 1 ∧
    (c.processChain input).chain.intermediateResults[0]? = some input := by
  obtain ⟨hout, hres⟩ := processChain_of_allAccept c input hne hacc
  refine ⟨hout, hres, ?_, ?_⟩
  · rw [hres]
    simp [stageOutputs]
  · rw [hres, stageOutputs_getElem? _ _ _ 0 (Nat.zero_le _)]
    simp [applyInOrder]

/-- C1 at a concrete input: the two-stage example chain, already run before, on the
2 x 2 three-channel example buffer. -/
theorem processChain_applies_in_order_witness :
    exampleInput.empty = false ∧ AllAccept exampleChain.treatments exampleInput ∧
    (exampleChain.processChain exampleInput).outcome =
      .ok (applyInOrder exampleChain.treatments exampleInput) ∧
    (exampleChain.processChain exampleInput).chain.intermediateResults.length = 2 + 1 ∧
    (exampleChain.processChain exampleInput).chain.intermediateResults[0]? =
      some exampleInput :=
  have hne : exampleInput.empty = false := by decide
  have hacc : AllAccept exampleChain.treatments exampleInput :=
    (allAccept_cons _ _ _).2 ⟨by decide,
      (allAccept_cons _ _ _).2 ⟨by decide, allAccept_nil _⟩⟩
  have h := processChain_applies_in_order exampleChain exampleInput hne hacc
  ⟨hne, hacc, h.1, h.2.2.1, h.2.2.2⟩

/-- C2. If stage `j` is the first stage whose `validateInput` rejects the buffer it is
given, the run on a non-empty input throws the runtime error
"Treatment j cannot process the current image", `process` was called for the stages
`0 .. j-1` only (not for stage `j`), and the intermediate list afterwards is the input
followed by the outputs of stages `0 .. j-1`, that is `j + 1` entries, whatever it held
before the run. -/
theorem processChain_rejects_at (c : TreatmentChain) (input : Mat) (j : Nat)
    (hne : input.empty = false) (hrej : FirstRejectAt c.treatments input j) :
    (c.processChain input).outcome =
      .error (.runtime_error
        ("Treatment " ++ toString j ++ " cannot process the current image")) ∧
    (c.processChain input).processCalls = List.range j ∧
    j ∉ (c.processChain input).processCalls ∧
    (c.processChain input).chain.intermediateResults = stageOutputs c.treatments input j ∧
    (c.processChain input).chain.intermediateResults.length = j + 1 := by
  have hloop := processLoop_reject c.treatments 0 input [input.clone] [] j hrej
  have hcalls : (c.processChain input).processCalls = List.range j := by
    simp only [TreatmentChain.processChain, hne, Bool.false_eq_true, if_false, hloop]
    simp [List.range_eq_range']
  have hres : (c.processChain input).chain.intermediateResults =
      stageOutputs c.treatments input j := by
    simp only [TreatmentChain.processChain, hne, Bool.false_eq_true, if_false, hloop]
    rw [stageOutputs_eq]
  refine ⟨?_, hcalls, ?_, hres, ?_⟩
  · simp only [TreatmentChain.processChain, hne, Bool.false_eq_true, if_false, hloop]
    simp
  · rw [hcalls]
    simp
  · rw [hres]
    simp [stageOutputs]

/-- C2 at a concrete input: the second stage of the rejecting chain refuses the
four-channel output of the first, whatever the chain retained from its earlier run. -/
theorem processChain_rejects_at_witness :
    exampleInput.empty = false ∧ FirstRejectAt rejectingChain.treatments exampleInput 1 ∧
    (rejectingChain.processChain exampleInput).outcome =
      .error (.runtime_error "Treatment 1 cannot process the current image") ∧
    (rejectingChain.processChain exampleInput).processCalls = [0] ∧
    (rejectingChain.processChain exampleInput).chain.intermediateResults.length = 1 + 1 :=
  have hne : exampleInput.empty = false := by decide
  have hrej : FirstRejectAt rejectingChain.treatments exampleInput 1 :=
    (firstRejectAt_succ _ _ _ 0).2 ⟨by decide, (firstRejectAt_zero _ _ _).2 (by decide)⟩
  have h := processChain_rejects_at rejectingChain exampleInput 1 hne hrej
  ⟨hne, hrej, h.1, h.2.1, h.2.2.2.2⟩

/-- C3. A run on an empty buffer throws `invalid_argument` and leaves the chain exactly
as it was (treatment sequence, retained original and intermediate list), with no call of
any `process`. -/
theorem processChain_empty_input (c : TreatmentChain) (input : Mat)
    (hempty : input.empty = true) :
    (c.processChain input).outcome = .error (.invalid_argument "Input image is empty") ∧
    (c.processChain input).chain = c ∧
    (c.processChain input).processCalls = [] := by
  simp [TreatmentChain.processChain, hempty]

/-- C3 at a concrete input: the example chain, holding the list of an earlier run, is
given a default-constructed buffer. -/
theorem processChain_empty_input_witness :
    emptyMat.empty = true ∧
    (exampleChain.processChain emptyMat).outcome =
      .error (.invalid_argument "Input image is empty") ∧
    (exampleChain.processChain emptyMat).chain = exampleChain :=
  have he : emptyMat.empty = true := by decide
  have h := processChain_empty_input exampleChain emptyMat he
  ⟨he, h.1, h.2.1⟩

/-- C4. After a successful run on a chain of `k` treatments the intermediate list is
index-aligned with the treatment sequence: for `1 ≤ i ≤ k` entry `i` is
`treatments[i-1].process` of entry `i-1`, and the returned value is entry `k`
(entry 0, the input, when `k = 0`). -/
theorem processChain_index_aligned (c : TreatmentChain) (input result : Mat)
    (hok : (c.processChain input).outcome = .ok result) :
    (∀ i : Nat, 1 ≤ i → i ≤ c.treatments.length →
      ∃ (prev : Mat) (t : Treatment),
        (c.processChain input).chain.treatments[i - 1]? = some t ∧
        (c.processChain input).chain.getIntermediateResult (i - 1) = .ok prev ∧
        (c.processChain input).chain.getIntermediateResult i = .ok (t.process prev)) ∧
    (c.processChain input).chain.getIntermediateResult c.treatments.length = .ok result ∧
    (c.treatments.length = 0 →
      (c.processChain input).chain.getIntermediateResult 0 = .ok input ∧ result = input) := by
  have hne : input.empty = false := by
    cases h : input.empty with
    | false => rfl
    | true => simp [TreatmentChain.processChain, h] at hok
  have hacc : AllAccept c.treatments input := by
    simp only [TreatmentChain.processChain, hne, Bool.false_eq_true, if_false] at hok
    exact processLoop_ok_allAccept _ _ _ _ _ _ hok
  obtain ⟨hout, hres⟩ := processChain_of_allAccept c input hne hacc
  have hresult : result = applyInOrder c.treatments input := by
    rw [hout] at hok
    injection hok with h
    exact h.symm
  have hts : (c.processChain input).chain.treatments = c.treatments := by
    simp [TreatmentChain.processChain, hne]
  have hget : ∀ i : Nat, i ≤ c.treatments.length →
      (c.processChain input).chain.getIntermediateResult i =
        .ok (applyInOrder (c.treatments.take i) input) := by
    intro i hi
    simp only [TreatmentChain.getIntermediateResult, hres, stageOutputs_getElem? _ _ _ i hi]
  refine ⟨?_, ?_, ?_⟩
  · intro i h1 h2
    have hlt : i - 1 < c.treatments.length := by omega
    refine ⟨applyInOrder (c.treatments.take (i - 1)) input,
      c.treatments.get ⟨i - 1, hlt⟩, ?_, hget (i - 1) (by omega), ?_⟩
    · rw [hts]
      exact List.getElem?_eq_getElem hlt
    · rw [hget i h2]
      have hstep := applyInOrder_take_succ c.treatments input (i - 1)
        (c.treatments.get ⟨i - 1, hlt⟩) (List.getElem?_eq_getElem hlt)
      rw [Nat.sub_add_cancel h1] at hstep
      rw [hstep]
  · rw [hget _ (Nat.le_refl _), List.take_length, hresult]
  · intro hk
    rw [hget 0 (Nat.zero_le _), hresult]
    have hnil : c.treatments = [] := List.length_eq_zero.1 hk
    simp [hnil, applyInOrder]

/-- C4 at a concrete input: the successful run of the example chain. -/
theorem processChain_index_aligned_witness :
    (exampleChain.processChain exampleInput).outcome =
      .ok { rows := 2, cols := 2, channels := 1, data := [20, 50, 80, 25] } ∧
    (exampleChain.processChain exampleInput).chain.getIntermediateResult 2 =
      .ok { rows := 2, cols := 2, channels := 1, data := [20, 50, 80, 25] } ∧
    (∃ (prev : Mat) (t : Treatment),
      (exampleChain.processChain exampleInput).chain.treatments[2 - 1]? = some t ∧
      (exampleChain.processChain exampleInput).chain.getIntermediateResult (2 - 1) =
        .ok prev ∧
      (exampleChain.processChain exampleInput).chain.getIntermediateResult 2 =
        .ok (t.process prev)) :=
  have hok : (exampleChain.processChain exampleInput).outcome =
      .ok { rows := 2, cols := 2, channels := 1, data := [20, 50, 80, 25] } := rfl
  have h := processChain_index_aligned exampleChain exampleInput _ hok
  ⟨hok, h.2.1, h.1 2 (by decide) (Nat.le_refl 2)⟩

/-! ## Structural edits of the chain -/

/-- C11. On a chain with `n` treatments, `insertTreatment(n, t)` succeeds and leaves the
chain that `addTreatment(t)` leaves: `t` is last, the count is `n + 1` and the earlier
treatments keep their positions; `removeTreatment(n)` throws `out_of_range` (and changes
nothing). -/
theorem insertTreatment_at_count_appends (c : TreatmentChain) (t : Treatment) :
    c.insertTreatment c.treatments.length t = (.ok (), c.addTreatment t) ∧
    (c.addTreatment t).treatments = c.treatments ++ [t] ∧
    (c.addTreatment t).getTreatmentCount = c.getTreatmentCount + 1 ∧
    (c.addTreatment t).treatments[c.treatments.length]? = some t ∧
    (∀ i : Nat, i < c.treatments.length →
      (c.addTreatment t).treatments[i]? = c.treatments[i]?) ∧
    c.removeTreatment c.treatments.length =
      (.error (.out_of_range "Index out of range"), c) := by
  refine ⟨?_, rfl, ?_, ?_, ?_, ?_⟩
  · simp [TreatmentChain.insertTreatment, TreatmentChain.addTreatment]
  · simp [TreatmentChain.addTreatment, TreatmentChain.getTreatmentCount]
  · simp [TreatmentChain.addTreatment]
  · intro i hi
    simp [TreatmentChain.addTreatment, List.getElem?_append_left hi]
  · simp [TreatmentChain.removeTreatment]

/-- C11 at a concrete input: the two-stage example chain and a third stage. -/
theorem insertTreatment_at_count_appends_witness :
    (exampleChain.insertTreatment 2 stageAddAlpha).2.treatments.map Treatment.getName =
      ["Grayscale", "Canny Edge Detection", "Add alpha"] ∧
    (exampleChain.addTreatment stageAddAlpha).treatments[0]? = exampleChain.treatments[0]? ∧
    (exampleChain.removeTreatment 2).1 = .error (.out_of_range "Index out of range") :=
  have h := insertTreatment_at_count_appends exampleChain stageAddAlpha
  ⟨by rw [show (2 : Nat) = exampleChain.treatments.length from rfl, h.1]; rfl,
    h.2.2.2.2.1 0 (by decide),
    by rw [show (2 : Nat) = exampleChain.treatments.length from rfl, h.2.2.2.2.2]⟩

/-- C12. On a chain with `n` treatments, `insertTreatment(i, t)` throws exactly when
`i > n`, and `removeTreatment(i)` and `getTreatment(i)` throw exactly when `i >= n`; what
is thrown is `out_of_range`, and the chain after a failed call (treatment sequence,
intermediate list) is the chain before it. -/
theorem index_out_of_range (c : TreatmentChain) (i : Nat) (t : Treatment) :
    (c.treatments.length < i →
      c.insertTreatment i t = (.error (.out_of_range "Index out of range"), c)) ∧
    (i ≤ c.treatments.length → (c.insertTreatment i t).1 = .ok ()) ∧
    (c.treatments.length ≤ i →
      c.removeTreatment i = (.error (.out_of_range "Index out of range"), c) ∧
      c.getTreatment i = (.error (.out_of_range "Index out of range"), c)) ∧
    (i < c.treatments.length →
      (c.removeTreatment i).1 = .ok () ∧
      ∃ u : Treatment, c.treatments[i]? = some u ∧ c.getTreatment i = (.ok u, c)) := by
  refine ⟨?_, ?_, ?_, ?_⟩
  · intro h
    simp [TreatmentChain.insertTreatment, h]
  · intro h
    simp [TreatmentChain.insertTreatment, Nat.not_lt.2 h]
  · intro h
    constructor
    · simp [TreatmentChain.removeTreatment, h]
    · simp [TreatmentChain.getTreatment, List.getElem?_eq_none h]
  · intro h
    constructor
    · simp [TreatmentChain.removeTreatment, Nat.not_le.2 h]
    · refine ⟨c.treatments.get ⟨i, h⟩, List.getElem?_eq_getElem h, ?_⟩
      simp [TreatmentChain.getTreatment, List.getElem?_eq_getElem h]

/-- C12 at concrete inputs: indices 3, 2 and 1 on the two-stage example chain. -/
theorem index_out_of_range_witness :
    (exampleChain.treatments.length < 3 ∧
      exampleChain.insertTreatment 3 stageAddAlpha =
        (.error (.out_of_range "Index out of range"), exampleChain)) ∧
    (2 ≤ exampleChain.treatments.length ∧
      (exampleChain.insertTreatment 2 stageAddAlpha).1 = .ok ()) ∧
    (exampleChain.treatments.length ≤ 2 ∧
      exampleChain.removeTreatment 2 =
        (.error (.out_of_range "Index out of range"), exampleChain)) ∧
    (1 < exampleChain.treatments.length ∧ (exampleChain.removeTreatment 1).1 = .ok ()) :=
  ⟨⟨by decide, (index_out_of_range exampleChain 3 stageAddAlpha).1 (by decide)⟩,
    ⟨by decide, (index_out_of_range exampleChain 2 stageAddAlpha).2.1 (by decide)⟩,
    ⟨by decide, ((index_out_of_range exampleChain 2 stageAddAlpha).2.2.1 (by decide)).1⟩,
    ⟨by decide, ((index_out_of_range exampleChain 1 stageAddAlpha).2.2.2 (by decide)).1⟩⟩

/-- C13 (as stated, refuted). `clear()` does touch the retained intermediate list: the
example chain holds one retained buffer, and none after `clear()`. -/
theorem clear_discards_intermediateResults :
    exampleChain.intermediateResults =
      [{ rows := 1, cols := 1, channels := 1, data := [7] }] ∧
    exampleChain.clear.intermediateResults = [] ∧
    exampleChain.clear.intermediateResults ≠ exampleChain.intermediateResults := by
  decide

/-- C13 (amended). For every chain state, `addTreatment`, `insertTreatment` and
`removeTreatment` (whether they succeed or throw) leave the retained intermediate list
as it was; `clear` empties it. -/
theorem structural_edits_intermediateResults (c : TreatmentChain) (i : Nat)
    (t : Treatment) :
    (c.addTreatment t).intermediateResults = c.intermediateResults ∧
    (c.insertTreatment i t).2.intermediateResults = c.intermediateResults ∧
    (c.removeTreatment i).2.intermediateResults = c.intermediateResults ∧
    c.clear.intermediateResults = [] := by
  refine ⟨rfl, ?_, ?_, rfl⟩
  · unfold TreatmentChain.insertTreatment
    split_ifs <;> rfl
  · unfold TreatmentChain.removeTreatment
    split_ifs <;> rfl

/-- C14. On a newly constructed chain, and on any chain right after `clear()`, the
treatment count is 0 and the intermediate list is empty, so `getIntermediateResult(i)`
throws `out_of_range` for every index `i`, 0 included. -/
theorem new_and_cleared_chain_are_empty (c : TreatmentChain) (i : Nat) :
    TreatmentChain.new.getTreatmentCount = 0 ∧
    TreatmentChain.new.intermediateResults = [] ∧
    TreatmentChain.new.getIntermediateResult i =
      .error (.out_of_range "Index out of range") ∧
    c.clear.getTreatmentCount = 0 ∧
    c.clear.intermediateResults = [] ∧
    c.clear.getIntermediateResult i = .error (.out_of_range "Index out of range") := by
  refine ⟨rfl, rfl, ?_, rfl, rfl, ?_⟩
  · simp [TreatmentChain.getIntermediateResult, TreatmentChain.new]
  · simp [TreatmentChain.getIntermediateResult, TreatmentChain.clear]

/-! ## Parameters of the treatments -/

section TreatmentTheorems

variable {D : Type}

theorem stoi_inIntRange (s : String) (v : Int) (h : stoi s = some v) : InIntRange v := by
  unfold stoi at h
  split at h
  · simp at h
  · split at h
    · simp only [Option.some.injEq] at h
      subst h
      assumption
    · simp at h

theorem wrapInt_succ_of_even (v : Int) (hr : InIntRange v) (he : Int.tmod v 2 = 0) :
    wrapInt (v + 1) = v + 1 := by
  have hdvd := Int.dvd_of_tmod_eq_zero he
  unfold InIntRange INT_MIN INT_MAX at hr
  unfold wrapInt INT_MIN
  omega

theorem tmod_succ_of_even (v : Int) (he : Int.tmod v 2 = 0) : Int.tmod (v + 1) 2 ≠ 0 := by
  have hdvd := Int.dvd_of_tmod_eq_zero he
  intro h
  have hdvd1 := Int.dvd_of_tmod_eq_zero h
  omega

/-- The kernel size computed by the Gaussian and median constructors is odd and at
least 1. -/
theorem normalised_kernelSize (k : Int) (hk : InIntRange k) :
    Int.tmod
        (if (if Int.tmod k 2 = 0 then wrapInt (k + 1) else k) < 1 then 1
         else (if Int.tmod k 2 = 0 then wrapInt (k + 1) else k)) 2 ≠ 0 ∧
      1 ≤ (if (if Int.tmod k 2 = 0 then wrapInt (k + 1) else k) < 1 then 1
           else (if Int.tmod k 2 = 0 then wrapInt (k + 1) else k)) := by
  by_cases he : Int.tmod k 2 = 0
  · rw [if_pos he, wrapInt_succ_of_even k hk he]
    by_cases h1 : k + 1 < 1
    · rw [if_pos h1]
      decide
    · rw [if_neg h1]
      exact ⟨tmod_succ_of_even k he, by omega⟩
  · rw [if_neg he]
    by_cases h1 : k < 1
    · rw [if_pos h1]
      decide
    · rw [if_neg h1]
      exact ⟨he, by omega⟩

theorem constructorNormal_setParameter (ops : DoubleOps D) (o : TreatmentObject D)
    (paramName value : String) (h : ConstructorNormal o) :
    ConstructorNormal (o.setParameter ops paramName value).2 := by
  cases o with
  | brightness t => trivial
  | grayscale t => trivial
  | threshold t => trivial
  | sharpen t => trivial
  | gaussianBlur t =>
    simp only [TreatmentObject.setParameter, GaussianBlurTreatment.setParameter]
    split_ifs with h1 h2 h3
    · cases hs : stoi value with
      | none => simpa [hs] using h
      | some val =>
        simp only [hs]
        split_ifs with hpos he
        · simp only [ConstructorNormal]
          rw [wrapInt_succ_of_even val (stoi_inIntRange _ _ hs) he]
          exact ⟨tmod_succ_of_even val he, by omega⟩
        · exact ⟨he, by simp only; omega⟩
        · exact h
    · cases ops.stod value <;> exact h
    · cases ops.stod value <;> exact h
    · exact h
  | medianBlur t =>
    simp only [TreatmentObject.setParameter, MedianBlurTreatment.setParameter]
    split_ifs with h1
    · cases hs : stoi value with
      | none => simpa [hs] using h
      | some val =>
        simp only [hs]
        split_ifs with hpos he
        · simp only [ConstructorNormal]
          rw [wrapInt_succ_of_even val (stoi_inIntRange _ _ hs) he]
          exact ⟨tmod_succ_of_even val he, by omega⟩
        · exact ⟨he, by simp only; omega⟩
        · exact h
    · exact h
  | cannyEdge t =>
    simp only [TreatmentObject.setParameter, CannyEdgeTreatment.setParameter]
    split_ifs with h1 h2 h3
    · cases ops.stod value <;> exact h
    · cases ops.stod value <;> exact h
    · cases hs : stoi value with
      | none => simpa [hs] using h
      | some val =>
        simp only [hs]
        split_ifs with hv
        · exact hv
        · exact h
    · exact h
  | erosion t =>
    simp only [TreatmentObject.setParameter, ErosionTreatment.setParameter]
    split_ifs with h1 h2 h3
    · cases hs : stoi value with
      | none => simpa [hs] using h
      | some val =>
        simp only [hs]
        split_ifs with hv
        · exact ⟨by simp only; omega, h.2⟩
        · exact h
    · cases hs : stoi value with
      | none => simpa [hs] using h
      | some val =>
        simp only [hs]
        split_ifs with hv
        · exact h
        · exact h
    · cases hs : stoi value with
      | none => simpa [hs] using h
      | some val =>
        simp only [hs]
        split_ifs with hv
        · exact ⟨h.1, by simp only; omega⟩
        · exact h
    · exact h
  | dilation t =>
    simp only [TreatmentObject.setParameter, DilationTreatment.setParameter]
    split_ifs with h1 h2 h3
    · cases hs : stoi value with
      | none => simpa [hs] using h
      | some val =>
        simp only [hs]
        split_ifs with hv
        · exact ⟨by simp only; omega, h.2⟩
        · exact h
    · cases hs : stoi value with
      | none => simpa [hs] using h
      | some val =>
        simp only [hs]
        split_ifs with hv
        · exact h
        · exact h
    · cases hs : stoi value with
      | none => simpa [hs] using h
      | some val =>
        simp only [hs]
        split_ifs with hv
        · exact ⟨h.1, by simp only; omega⟩
        · exact h
    · exact h
  | mosaic t =>
    simp only [TreatmentObject.setParameter, MosaicTreatment.setParameter]
    split_ifs with h1
    · cases hs : stoi value with
      | none => simpa [hs] using h
      | some val =>
        simp only [hs]
        split_ifs with hv
        · simp only [ConstructorNormal]
          omega
        · exact h
    · exact h

theorem constructorNormal_of_reachable (ops : DoubleOps D) (o : TreatmentObject D)
    (h : Reachable ops o) : ConstructorNormal o := by
  induction h with
  | brightness a b => trivial
  | gaussianBlur kSize sX sY hk => exact normalised_kernelSize kSize hk
  | medianBlur kSize hk => exact normalised_kernelSize kSize hk
  | grayscale => trivial
  | cannyEdge t1 t2 aperture ha =>
    simp only [ConstructorNormal, CannyEdgeTreatment.new]
    split_ifs with h1
    · exact Or.inl rfl
    · omega
  | threshold thresh maxVal type ht => trivial
  | sharpen s => trivial
  | erosion kSize shape iter hk hs hi =>
    simp only [ConstructorNormal, ErosionTreatment.new]
    constructor <;> split_ifs <;> omega
  | dilation kSize shape iter hk hs hi =>
    simp only [ConstructorNormal, DilationTreatment.new]
    constructor <;> split_ifs <;> omega
  | mosaic blockSize hb =>
    simp only [ConstructorNormal, MosaicTreatment.new]
    split_ifs <;> simp only <;> omega
  | setParameter o paramName value _ ih =>
    exact constructorNormal_setParameter ops o paramName value ih

theorem clone_eq_of_constructorNormal (o : TreatmentObject D) (h : ConstructorNormal o) :
    o.clone = o := by
  cases o with
  | brightness t => rfl
  | grayscale t => rfl
  | threshold t => rfl
  | sharpen t => rfl
  | gaussianBlur t =>
    obtain ⟨h1, h2⟩ := h
    simp only [TreatmentObject.clone, GaussianBlurTreatment.clone, GaussianBlurTreatment.new,
      if_neg h1, if_neg (not_lt.2 h2)]
  | medianBlur t =>
    obtain ⟨h1, h2⟩ := h
    simp only [TreatmentObject.clone, MedianBlurTreatment.clone, MedianBlurTreatment.new,
      if_neg h1, if_neg (not_lt.2 h2)]
  | cannyEdge t =>
    have h3 : ¬ (t.apertureSize ≠ 3 ∧ t.apertureSize ≠ 5 ∧ t.apertureSize ≠ 7) := by
      simp only [ConstructorNormal] at h
      omega
    simp only [TreatmentObject.clone, CannyEdgeTreatment.clone, CannyEdgeTreatment.new,
      if_neg h3]
  | erosion t =>
    obtain ⟨h1, h2⟩ := h
    simp only [TreatmentObject.clone, ErosionTreatment.clone, ErosionTreatment.new,
      if_neg (not_lt.2 h1), if_neg (not_lt.2 h2)]
  | dilation t =>
    obtain ⟨h1, h2⟩ := h
    simp only [TreatmentObject.clone, DilationTreatment.clone, DilationTreatment.new,
      if_neg (not_lt.2 h1), if_neg (not_lt.2 h2)]
  | mosaic t =>
    have h1 : ¬ t.blockSize < 1 := not_lt.2 h
    simp only [TreatmentObject.clone, MosaicTreatment.clone, MosaicTreatment.new, if_neg h1]

theorem heap_getParameters_set_ne (ops : DoubleOps D) (h : Heap D) (p q : Nat)
    (o : TreatmentObject D) (hne : p ≠ q) :
    Heap.getParameters ops (h.set p o) q = Heap.getParameters ops h q := by
  simp only [Heap.getParameters, List.getElem?_set, if_neg hne]

/-- C5. For a treatment object of any of the ten classes, in any state reachable by its
constructor and `setParameter` calls, `clone()` makes a new object whose
`getParameters()` equals the original's; a later `setParameter` on the original
(successful or not) leaves the clone's `getParameters()` unchanged, and a later
`setParameter` on the clone leaves the original's unchanged. -/
theorem clone_getParameters_equal_and_independent (ops : DoubleOps D) (h : Heap D)
    (p : Nat) (o : TreatmentObject D) (hp : h[p]? = some o) (hr : Reachable ops o) :
    ∃ (h1 : Heap D) (q : Nat), h.clone p = some (h1, q) ∧ q ≠ p ∧
      h1.getParameters ops q = some (o.getParameters ops) ∧
      h1.getParameters ops p = some (o.getParameters ops) ∧
      (∀ paramName value : String, ∃ (b : Bool) (h2 : Heap D),
        h1.setParameter ops p paramName value = some (b, h2) ∧
        h2.getParameters ops q = h1.getParameters ops q) ∧
      (∀ paramName value : String, ∃ (b : Bool) (h2 : Heap D),
        h1.setParameter ops q paramName value = some (b, h2) ∧
        h2.getParameters ops p = h1.getParameters ops p) := by
  have hclone : o.clone = o :=
    clone_eq_of_constructorNormal o (constructorNormal_of_reachable ops o hr)
  have hlt : p < h.length := by
    by_contra hge
    rw [List.getElem?_eq_none (not_lt.1 hge)] at hp
    exact Option.noConfusion hp
  have hq : (h ++ [o])[h.length]? = some o := by
    simp
  have hp1 : (h ++ [o])[p]? = some o := by
    rw [List.getElem?_append_left hlt]
    exact hp
  refine ⟨h ++ [o], h.length, ?_, Nat.ne_of_gt hlt, ?_, ?_, ?_, ?_⟩
  · simp only [Heap.clone, hp, Heap.alloc, hclone]
  · simp only [Heap.getParameters, hq]
  · simp only [Heap.getParameters, hp1]
  · intro paramName value
    refine ⟨(o.setParameter ops paramName value).1,
      (h ++ [o]).set p (o.setParameter ops paramName value).2, ?_, ?_⟩
    · simp only [Heap.setParameter, hp1]
    · exact heap_getParameters_set_ne ops _ p h.length _ (Nat.ne_of_lt hlt)
  · intro paramName value
    refine ⟨(o.setParameter ops paramName value).1,
      (h ++ [o]).set h.length (o.setParameter ops paramName value).2, ?_, ?_⟩
    · simp only [Heap.setParameter, hq]
    · exact heap_getParameters_set_ne ops _ h.length p _ (Nat.ne_of_gt hlt)

theorem setParameter_false_unchanged (ops : DoubleOps D) (o : TreatmentObject D)
    (paramName value : String) (h : (o.setParameter ops paramName value).1 = false) :
    (o.setParameter ops paramName value).2 = o := by
  revert h
  cases o <;>
  simp only [TreatmentObject.setParameter, BrightnessTreatment.setParameter,
    GaussianBlurTreatment.setParameter, MedianBlurTreatment.setParameter,
    GrayscaleTreatment.setParameter, CannyEdgeTreatment.setParameter,
    ThresholdTreatment.setParameter, SharpenTreatment.setParameter,
    ErosionTreatment.setParameter, DilationTreatment.setParameter,
    MosaicTreatment.setParameter] <;>
  (try split_ifs) <;> (try split) <;> (try split_ifs) <;> simp

theorem setParameter_stoi_none (ops : DoubleOps D) (o : TreatmentObject D)
    (paramName value : String) (hn : paramName ∈ intParameterNames)
    (hs : stoi value = none) : (o.setParameter ops paramName value).1 = false := by
  simp only [intParameterNames, List.mem_cons, List.mem_singleton, List.not_mem_nil,
    or_false] at hn
  rcases hn with hn | hn | hn | hn | hn | hn <;> subst hn <;> cases o <;>
  simp [TreatmentObject.setParameter, BrightnessTreatment.setParameter,
    GaussianBlurTreatment.setParameter, MedianBlurTreatment.setParameter,
    GrayscaleTreatment.setParameter, CannyEdgeTreatment.setParameter,
    ThresholdTreatment.setParameter, SharpenTreatment.setParameter,
    ErosionTreatment.setParameter, DilationTreatment.setParameter,
    MosaicTreatment.setParameter, hs]

/-- C5 at a concrete input: a heap holding one Gaussian blur built with kernel size 4
(stored as 5). -/
theorem clone_getParameters_equal_and_independent_witness :
    ([exampleBlur] : Heap Int)[0]? = some exampleBlur ∧
    Reachable intDoubleOps exampleBlur ∧
    ∃ (h1 : Heap Int) (q : Nat), Heap.clone [exampleBlur] 0 = some (h1, q) ∧ q ≠ 0 ∧
      h1.getParameters intDoubleOps q = some (exampleBlur.getParameters intDoubleOps) ∧
      exampleBlur.getParameters intDoubleOps =
        [("kernelSize", "5"), ("sigmaX", "0.000000"), ("sigmaY", "0.000000")] :=
  have hp : ([exampleBlur] : Heap Int)[0]? = some exampleBlur := rfl
  have hr : Reachable intDoubleOps exampleBlur :=
    Reachable.gaussianBlur 4 0 0 (by decide)
  match clone_getParameters_equal_and_independent intDoubleOps [exampleBlur] 0
      exampleBlur hp hr with
  | ⟨h1, q, hc, hq, hg, _⟩ => ⟨hp, hr, h1, q, hc, hq, hg, by decide⟩

/-- C6 (as stated, refuted). Erosion and dilation store an even kernel size as it is:
`setParameter("kernelSize", "4")` succeeds and the stored kernel size is 4, not 5. -/
theorem erosion_dilation_keep_even_kernelSize :
    stoi "4" = some 4 ∧
    (ErosionTreatment.new 3 MORPH_RECT 1).setParameter "kernelSize" "4" =
      (true, { kernelSize := 4, kernelShape := 0, iterations := 1 }) ∧
    ((ErosionTreatment.new 3 MORPH_RECT 1).setParameter "kernelSize" "4").2.kernelSize
      ≠ 4 + 1 ∧
    (DilationTreatment.new 3 MORPH_RECT 1).setParameter "kernelSize" "4" =
      (true, { kernelSize := 4, kernelShape := 0, iterations := 1 }) ∧
    ((DilationTreatment.new 3 MORPH_RECT 1).setParameter "kernelSize" "4").2.kernelSize
      ≠ 4 + 1 := by
  decide

/-- C6 (amended). In every state, for a value that `std::stoi` reads as the integer `N`:
when `N` is even and positive, `setParameter("kernelSize", value)` succeeds and the
stored kernel size becomes `N + 1` for Gaussian blur and median blur, and `N` itself for
erosion and dilation, the other members being unchanged; when `N` is 0 or negative the
call fails and the object is unchanged, for all four classes. -/
theorem kernelSize_setParameter (ops : DoubleOps D) (value : String) (N : Int)
    (hv : stoi value = some N) :
    (0 < N → N % 2 = 0 →
      (∀ t : GaussianBlurTreatment D,
        t.setParameter ops "kernelSize" value = (true, { t with kernelSize := N + 1 })) ∧
      (∀ t : MedianBlurTreatment,
        t.setParameter "kernelSize" value = (true, { t with kernelSize := N + 1 })) ∧
      (∀ t : ErosionTreatment,
        t.setParameter "kernelSize" value = (true, { t with kernelSize := N })) ∧
      (∀ t : DilationTreatment,
        t.setParameter "kernelSize" value = (true, { t with kernelSize := N }))) ∧
    (N ≤ 0 →
      (∀ t : GaussianBlurTreatment D, t.setParameter ops "kernelSize" value = (false, t)) ∧
      (∀ t : MedianBlurTreatment, t.setParameter "kernelSize" value = (false, t)) ∧
      (∀ t : ErosionTreatment, t.setParameter "kernelSize" value = (false, t)) ∧
      (∀ t : DilationTreatment, t.setParameter "kernelSize" value = (false, t))) := by
  constructor
  · intro hpos heven
    have he : Int.tmod N 2 = 0 := Int.tmod_eq_zero_of_dvd (by omega)
    have hw : wrapInt (N + 1) = N + 1 := wrapInt_succ_of_even N (stoi_inIntRange _ _ hv) he
    refine ⟨?_, ?_, ?_, ?_⟩ <;> intro t
    · simp [GaussianBlurTreatment.setParameter, hv, hpos, he, hw]
    · simp [MedianBlurTreatment.setParameter, hv, hpos, he, hw]
    · simp [ErosionTreatment.setParameter, hv, hpos]
    · simp [DilationTreatment.setParameter, hv, hpos]
  · intro hle
    have hn : ¬ N > 0 := by omega
    refine ⟨?_, ?_, ?_, ?_⟩ <;> intro t
    · simp [GaussianBlurTreatment.setParameter, hv, hn]
    · simp [MedianBlurTreatment.setParameter, hv, hn]
    · simp [ErosionTreatment.setParameter, hv, hn]
    · simp [DilationTreatment.setParameter, hv, hn]

/-- C6 (amended) at a concrete input: the value "4" on a Gaussian blur and on an
erosion. -/
theorem kernelSize_setParameter_witness :
    stoi "4" = some 4 ∧ (0 : Int) < 4 ∧ (4 : Int) % 2 = 0 ∧
    (GaussianBlurTreatment.new 7 (0 : Int) 0).setParameter intDoubleOps "kernelSize" "4" =
      (true, { GaussianBlurTreatment.new 7 (0 : Int) 0 with kernelSize := 4 + 1 }) ∧
    (ErosionTreatment.new 3 MORPH_RECT 1).setParameter "kernelSize" "4" =
      (true, { ErosionTreatment.new 3 MORPH_RECT 1 with kernelSize := 4 }) :=
  have hv : stoi "4" = some 4 := by decide
  have h := (kernelSize_setParameter intDoubleOps "4" 4 hv).1 (by decide) (by decide)
  ⟨hv, by decide, by decide, h.1 _, h.2.2.1 _⟩

/-- C7. For an object of any class, in any state, and any value string: `setParameter`
with a name that is not a parameter name of the class (a key of `getParameterInfo()`)
returns `false` and leaves the object, hence `getParameters()`, unchanged; for
grayscale this holds for every name. -/
theorem setParameter_unknown_name (ops : DoubleOps D) (o : TreatmentObject D)
    (paramName value : String) :
    (paramName ∉ o.getParameterInfo.keys →
      (o.setParameter ops paramName value).1 = false ∧
      (o.setParameter ops paramName value).2 = o ∧
      (o.setParameter ops paramName value).2.getParameters ops = o.getParameters ops) ∧
    (∀ t : GrayscaleTreatment, o = .grayscale t →
      (o.setParameter ops paramName value).1 = false ∧
      (o.setParameter ops paramName value).2.getParameters ops = o.getParameters ops) := by
  constructor
  · intro h
    have h1 : (o.setParameter ops paramName value).1 = false := by
      revert h
      cases o <;>
      simp only [TreatmentObject.getParameterInfo, BrightnessTreatment.getParameterInfo,
        GaussianBlurTreatment.getParameterInfo, MedianBlurTreatment.getParameterInfo,
        GrayscaleTreatment.getParameterInfo, CannyEdgeTreatment.getParameterInfo,
        ThresholdTreatment.getParameterInfo, SharpenTreatment.getParameterInfo,
        ErosionTreatment.getParameterInfo, DilationTreatment.getParameterInfo,
        MosaicTreatment.getParameterInfo, StdMap.keys, StdMap.set] <;>
      simp +contextual [ltChars, TreatmentObject.setParameter,
        BrightnessTreatment.setParameter,
        GaussianBlurTreatment.setParameter, MedianBlurTreatment.setParameter,
        GrayscaleTreatment.setParameter, CannyEdgeTreatment.setParameter,
        ThresholdTreatment.setParameter, SharpenTreatment.setParameter,
        ErosionTreatment.setParameter, DilationTreatment.setParameter,
        MosaicTreatment.setParameter]
    have h2 := setParameter_false_unchanged ops o paramName value h1
    exact ⟨h1, h2, by rw [h2]⟩
  · intro t ht
    subst ht
    exact ⟨rfl, rfl⟩

/-- C7 at a concrete input: `kernelSize` is not a parameter of the threshold
treatment. -/
theorem setParameter_unknown_name_witness :
    "kernelSize" ∉ exampleThreshold.getParameterInfo.keys ∧
    (exampleThreshold.setParameter intDoubleOps "kernelSize" "3").1 = false ∧
    (exampleThreshold.setParameter intDoubleOps "kernelSize" "3").2.getParameters
      intDoubleOps = exampleThreshold.getParameters intDoubleOps :=
  have hn : "kernelSize" ∉ exampleThreshold.getParameterInfo.keys := by decide
  have h := (setParameter_unknown_name intDoubleOps exampleThreshold "kernelSize" "3").1 hn
  ⟨hn, h.1, h.2.2⟩

theorem ltZero_not_geZero (ops : DoubleOps D) (v : D) (h : ops.ltZero v = true) :
    ops.geZero v = false := by
  unfold DoubleOps.ltZero at h
  unfold DoubleOps.geZero
  split at h <;> simp_all

/-- C8. For an object of any class and any parameter name: a value read as an integer
outside the allowed range of the parameter, a `strength` read as a number below 0, and,
for an integer parameter, an integer too large (or too small) for `int`, each make
`setParameter` return `false`; and whenever `setParameter` returns `false` the object is
the same as before the call. -/
theorem setParameter_out_of_range (ops : DoubleOps D) (o : TreatmentObject D)
    (paramName value : String) :
    (∀ v : Int, stoi value = some v → IntOutOfRange paramName v →
      (o.setParameter ops paramName value).1 = false) ∧
    (∀ v : D, paramName = "strength" → ops.stod value = some v → ops.ltZero v = true →
      (o.setParameter ops paramName value).1 = false) ∧
    (∀ v : Int, paramName ∈ intParameterNames → strtol value = some v → ¬ InIntRange v →
      (o.setParameter ops paramName value).1 = false) ∧
    ((o.setParameter ops paramName value).1 = false →
      (o.setParameter ops paramName value).2 = o) := by
  refine ⟨?_, ?_, ?_, setParameter_false_unchanged ops o paramName value⟩
  · intro v hv hout
    rcases hout with ⟨hn | hn | hn, hlt⟩ | ⟨hn, hr⟩ | ⟨hn, hr⟩ | ⟨hn, h3, h5, h7⟩ <;>
    subst hn <;> cases o <;>
    simp [TreatmentObject.setParameter, BrightnessTreatment.setParameter,
      GaussianBlurTreatment.setParameter, MedianBlurTreatment.setParameter,
      GrayscaleTreatment.setParameter, CannyEdgeTreatment.setParameter,
      ThresholdTreatment.setParameter, SharpenTreatment.setParameter,
      ErosionTreatment.setParameter, DilationTreatment.setParameter,
      MosaicTreatment.setParameter, hv] <;>
    split_ifs <;> first | rfl | omega
  · intro v hn hv hlt
    have hge := ltZero_not_geZero ops v hlt
    subst hn
    cases o <;>
    simp [TreatmentObject.setParameter, BrightnessTreatment.setParameter,
      GaussianBlurTreatment.setParameter, MedianBlurTreatment.setParameter,
      GrayscaleTreatment.setParameter, CannyEdgeTreatment.setParameter,
      ThresholdTreatment.setParameter, SharpenTreatment.setParameter,
      ErosionTreatment.setParameter, DilationTreatment.setParameter,
      MosaicTreatment.setParameter, hv, hge]
  · intro v hn hv hr
    have hs : stoi value = none := by
      simp [stoi, hv, hr]
    exact setParameter_stoi_none ops o paramName value hn hs

/-- C8 at concrete inputs: the kernel shape 5 on an erosion, the strength -2 on a sharpen
treatment, and a block size too large for `int` on a mosaic treatment. -/
theorem setParameter_out_of_range_witness :
    (stoi "5" = some 5 ∧ IntOutOfRange "kernelShape" 5 ∧
      (exampleErosion.setParameter intDoubleOps "kernelShape" "5").1 = false ∧
      (exampleErosion.setParameter intDoubleOps "kernelShape" "5").2 = exampleErosion) ∧
    (intDoubleOps.stod "-2" = some (-2) ∧ intDoubleOps.ltZero (-2) = true ∧
      (exampleSharpen.setParameter intDoubleOps "strength" "-2").1 = false) ∧
    ("blockSize" ∈ intParameterNames ∧ strtol "4294967296" = some 4294967296 ∧
      ¬ InIntRange 4294967296 ∧
      (exampleMosaic.setParameter intDoubleOps "blockSize" "4294967296").1 = false) :=
  have h5 : stoi "5" = some 5 := by decide
  have hout : IntOutOfRange "kernelShape" 5 := Or.inr (Or.inl ⟨rfl, Or.inr (by decide)⟩)
  have hE := setParameter_out_of_range intDoubleOps exampleErosion "kernelShape" "5"
  have hfalse := hE.1 5 h5 hout
  have hs : intDoubleOps.stod "-2" = some (-2) := by decide
  have hlt : intDoubleOps.ltZero (-2) = true := by decide
  have hS := setParameter_out_of_range intDoubleOps exampleSharpen "strength" "-2"
  have hn : "blockSize" ∈ intParameterNames := by decide
  have hbig : strtol "4294967296" = some 4294967296 := by decide
  have hr : ¬ InIntRange 4294967296 := by decide
  have hM := setParameter_out_of_range intDoubleOps exampleMosaic "blockSize" "4294967296"
  ⟨⟨h5, hout, hfalse, hE.2.2.2 hfalse⟩, ⟨hs, hlt, hS.2.1 (-2) rfl hs hlt⟩,
    ⟨hn, hbig, hr, hM.2.2.1 4294967296 hn hbig hr⟩⟩

theorem exists_cons_of_takeWhile (p : Char → Bool) (l : List Char)
    (h : (l.takeWhile p).isEmpty = false) : ∃ d r, l = d :: r ∧ p d = true := by
  cases l with
  | nil => simp at h
  | cons d r =>
    refine ⟨d, r, rfl, ?_⟩
    cases hp : p d with
    | true => rfl
    | false => simp [List.takeWhile, hp] at h

theorem startsWithInteger_of_strtol (s : String) (v : Int) (h : strtol s = some v) :
    StartsWithInteger s := by
  have hsplit := List.takeWhile_append_dropWhile isspace s.toList
  have hws : ∀ c ∈ s.toList.takeWhile isspace, isspace c = true :=
    fun c hc => List.mem_takeWhile_imp hc
  unfold strtol at h
  split at h
  · rename_i rest heq
    simp only at h
    split_ifs at h with hds
    obtain ⟨d, r, hr, hd⟩ := exists_cons_of_takeWhile Char.isDigit rest (by simpa using hds)
    refine ⟨s.toList.takeWhile isspace, ['-'], d, r, ?_, hws, Or.inr (Or.inr rfl), hd⟩
    rw [← hr, List.append_assoc, List.singleton_append, ← heq, hsplit]
  · rename_i rest heq
    simp only at h
    split_ifs at h with hds
    obtain ⟨d, r, hr, hd⟩ := exists_cons_of_takeWhile Char.isDigit rest (by simpa using hds)
    refine ⟨s.toList.takeWhile isspace, ['+'], d, r, ?_, hws, Or.inr (Or.inl rfl), hd⟩
    rw [← hr, List.append_assoc, List.singleton_append, ← heq, hsplit]
  · rename_i rest _ _
    simp only at h
    split_ifs at h with hds
    obtain ⟨d, r, hr, hd⟩ := exists_cons_of_takeWhile Char.isDigit _ (by simpa using hds)
    refine ⟨s.toList.takeWhile isspace, [], d, r, ?_, hws, Or.inl rfl, hd⟩
    rw [← hr, List.append_nil]
    exact hsplit.symm

theorem dropWhile_append_of_all (p : Char → Bool) (ws l : List Char)
    (h : ∀ c ∈ ws, p c = true) : (ws ++ l).dropWhile p = l.dropWhile p := by
  induction ws with
  | nil => rfl
  | cons c ws ih =>
    have hc : p c = true := h c (List.mem_cons_self c ws)
    simp only [List.cons_append, List.dropWhile_cons, hc, if_true]
    exact ih (fun x hx => h x (List.mem_cons_of_mem c hx))

theorem isDigit_not_special (d : Char) (hd : d.isDigit = true) :
    isspace d = false ∧ d ≠ '-' ∧ d ≠ '+' := by
  refine ⟨?_, ?_, ?_⟩
  · cases hsp : isspace d with
    | false => rfl
    | true =>
      simp only [isspace, Bool.or_eq_true, beq_iff_eq] at hsp
      rcases hsp with ((((h | h) | h) | h) | h) | h <;> subst h <;> exact absurd hd (by decide)
  · rintro rfl
    exact absurd hd (by decide)
  · rintro rfl
    exact absurd hd (by decide)

theorem strtol_isSome_of_startsWithInteger (s : String) (h : StartsWithInteger s) :
    ∃ v, strtol s = some v := by
  obtain ⟨ws, sign, d, rest, hs, hws, hsign, hd⟩ := h
  obtain ⟨hd1, hd2, hd3⟩ := isDigit_not_special d hd
  have htw : ((d :: rest).takeWhile Char.isDigit).isEmpty = false := by
    simp [List.takeWhile, hd]
  unfold strtol
  rw [hs, List.append_assoc, dropWhile_append_of_all isspace ws _ hws]
  rcases hsign with hsg | hsg | hsg <;> subst hsg
  · simp only [List.nil_append, List.dropWhile_cons, hd1, Bool.false_eq_true, if_false]
    split
    · rename_i heq
      simp only [List.cons.injEq] at heq
      exact absurd heq.1 hd2
    · rename_i heq
      simp only [List.cons.injEq] at heq
      exact absurd heq.1 hd3
    · simp [htw]
  · have hplus : isspace '+' = false := by decide
    simp only [List.singleton_append, List.dropWhile_cons, hplus, Bool.false_eq_true, if_false]
    simp [htw]
  · have hminus : isspace '-' = false := by decide
    simp only [List.singleton_append, List.dropWhile_cons, hminus, Bool.false_eq_true,
      if_false]
    simp [htw]

theorem stoi_eq_none_iff (value : String) :
    stoi value = none ↔
      (¬ StartsWithInteger value ∨ ∃ v : Int, strtol value = some v ∧ ¬ InIntRange v) := by
  constructor
  · intro h
    cases hs : strtol value with
    | none =>
      left
      intro hstart
      obtain ⟨v, hv⟩ := strtol_isSome_of_startsWithInteger value hstart
      rw [hs] at hv
      exact Option.noConfusion hv
    | some v =>
      right
      refine ⟨v, rfl, ?_⟩
      intro hr
      simp [stoi, hs, hr] at h
  · rintro (h | ⟨v, hv, hr⟩)
    · cases hs : strtol value with
      | none => simp [stoi, hs]
      | some v => exact absurd (startsWithInteger_of_strtol value v hs) h
    · simp [stoi, hv, hr]

theorem setParameter_stod_none (ops : DoubleOps D) (o : TreatmentObject D)
    (paramName value : String) (hn : paramName ∈ doubleParameterNames)
    (hs : ops.stod value = none) : (o.setParameter ops paramName value).1 = false := by
  simp only [doubleParameterNames, List.mem_cons, List.mem_singleton, List.not_mem_nil,
    or_false] at hn
  rcases hn with hn | hn | hn | hn | hn | hn | hn | hn | hn <;> subst hn <;> cases o <;>
  simp [TreatmentObject.setParameter, BrightnessTreatment.setParameter,
    GaussianBlurTreatment.setParameter, MedianBlurTreatment.setParameter,
    GrayscaleTreatment.setParameter, CannyEdgeTreatment.setParameter,
    ThresholdTreatment.setParameter, SharpenTreatment.setParameter,
    ErosionTreatment.setParameter, DilationTreatment.setParameter,
    MosaicTreatment.setParameter, hs]

/-- C9 (the code at the failing input). `ErosionTreatment(3, 5, 1)` stores the kernel
shape 5 and reports it in `getParameters()`; on a default-constructed erosion
`setParameter("kernelShape", "5")` returns `false`, so restoring from that mapping does
not succeed every time and ends with the shape 0 instead of 5. -/
theorem erosion_restore_from_getParameters_fails :
    Reachable intDoubleOps (.erosion (ErosionTreatment.new 3 5 1)) ∧
    (TreatmentObject.erosion (ErosionTreatment.new 3 5 1)).getParameters intDoubleOps =
      [("iterations", "1"), ("kernelShape", "5"), ("kernelSize", "3")] ∧
    ((TreatmentObject.erosion (ErosionTreatment.new 3 MORPH_RECT 1)).setParameter
      intDoubleOps "kernelShape" "5").1 = false ∧
    (restoreFrom intDoubleOps (.erosion (ErosionTreatment.new 3 MORPH_RECT 1))
      ((TreatmentObject.erosion (ErosionTreatment.new 3 5 1)).getParameters
        intDoubleOps)).1 = false ∧
    (restoreFrom intDoubleOps (.erosion (ErosionTreatment.new 3 MORPH_RECT 1))
      ((TreatmentObject.erosion (ErosionTreatment.new 3 5 1)).getParameters
        intDoubleOps)).2.getParameters intDoubleOps =
      [("iterations", "1"), ("kernelShape", "0"), ("kernelSize", "3")] :=
  ⟨Reachable.erosion 3 5 1 (by decide) (by decide) (by decide), by decide, by decide,
    by decide, by decide⟩

/-- C10 (as stated, refuted). "7abc" and "3.9" are not, in their entirety, optionally
signed decimal integers, yet `setParameter` accepts them for an integer parameter: the
leading digits are converted and what follows them is ignored. -/
theorem setParameter_accepts_integer_prefix :
    IsDecimalInteger "7abc" = false ∧
    (MosaicTreatment.new 10).setParameter "blockSize" "7abc" = (true, { blockSize := 7 }) ∧
    IsDecimalInteger "3.9" = false ∧
    (ErosionTreatment.new 5 MORPH_RECT 1).setParameter "kernelSize" "3.9" =
      (true, { kernelSize := 3, kernelShape := 0, iterations := 1 }) := by
  decide

/-- C10 (amended). For an object of any class, in any state: a value that `std::stoi`
cannot convert makes `setParameter` on an integer parameter fail and leaves the object
unchanged, and a value that `std::stod` cannot convert does the same on a `double`
parameter.  `std::stoi` cannot convert a string exactly when the string does not begin,
after optional white space and at most one sign, with a decimal digit (the empty string,
"abc"), or when the leading integer does not fit an `int`. -/
theorem setParameter_unparsable (ops : DoubleOps D) (o : TreatmentObject D)
    (paramName value : String) :
    (paramName ∈ intParameterNames → stoi value = none →
      o.setParameter ops paramName value = (false, o)) ∧
    (paramName ∈ doubleParameterNames → ops.stod value = none →
      o.setParameter ops paramName value = (false, o)) ∧
    (stoi value = none ↔
      (¬ StartsWithInteger value ∨ ∃ v : Int, strtol value = some v ∧ ¬ InIntRange v)) ∧
    stoi "" = none ∧ stoi "abc" = none := by
  refine ⟨?_, ?_, stoi_eq_none_iff value, by decide, by decide⟩
  · intro hn hs
    have h1 := setParameter_stoi_none ops o paramName value hn hs
    exact Prod.ext h1 (setParameter_false_unchanged ops o paramName value h1)
  · intro hn hs
    have h1 := setParameter_stod_none ops o paramName value hn hs
    exact Prod.ext h1 (setParameter_false_unchanged ops o paramName value h1)

/-- C10 (amended) at concrete inputs: "abc" for the block size of a mosaic treatment and
for the threshold value of a threshold treatment. -/
theorem setParameter_unparsable_witness :
    ("blockSize" ∈ intParameterNames ∧ stoi "abc" = none ∧
      exampleMosaic.setParameter intDoubleOps "blockSize" "abc" = (false, exampleMosaic)) ∧
    ("thresholdValue" ∈ doubleParameterNames ∧ intDoubleOps.stod "abc" = none ∧
      exampleThreshold.setParameter intDoubleOps "thresholdValue" "abc" =
        (false, exampleThreshold)) :=
  have hn : "blockSize" ∈ intParameterNames := by decide
  have hs : stoi "abc" = none := by decide
  have hd : "thresholdValue" ∈ doubleParameterNames := by decide
  have hsd : intDoubleOps.stod "abc" = none := by decide
  ⟨⟨hn, hs, (setParameter_unparsable intDoubleOps exampleMosaic "blockSize" "abc").1 hn hs⟩,
    ⟨hd, hsd,
      (setParameter_unparsable intDoubleOps exampleThreshold "thresholdValue" "abc").2.1
        hd hsd⟩⟩

/-! ## Input validation and the constraints on the stored parameters -/

/-- C15. `validateInput` follows the documented rule for every buffer: for the eight
classes that do not override it, it returns `true` exactly when the buffer is not empty;
for Canny and threshold it returns `true` exactly when the buffer is not empty and has 1
or 3 channels, so a buffer of 2 or 4 channels is rejected.  It is a total function to
`bool`: no path throws. -/
theorem validateInput_rule (o : TreatmentObject D) (input : Mat) :
    ((∀ t, o ≠ .cannyEdge t) → (∀ t, o ≠ .threshold t) →
      (o.validateInput input = true ↔ input.empty = false)) ∧
    (((∃ t, o = .cannyEdge t) ∨ (∃ t, o = .threshold t)) →
      (o.validateInput input = true ↔
        input.empty = false ∧ (input.channels = 1 ∨ input.channels = 3)) ∧
      (input.channels = 2 ∨ input.channels = 4 → o.validateInput input = false)) := by
  constructor
  · intro hc ht
    cases o with
    | cannyEdge t => exact absurd rfl (hc t)
    | threshold t => exact absurd rfl (ht t)
    | brightness t => simp [TreatmentObject.validateInput, Treatment.defaultValidateInput]
    | gaussianBlur t => simp [TreatmentObject.validateInput, Treatment.defaultValidateInput]
    | medianBlur t => simp [TreatmentObject.validateInput, Treatment.defaultValidateInput]
    | grayscale t => simp [TreatmentObject.validateInput, Treatment.defaultValidateInput]
    | sharpen t => simp [TreatmentObject.validateInput, Treatment.defaultValidateInput]
    | erosion t => simp [TreatmentObject.validateInput, Treatment.defaultValidateInput]
    | dilation t => simp [TreatmentObject.validateInput, Treatment.defaultValidateInput]
    | mosaic t => simp [TreatmentObject.validateInput, Treatment.defaultValidateInput]
  · rintro (⟨t, rfl⟩ | ⟨t, rfl⟩)
    · constructor
      · simp [TreatmentObject.validateInput, CannyEdgeTreatment.validateInput]
      · rintro (h | h) <;>
        simp [TreatmentObject.validateInput, CannyEdgeTreatment.validateInput, h]
    · constructor
      · simp [TreatmentObject.validateInput, ThresholdTreatment.validateInput]
      · rintro (h | h) <;>
        simp [TreatmentObject.validateInput, ThresholdTreatment.validateInput, h]

/-- C15 at concrete inputs: the example erosion and the example threshold treatment on
the three-channel example buffer and on its four-channel version. -/
theorem validateInput_rule_witness :
    (exampleErosion.validateInput { exampleInput with channels := 4 } = true ↔
      ({ exampleInput with channels := 4 } : Mat).empty = false) ∧
    (exampleThreshold.validateInput exampleInput = true ↔
      exampleInput.empty = false ∧ (exampleInput.channels = 1 ∨ exampleInput.channels = 3)) ∧
    exampleThreshold.validateInput { exampleInput with channels := 4 } = false :=
  ⟨(validateInput_rule exampleErosion { exampleInput with channels := 4 }).1
      (fun _ h => TreatmentObject.noConfusion h) (fun _ h => TreatmentObject.noConfusion h),
    ((validateInput_rule exampleThreshold exampleInput).2 (Or.inr ⟨_, rfl⟩)).1,
    ((validateInput_rule exampleThreshold { exampleInput with channels := 4 }).2
      (Or.inr ⟨_, rfl⟩)).2 (Or.inr rfl)⟩

theorem odd_of_tmod_ne_zero (k : Int) (h : Int.tmod k 2 ≠ 0) : k % 2 = 1 := by
  have h2 : ¬ (2 : Int) ∣ k := fun hd => h (Int.tmod_eq_zero_of_dvd hd)
  omega

/-- C16. For Gaussian blur and median blur the stored kernel size is odd and at least 1
in every reachable state: after the constructor, whatever `int` it is given, and after
any sequence of `setParameter` calls, successful or not. -/
theorem blur_kernelSize_odd_and_positive (ops : DoubleOps D) (o : TreatmentObject D)
    (h : Reachable ops o) :
    (∀ t : GaussianBlurTreatment D, o = .gaussianBlur t →
      t.kernelSize % 2 = 1 ∧ 1 ≤ t.kernelSize) ∧
    (∀ t : MedianBlurTreatment, o = .medianBlur t →
      t.kernelSize % 2 = 1 ∧ 1 ≤ t.kernelSize) := by
  have hn := constructorNormal_of_reachable ops o h
  constructor
  · rintro t rfl
    exact ⟨odd_of_tmod_ne_zero _ hn.1, hn.2⟩
  · rintro t rfl
    exact ⟨odd_of_tmod_ne_zero _ hn.1, hn.2⟩

/-- C16 at a concrete input: a median blur built with `INT_MIN`, then given the even
kernel size 8 and then the rejected kernel size 0. -/
theorem blur_kernelSize_odd_and_positive_witness :
    Reachable intDoubleOps
      (((TreatmentObject.medianBlur (MedianBlurTreatment.new INT_MIN)).setParameter
        intDoubleOps "kernelSize" "8").2.setParameter intDoubleOps "kernelSize" "0").2 ∧
    (MedianBlurTreatment.new INT_MIN).kernelSize = 1 ∧
    ((9 : Int) % 2 = 1 ∧ (1 : Int) ≤ 9) :=
  have hr : Reachable intDoubleOps
      (((TreatmentObject.medianBlur (MedianBlurTreatment.new INT_MIN)).setParameter
        intDoubleOps "kernelSize" "8").2.setParameter intDoubleOps "kernelSize" "0").2 :=
    Reachable.setParameter _ _ _
      (Reachable.setParameter _ _ _ (Reachable.medianBlur INT_MIN (by decide)))
  ⟨hr, by decide, (blur_kernelSize_odd_and_positive intDoubleOps _ hr).2 ⟨9⟩ rfl⟩

/-- C17. For the Canny treatment the stored aperture is 3, 5 or 7 in every reachable
state; the constructor keeps an argument that is 3, 5 or 7 and replaces any other by 3;
`setParameter("apertureSize", value)` succeeds exactly when `std::stoi` reads `value` as
3, 5 or 7, then stores that number, and otherwise leaves the object unchanged. -/
theorem canny_aperture_three_five_seven (ops : DoubleOps D) (o : TreatmentObject D)
    (t : CannyEdgeTreatment D) (t1 t2 : D) (aperture : Int) (value : String) :
    (Reachable ops o → ∀ u : CannyEdgeTreatment D, o = .cannyEdge u →
      u.apertureSize = 3 ∨ u.apertureSize = 5 ∨ u.apertureSize = 7) ∧
    (CannyEdgeTreatment.new t1 t2 aperture).apertureSize =
      (if aperture = 3 ∨ aperture = 5 ∨ aperture = 7 then aperture else 3) ∧
    ((t.setParameter ops "apertureSize" value).1 = true ↔
      ∃ n : Int, stoi value = some n ∧ (n = 3 ∨ n = 5 ∨ n = 7)) ∧
    (∀ n : Int, stoi value = some n → (n = 3 ∨ n = 5 ∨ n = 7) →
      (t.setParameter ops "apertureSize" value).2 = { t with apertureSize := n }) ∧
    ((t.setParameter ops "apertureSize" value).1 = false →
      (t.setParameter ops "apertureSize" value).2 = t) := by
  refine ⟨?_, ?_, ?_, ?_, ?_⟩
  · rintro h u rfl
    exact constructorNormal_of_reachable ops _ h
  · simp only [CannyEdgeTreatment.new]
    split_ifs <;> first | rfl | omega
  · cases hs : stoi value with
    | none => simp [CannyEdgeTreatment.setParameter, hs]
    | some n =>
      by_cases hn : n = 3 ∨ n = 5 ∨ n = 7
      · simp [CannyEdgeTreatment.setParameter, hs, hn]
      · simp [CannyEdgeTreatment.setParameter, hs, hn]
  · intro n hs hn
    simp [CannyEdgeTreatment.setParameter, hs, hn]
  · cases hs : stoi value with
    | none => simp [CannyEdgeTreatment.setParameter, hs]
    | some n =>
      by_cases hn : n = 3 ∨ n = 5 ∨ n = 7
      · simp [CannyEdgeTreatment.setParameter, hs, hn]
      · simp [CannyEdgeTreatment.setParameter, hs, hn]

/-- C17 at concrete inputs: a Canny treatment built with aperture 4 (stored as 3), given
"5" and then the rejected "4". -/
theorem canny_aperture_three_five_seven_witness :
    Reachable intDoubleOps
      ((TreatmentObject.cannyEdge (CannyEdgeTreatment.new 50 150 4)).setParameter
        intDoubleOps "apertureSize" "5").2 ∧
    ((5 : Int) = 3 ∨ (5 : Int) = 5 ∨ (5 : Int) = 7) ∧
    (CannyEdgeTreatment.new (50 : Int) 150 4).apertureSize = 3 ∧
    stoi "5" = some 5 ∧
    ((CannyEdgeTreatment.new (50 : Int) 150 4).setParameter intDoubleOps
      "apertureSize" "5").2 = { CannyEdgeTreatment.new (50 : Int) 150 4 with apertureSize := 5 } ∧
    ((CannyEdgeTreatment.new (50 : Int) 150 4).setParameter intDoubleOps
      "apertureSize" "4").1 = false ∧
    ((CannyEdgeTreatment.new (50 : Int) 150 4).setParameter intDoubleOps
      "apertureSize" "4").2 = CannyEdgeTreatment.new (50 : Int) 150 4 :=
  have hr : Reachable intDoubleOps
      ((TreatmentObject.cannyEdge (CannyEdgeTreatment.new 50 150 4)).setParameter
        intDoubleOps "apertureSize" "5").2 :=
    Reachable.setParameter _ _ _ (Reachable.cannyEdge 50 150 4 (by decide))
  have h5 : stoi "5" = some 5 := by decide
  have hf : ((CannyEdgeTreatment.new (50 : Int) 150 4).setParameter intDoubleOps
      "apertureSize" "4").1 = false := by decide
  have hA := canny_aperture_three_five_seven intDoubleOps
    ((TreatmentObject.cannyEdge (CannyEdgeTreatment.new 50 150 4)).setParameter
      intDoubleOps "apertureSize" "5").2
    (CannyEdgeTreatment.new (50 : Int) 150 4) 50 150 4 "5"
  have hB := canny_aperture_three_five_seven intDoubleOps exampleErosion
    (CannyEdgeTreatment.new (50 : Int) 150 4) 50 150 4 "4"
  ⟨hr, hA.1 hr { threshold1 := 50, threshold2 := 150, apertureSize := 5 } rfl,
    by decide, h5, hA.2.2.2.1 5 h5 (by decide), hf, hB.2.2.2.2 hf⟩

/-- C18 (the code at the failing input). `ThresholdTreatment(127, 255, 7)` stores the
mode 7, outside `[0, 4]`, and keeps it through later `setParameter` calls that do not
replace it, although `setParameter("thresholdType", "7")` itself is refused. -/
theorem threshold_constructor_keeps_any_type :
    Reachable intDoubleOps (.threshold (ThresholdTreatment.new 127 255 7)) ∧
    (ThresholdTreatment.new (127 : Int) 255 7).thresholdType = 7 ∧
    ¬ ((0 : Int) ≤ 7 ∧ (7 : Int) ≤ 4) ∧
    ((ThresholdTreatment.new (127 : Int) 255 7).setParameter intDoubleOps
      "maxValue" "200").2.thresholdType = 7 ∧
    ((ThresholdTreatment.new (127 : Int) 255 THRESH_BINARY).setParameter intDoubleOps
      "thresholdType" "7") = (false, ThresholdTreatment.new 127 255 THRESH_BINARY) :=
  ⟨Reachable.threshold 127 255 7 (by decide), rfl, by decide, rfl, rfl⟩

/-- C19 (the code at the failing input). `ErosionTreatment(3, 5, 1)` and
`DilationTreatment(3, -1, 1)` store the kernel shapes 5 and -1, outside `{0, 1, 2}`,
although `setParameter("kernelShape", ...)` refuses both values. -/
theorem morphology_constructor_keeps_any_shape :
    Reachable intDoubleOps (.erosion (ErosionTreatment.new 3 5 1)) ∧
    (ErosionTreatment.new 3 5 1).kernelShape = 5 ∧
    Reachable intDoubleOps (.dilation (DilationTreatment.new 3 (-1) 1)) ∧
    (DilationTreatment.new 3 (-1) 1).kernelShape = -1 ∧
    ((ErosionTreatment.new 3 MORPH_RECT 1).setParameter "kernelShape" "5").1 = false ∧
    ((DilationTreatment.new 3 MORPH_RECT 1).setParameter "kernelShape" "-1").1 = false :=
  ⟨Reachable.erosion 3 5 1 (by decide) (by decide) (by decide), by decide,
    Reachable.dilation 3 (-1) 1 (by decide) (by decide) (by decide), by decide,
    by decide, by decide⟩

/-- C20. For erosion and dilation the stored kernel size and iteration count are at
least 1 in every reachable state; the constructor raises a smaller argument to 1 and
keeps any other, and a `setParameter` call either leaves each of the two members as it
was or stores a value that is at least 1. -/
theorem morphology_size_and_iterations_positive (ops : DoubleOps D)
    (o : TreatmentObject D) (kSize shape iter : Int) (e : ErosionTreatment)
    (d : DilationTreatment) (paramName value : String) :
    (Reachable ops o →
      (∀ t : ErosionTreatment, o = .erosion t → 1 ≤ t.kernelSize ∧ 1 ≤ t.iterations) ∧
      (∀ t : DilationTreatment, o = .dilation t → 1 ≤ t.kernelSize ∧ 1 ≤ t.iterations)) ∧
    ((ErosionTreatment.new kSize shape iter).kernelSize = max kSize 1 ∧
      (ErosionTreatment.new kSize shape iter).iterations = max iter 1 ∧
      (DilationTreatment.new kSize shape iter).kernelSize = max kSize 1 ∧
      (DilationTreatment.new kSize shape iter).iterations = max iter 1) ∧
    (((e.setParameter paramName value).2.kernelSize = e.kernelSize ∨
        1 ≤ (e.setParameter paramName value).2.kernelSize) ∧
      ((e.setParameter paramName value).2.iterations = e.iterations ∨
        1 ≤ (e.setParameter paramName value).2.iterations) ∧
      ((d.setParameter paramName value).2.kernelSize = d.kernelSize ∨
        1 ≤ (d.setParameter paramName value).2.kernelSize) ∧
      ((d.setParameter paramName value).2.iterations = d.iterations ∨
        1 ≤ (d.setParameter paramName value).2.iterations)) := by
  refine ⟨?_, ?_, ?_⟩
  · intro h
    have hn := constructorNormal_of_reachable ops o h
    constructor
    · rintro t rfl
      exact hn
    · rintro t rfl
      exact hn
  · simp only [ErosionTreatment.new, DilationTreatment.new]
    refine ⟨?_, ?_, ?_, ?_⟩ <;> split_ifs <;> omega
  · refine ⟨?_, ?_, ?_, ?_⟩
    · unfold ErosionTreatment.setParameter
      split_ifs <;> (try split) <;> (try split_ifs) <;>
        first | exact Or.inl rfl | (right; simp only; omega)
    · unfold ErosionTreatment.setParameter
      split_ifs <;> (try split) <;> (try split_ifs) <;>
        first | exact Or.inl rfl | (right; simp only; omega)
    · unfold DilationTreatment.setParameter
      split_ifs <;> (try split) <;> (try split_ifs) <;>
        first | exact Or.inl rfl | (right; simp only; omega)
    · unfold DilationTreatment.setParameter
      split_ifs <;> (try split) <;> (try split_ifs) <;>
        first | exact Or.inl rfl | (right; simp only; omega)

/-- C20 at a concrete input: an erosion built with kernel size -4 and 0 iterations, then
given the kernel size 6. -/
theorem morphology_size_and_iterations_positive_witness :
    Reachable intDoubleOps
      ((TreatmentObject.erosion (ErosionTreatment.new (-4) 0 0)).setParameter
        intDoubleOps "kernelSize" "6").2 ∧
    ((1 : Int) ≤ 6 ∧ (1 : Int) ≤ 1) ∧
    (ErosionTreatment.new (-4) 0 0).kernelSize = max (-4) 1 :=
  have hr : Reachable intDoubleOps
      ((TreatmentObject.erosion (ErosionTreatment.new (-4) 0 0)).setParameter
        intDoubleOps "kernelSize" "6").2 :=
    Reachable.setParameter _ _ _
      (Reachable.erosion (-4) 0 0 (by decide) (by decide) (by decide))
  have h := morphology_size_and_iterations_positive intDoubleOps
    ((TreatmentObject.erosion (ErosionTreatment.new (-4) 0 0)).setParameter
      intDoubleOps "kernelSize" "6").2 (-4) 0 0 (ErosionTreatment.new (-4) 0 0)
    (DilationTreatment.new 3 0 1) "kernelSize" "6"
  ⟨hr, (h.1 hr).1 { kernelSize := 6, kernelShape := 0, iterations := 1 } rfl, h.2.1.1⟩

end TreatmentTheorems

/-! ## Reading a device -/


theorem read_of_opened (w : WebcamImageSource) (h : w.opened = true) :
    w.read = (w.frames w.reads, { w with reads := w.reads + 1 }) := by
  simp [WebcamImageSource.read, h]

theorem skipLoop_eq (skipFrames : Int) :
    ∀ (n i : Nat) (frame : Mat) (w : WebcamImageSource), w.opened = true →
      WebcamImageSource.skipLoop skipFrames n i frame w =
        (if n = 0 then frame else w.frames (w.reads + n - 1),
         { w with
           reads := w.reads + n
           delays := w.delays ++ List.replicate (min n (skipFrames - 1 - i).toNat) 30 }) := by
  intro n
  induction n with
  | zero =>
    intro i frame w _
    simp [WebcamImageSource.skipLoop]
  | succ n ih =>
    intro i frame w h
    rw [WebcamImageSource.skipLoop, read_of_opened w h]
    by_cases hi : (i : Int) < skipFrames - 1
    · simp only [hi, if_true]
      rw [ih (i + 1) _ _ (by simp [WebcamImageSource.sleep_for, h])]
      have hm : min (n + 1) (skipFrames - 1 - (i : Int)).toNat =
          min n (skipFrames - 1 - ((i + 1 : Nat) : Int)).toNat + 1 := by
        omega
      rw [hm, List.replicate_succ]
      by_cases hn : n = 0
      · subst hn
        simp [WebcamImageSource.sleep_for]
      · simp [WebcamImageSource.sleep_for, hn, Nat.add_assoc, Nat.add_comm 1 n]
    · simp only [hi, if_false]
      rw [ih (i + 1) _ { w with reads := w.reads + 1 } h]
      have hm : min (n + 1) (skipFrames - 1 - (i : Int)).toNat = 0 := by omega
      have hm1 : min n (skipFrames - 1 - ((i + 1 : Nat) : Int)).toNat = 0 := by omega
      rw [hm, hm1]
      by_cases hn : n = 0
      · subst hn
        simp
      · simp [hn, Nat.add_assoc, Nat.add_comm 1 n]

theorem retryLoop_step (mean : Mat → Scalar) (validateNonBlack : Bool) (n : Nat)
    (frame : Mat) (w : WebcamImageSource) :
    WebcamImageSource.retryLoop mean validateNonBlack (n + 1) frame w =
      if acceptsFrame mean validateNonBlack w.read.1 then (w.read.1, w.read.2)
      else WebcamImageSource.retryLoop mean validateNonBlack n w.read.1
        (w.read.2.sleep_for 50) := by
  rw [WebcamImageSource.retryLoop]
  cases he : w.read.1.empty <;> cases validateNonBlack <;>
    simp [acceptsFrame, he, Scalar.maxOfFirstThree]

theorem retryLoop_rejected (mean : Mat → Scalar) (validateNonBlack : Bool) :
    ∀ (k n : Nat) (frame : Mat) (w : WebcamImageSource), w.opened = true →
      (∀ j : Nat, j < k → acceptsFrame mean validateNonBlack (w.frames (w.reads + j)) = false) →
      WebcamImageSource.retryLoop mean validateNonBlack (k + n) frame w =
        WebcamImageSource.retryLoop mean validateNonBlack n
          (if k = 0 then frame else w.frames (w.reads + k - 1))
          { w with reads := w.reads + k, delays := w.delays ++ List.replicate k 50 } := by
  intro k
  induction k with
  | zero =>
    intro n frame w _ _
    simp
  | succ k ih =>
    intro n frame w h hrej
    have h0 := hrej 0 (Nat.succ_pos k)
    rw [Nat.add_zero] at h0
    rw [show k + 1 + n = (k + n) + 1 by omega, retryLoop_step, read_of_opened w h]
    simp only [h0, Bool.false_eq_true, if_false]
    rw [ih n _ _ (by simp [WebcamImageSource.sleep_for, h])]
    · by_cases hk : k = 0
      · subst hk
        simp [WebcamImageSource.sleep_for]
      · simp [WebcamImageSource.sleep_for, hk, Nat.add_assoc, Nat.add_comm 1 k,
          List.replicate_succ]
    · intro j hj
      have := hrej (j + 1) (Nat.succ_lt_succ hj)
      simpa [WebcamImageSource.sleep_for, Nat.add_assoc, Nat.add_comm 1 j] using this

theorem maxOfFirstThree_le_of_maxChannelMean (mean : Mat → Scalar)
    (hc : AbsentChannelsZero mean) (f : Mat)
    (h : (mean f).maxChannelMean f.channels ≤ 5) : (mean f).maxOfFirstThree ≤ 5 := by
  obtain ⟨h1, h2, h3⟩ := hc f
  unfold Scalar.maxOfFirstThree
  unfold Scalar.maxChannelMean at h
  split at h
  · rename_i hch
    rw [h1 (by omega), h2 (by omega)]
    simp only [max_le_iff]
    exact ⟨⟨h, by norm_num⟩, by norm_num⟩
  · rename_i hch
    rw [h1 (by omega), h2 (by omega)]
    simp only [max_le_iff]
    exact ⟨⟨h, by norm_num⟩, by norm_num⟩
  · rename_i hch
    rw [h2 (by omega)]
    simp only [max_le_iff] at h ⊢
    exact ⟨h, by norm_num⟩
  · exact h
  · simp only [max_le_iff] at h ⊢
    exact h.1

theorem cvMean_absentChannelsZero : AbsentChannelsZero cvMean := by
  intro f
  refine ⟨?_, ?_, ?_⟩ <;> intro h <;> simp only [cvMean, Mat.channelMean] <;>
    rw [if_neg (by omega)]

theorem acceptsFrame_of_empty (mean : Mat → Scalar) (validateNonBlack : Bool) (f : Mat)
    (h : f.empty = true) : acceptsFrame mean validateNonBlack f = false := by
  simp [acceptsFrame, h]

theorem getImageWithRetry_eq (mean : Mat → Scalar) (w : WebcamImageSource)
    (skipFrames retries : Int) (validateNonBlack : Bool) (hopen : w.opened = true) :
    w.getImageWithRetry mean skipFrames retries validateNonBlack =
      WebcamImageSource.retryLoop mean validateNonBlack retries.toNat
        (if skipFrames.toNat = 0 then Mat.new
         else w.frames (w.reads + skipFrames.toNat - 1))
        { w with
          reads := w.reads + skipFrames.toNat
          delays := w.delays ++ List.replicate (skipFrames.toNat - 1) 30 } := by
  have hm : min skipFrames.toNat (skipFrames - 1 - ((0 : Nat) : Int)).toNat =
      skipFrames.toNat - 1 := by omega
  simp only [WebcamImageSource.getImageWithRetry, hopen, Bool.not_true, Bool.false_eq_true,
    if_false, skipLoop_eq skipFrames _ 0 _ w hopen, hm]

/-- The hardened read when the retry loop rejects `k` frames and then accepts one. -/
theorem getImageWithRetry_accepts_at (mean : Mat → Scalar) (w : WebcamImageSource)
    (skipFrames retries : Int) (validateNonBlack : Bool) (k : Nat)
    (hopen : w.opened = true) (hk : k < retries.toNat)
    (hrej : ∀ j : Nat, j < k →
      acceptsFrame mean validateNonBlack (w.frames (w.reads + skipFrames.toNat + j)) = false)
    (hacc : acceptsFrame mean validateNonBlack
      (w.frames (w.reads + skipFrames.toNat + k)) = true) :
    w.getImageWithRetry mean skipFrames retries validateNonBlack =
      (w.frames (w.reads + skipFrames.toNat + k),
       { w with
         reads := w.reads + skipFrames.toNat + k + 1
         delays := w.delays ++ List.replicate (skipFrames.toNat - 1) 30 ++
           List.replicate k 50 }) := by
  obtain ⟨m, hm⟩ : ∃ m : Nat, retries.toNat = k + (m + 1) :=
    ⟨retries.toNat - k - 1, by omega⟩
  have h := retryLoop_rejected mean validateNonBlack k (m + 1)
    (if skipFrames.toNat = 0 then Mat.new else w.frames (w.reads + skipFrames.toNat - 1))
    { w with
      reads := w.reads + skipFrames.toNat
      delays := w.delays ++ List.replicate (skipFrames.toNat - 1) 30 } hopen hrej
  rw [getImageWithRetry_eq mean w skipFrames retries validateNonBlack hopen, hm, h,
    retryLoop_step, read_of_opened _ (by exact hopen)]
  simp only [hacc, if_true]

/-- The hardened read when the retry loop rejects every frame it reads. -/
theorem getImageWithRetry_rejects_all (mean : Mat → Scalar) (w : WebcamImageSource)
    (skipFrames retries : Int) (validateNonBlack : Bool)
    (hopen : w.opened = true) (hr : 1 ≤ retries)
    (hrej : ∀ j : Nat, j < retries.toNat →
      acceptsFrame mean validateNonBlack (w.frames (w.reads + skipFrames.toNat + j)) = false) :
    w.getImageWithRetry mean skipFrames retries validateNonBlack =
      (w.frames (w.reads + skipFrames.toNat + retries.toNat - 1),
       { w with
         reads := w.reads + skipFrames.toNat + retries.toNat
         delays := w.delays ++ List.replicate (skipFrames.toNat - 1) 30 ++
           List.replicate retries.toNat 50 }) := by
  have hk : retries.toNat ≠ 0 := by omega
  rw [getImageWithRetry_eq mean w skipFrames retries validateNonBlack hopen]
  have h := retryLoop_rejected mean validateNonBlack retries.toNat 0
    (if skipFrames.toNat = 0 then Mat.new else w.frames (w.reads + skipFrames.toNat - 1))
    { w with
      reads := w.reads + skipFrames.toNat
      delays := w.delays ++ List.replicate (skipFrames.toNat - 1) 30 } hopen hrej
  rw [Nat.add_zero] at h
  rw [h, WebcamImageSource.retryLoop]
  simp [hk]

theorem acceptsFrame_brightFrame (validateNonBlack : Bool) :
    acceptsFrame cvMean validateNonBlack brightFrame = true := by
  cases validateNonBlack <;>
    norm_num [acceptsFrame, Mat.empty, cvMean, Mat.channelMean, Mat.channelSum, brightFrame,
      Scalar.maxOfFirstThree, List.range_succ]

theorem acceptsFrame_alphaOnlyFrame :
    acceptsFrame cvMean true alphaOnlyFrame = false := by
  norm_num [acceptsFrame, Mat.empty, cvMean, Mat.channelMean, Mat.channelSum, alphaOnlyFrame,
    Scalar.maxOfFirstThree, List.range_succ]

theorem maxChannelMean_alphaOnlyFrame :
    (cvMean alphaOnlyFrame).maxChannelMean alphaOnlyFrame.channels = 255 := by
  norm_num [cvMean, Mat.channelMean, Mat.channelSum, alphaOnlyFrame, Scalar.maxChannelMean,
    List.range_succ]

/-- C23 (as stated, refuted). After three empty frames the device delivers a frame of
four channels whose largest channel mean is 255 (its fourth channel); with validation
on, `getImageWithRetry(0, 5, true)` does not return that frame after four reads: it
reads a fifth frame and returns it. -/
theorem warmup_then_alphaOnlyFrame_not_returned :
    (∀ j : Nat, j < 3 →
      (framesOfList [Mat.new, Mat.new, Mat.new, alphaOnlyFrame] j).empty = true) ∧
    framesOfList [Mat.new, Mat.new, Mat.new, alphaOnlyFrame] 3 = alphaOnlyFrame ∧
    alphaOnlyFrame.empty = false ∧
    5 < (cvMean alphaOnlyFrame).maxChannelMean alphaOnlyFrame.channels ∧
    (WebcamImageSource.new (framesOfList [Mat.new, Mat.new, Mat.new, alphaOnlyFrame])
      true 0).getImageWithRetry cvMean 0 5 true =
      (Mat.new,
       { WebcamImageSource.new (framesOfList [Mat.new, Mat.new, Mat.new, alphaOnlyFrame])
           true 0 with
         reads := 5
         delays := [50, 50, 50, 50, 50] }) ∧
    Mat.new ≠ alphaOnlyFrame := by
  refine ⟨by decide, rfl, by decide, ?_, ?_, by decide⟩
  · rw [maxChannelMean_alphaOnlyFrame]
    norm_num
  · rw [getImageWithRetry_rejects_all cvMean _ 0 5 true rfl (by decide)]
    · rfl
    · intro j hj
      have hj5 : j < 5 := hj
      interval_cases j
      · exact acceptsFrame_of_empty cvMean true _ (by decide)
      · exact acceptsFrame_of_empty cvMean true _ (by decide)
      · exact acceptsFrame_of_empty cvMean true _ (by decide)
      · exact acceptsFrame_alphaOnlyFrame
      · exact acceptsFrame_of_empty cvMean true _ (by decide)

/-- C23 (amended). On an open device, for every `skipFrames` and every retry budget of
at least 4: if the device delivers `skipFrames + 3` empty frames and then a non-empty
frame `f` for which, when validation is on, the largest of the means of the first three
channels (the `maxMean` of the code) exceeds 5.0, `getImageWithRetry` returns exactly
`f`, having made `skipFrames + 4` device reads: `skipFrames` discarded reads, with a
30 ms delay between them, and 3 failed retries, each followed by a 50 ms delay.  It is a
total function: nothing is thrown. -/
theorem getImageWithRetry_after_warmup (mean : Mat → Scalar) (w : WebcamImageSource)
    (skipFrames retries : Int) (validateNonBlack : Bool) (f : Mat)
    (hopen : w.opened = true) (hr : 4 ≤ retries)
    (hempty : ∀ j : Nat, j < skipFrames.toNat + 3 → (w.frames (w.reads + j)).empty = true)
    (hf : w.frames (w.reads + skipFrames.toNat + 3) = f) (hne : f.empty = false)
    (hbright : validateNonBlack = true → 5 < (mean f).maxOfFirstThree) :
    w.getImageWithRetry mean skipFrames retries validateNonBlack =
      (f, { w with
            reads := w.reads + skipFrames.toNat + 4
            delays := w.delays ++ List.replicate (skipFrames.toNat - 1) 30 ++
              List.replicate 3 50 }) := by
  have hacc : acceptsFrame mean validateNonBlack f = true := by
    cases validateNonBlack with
    | false => simp [acceptsFrame, hne]
    | true => simp [acceptsFrame, hne, hbright rfl]
  rw [getImageWithRetry_accepts_at mean w skipFrames retries validateNonBlack 3 hopen
    (by omega)
    (by
      intro j hj
      apply acceptsFrame_of_empty
      have := hempty (skipFrames.toNat + j) (by omega)
      simpa [Nat.add_assoc] using this)
    (by rw [hf]; exact hacc), hf]

/-- C23 (amended) at a concrete input: two warm-up frames are skipped, three retries
read empty frames, the fourth reads the bright frame. -/
theorem getImageWithRetry_after_warmup_witness :
    (4 : Int) ≤ 4 ∧ brightFrame.empty = false ∧
    5 < (cvMean brightFrame).maxOfFirstThree ∧
    ((WebcamImageSource.new
        (framesOfList [Mat.new, Mat.new, Mat.new, Mat.new, Mat.new, brightFrame])
        true 0).getImageWithRetry cvMean 2 4 true).1 = brightFrame ∧
    ((WebcamImageSource.new
        (framesOfList [Mat.new, Mat.new, Mat.new, Mat.new, Mat.new, brightFrame])
        true 0).getImageWithRetry cvMean 2 4 true).2.reads = 6 :=
  have hb : 5 < (cvMean brightFrame).maxOfFirstThree := by
    norm_num [cvMean, Mat.channelMean, Mat.channelSum, brightFrame, Scalar.maxOfFirstThree,
      List.range_succ]
  have h := getImageWithRetry_after_warmup cvMean
    (WebcamImageSource.new
      (framesOfList [Mat.new, Mat.new, Mat.new, Mat.new, Mat.new, brightFrame]) true 0)
    2 4 true brightFrame rfl (by decide)
    (by
      intro j hj
      have hj5 : j < 5 := hj
      interval_cases j <;> decide)
    rfl (by decide) (fun _ => hb)
  ⟨by decide, by decide, hb, by rw [h], by rw [h]; rfl⟩

/-- C24. On an open device with `retries >= 1`: if none of the `retries` frames read by
the retry loop is acceptable (each is empty, or validation is on and its largest channel
mean is at most 5.0), `getImageWithRetry` returns the last frame it read, the one at
read position `skipFrames + retries - 1`, after `skipFrames + retries` reads.  It is a
total function: nothing is thrown.  `cv::mean` is any function that reports 0 for the
channels a frame does not have. -/
theorem getImageWithRetry_exhausted (mean : Mat → Scalar) (w : WebcamImageSource)
    (skipFrames retries : Int) (validateNonBlack : Bool)
    (hc : AbsentChannelsZero mean) (hopen : w.opened = true) (hr : 1 ≤ retries)
    (hnone : ∀ j : Nat, j < retries.toNat →
      (w.frames (w.reads + skipFrames.toNat + j)).empty = true ∨
      (validateNonBlack = true ∧
        (mean (w.frames (w.reads + skipFrames.toNat + j))).maxChannelMean
          (w.frames (w.reads + skipFrames.toNat + j)).channels ≤ 5)) :
    w.getImageWithRetry mean skipFrames retries validateNonBlack =
      (w.frames (w.reads + skipFrames.toNat + retries.toNat - 1),
       { w with
         reads := w.reads + skipFrames.toNat + retries.toNat
         delays := w.delays ++ List.replicate (skipFrames.toNat - 1) 30 ++
           List.replicate retries.toNat 50 }) := by
  apply getImageWithRetry_rejects_all mean w skipFrames retries validateNonBlack hopen hr
  intro j hj
  rcases hnone j hj with he | ⟨hv, hle⟩
  · exact acceptsFrame_of_empty mean validateNonBlack _ he
  · have h3 := maxOfFirstThree_le_of_maxChannelMean mean hc _ hle
    simp [acceptsFrame, hv, not_lt.2 h3]

/-- C24 at a concrete input: a device whose every frame is black, one skipped frame and
two retries. -/
theorem getImageWithRetry_exhausted_witness :
    AbsentChannelsZero cvMean ∧ (1 : Int) ≤ 2 ∧
    (cvMean blackFrame).maxChannelMean blackFrame.channels ≤ 5 ∧
    ((WebcamImageSource.new (fun _ => blackFrame) true 0).getImageWithRetry
      cvMean 1 2 true).1 = blackFrame ∧
    ((WebcamImageSource.new (fun _ => blackFrame) true 0).getImageWithRetry
      cvMean 1 2 true).2.reads = 3 :=
  have hb : (cvMean blackFrame).maxChannelMean blackFrame.channels ≤ 5 := by
    norm_num [cvMean, Mat.channelMean, Mat.channelSum, blackFrame, Scalar.maxChannelMean,
      List.range_succ]
  have h := getImageWithRetry_exhausted cvMean
    (WebcamImageSource.new (fun _ => blackFrame) true 0) 1 2 true
    cvMean_absentChannelsZero rfl (by decide) (fun _ _ => Or.inr ⟨rfl, hb⟩)
  ⟨cvMean_absentChannelsZero, by decide, hb, by rw [h]; rfl, by rw [h]; rfl⟩

theorem retryLoop_delays_length (mean : Mat → Scalar) (validateNonBlack : Bool) :
    ∀ (n : Nat) (frame : Mat) (w : WebcamImageSource),
      w.delays.length ≤
        (WebcamImageSource.retryLoop mean validateNonBlack n frame w).2.delays.length := by
  intro n
  induction n with
  | zero =>
    intro frame w
    simp [WebcamImageSource.retryLoop]
  | succ n ih =>
    intro frame w
    have hread : w.read.2.delays = w.delays := by
      unfold WebcamImageSource.read
      split_ifs <;> rfl
    rw [retryLoop_step]
    split_ifs
    · simp [hread]
    · refine Nat.le_trans ?_ (ih _ _)
      simp [WebcamImageSource.sleep_for, hread]

/-- C25 (as stated, refuted). With validation on, a non-empty frame of four channels
whose largest channel mean is 255 (its fourth channel) is not accepted: the retry loop
goes on and returns the next frame, after two reads. -/
theorem alphaOnlyFrame_not_accepted :
    alphaOnlyFrame.empty = false ∧
    5 < (cvMean alphaOnlyFrame).maxChannelMean alphaOnlyFrame.channels ∧
    (WebcamImageSource.new (framesOfList [alphaOnlyFrame, brightFrame])
      true 0).getImageWithRetry cvMean 0 2 true =
      (brightFrame,
       { WebcamImageSource.new (framesOfList [alphaOnlyFrame, brightFrame]) true 0 with
         reads := 2
         delays := [50] }) ∧
    brightFrame ≠ alphaOnlyFrame := by
  refine ⟨by decide, ?_, ?_, by decide⟩
  · rw [maxChannelMean_alphaOnlyFrame]
    norm_num
  · rw [getImageWithRetry_accepts_at cvMean _ 0 2 true 1 rfl (by decide)]
    · rfl
    · intro j hj
      interval_cases j
      exact acceptsFrame_alphaOnlyFrame
    · exact acceptsFrame_brightFrame true

/-- C25 (amended). With validation on, a non-empty frame read by the retry loop is
returned at once if and only if the largest of the means of its first three channels
(`mean[0]`, `mean[1]`, `mean[2]`) is strictly greater than 5.0; otherwise, in particular
when that value is exactly 5.0, a 50 ms delay follows and the loop goes on.  For a frame
of at most three channels that value exceeds 5.0 exactly when the largest of its
per-channel means does (`cv::mean` reporting 0 for channels the frame does not have); the
mean of a fourth channel is not looked at. -/
theorem retryLoop_accepts_iff (mean : Mat → Scalar) (n : Nat) (frame : Mat)
    (w : WebcamImageSource) (hopen : w.opened = true)
    (hne : (w.frames w.reads).empty = false) :
    (WebcamImageSource.retryLoop mean true (n + 1) frame w =
        (w.frames w.reads, { w with reads := w.reads + 1 }) ↔
      5 < (mean (w.frames w.reads)).maxOfFirstThree) ∧
    ((mean (w.frames w.reads)).maxOfFirstThree ≤ 5 →
      WebcamImageSource.retryLoop mean true (n + 1) frame w =
        WebcamImageSource.retryLoop mean true n (w.frames w.reads)
          { w with reads := w.reads + 1, delays := w.delays ++ [50] }) ∧
    (AbsentChannelsZero mean → (w.frames w.reads).channels ≤ 3 →
      (5 < (mean (w.frames w.reads)).maxOfFirstThree ↔
        5 < (mean (w.frames w.reads)).maxChannelMean (w.frames w.reads).channels)) := by
  have hstep := retryLoop_step mean true n frame w
  rw [read_of_opened w hopen] at hstep
  refine ⟨?_, ?_, ?_⟩
  · constructor
    · intro h
      by_contra hnot
      have hacc : acceptsFrame mean true (w.frames w.reads) = false := by
        simp [acceptsFrame, hne, hnot]
      rw [hstep] at h
      simp only [hacc, Bool.false_eq_true, if_false] at h
      have hlen := retryLoop_delays_length mean true n (w.frames w.reads)
        (WebcamImageSource.sleep_for { w with reads := w.reads + 1 } 50)
      rw [h] at hlen
      simp [WebcamImageSource.sleep_for] at hlen
    · intro h
      have hacc : acceptsFrame mean true (w.frames w.reads) = true := by
        simp [acceptsFrame, hne, h]
      rw [hstep]
      simp only [hacc, if_true]
  · intro h
    have hacc : acceptsFrame mean true (w.frames w.reads) = false := by
      simp [acceptsFrame, hne, not_lt.2 h]
    rw [hstep]
    simp only [hacc, Bool.false_eq_true, if_false]
    rfl
  · intro hc hch
    obtain ⟨h1, h2, h3⟩ := hc (w.frames w.reads)
    unfold Scalar.maxOfFirstThree Scalar.maxChannelMean
    split
    · rename_i heq
      rw [h1 (by omega), h2 (by omega)]
      simp only [lt_max_iff]
      constructor
      · rintro ((h | h) | h)
        · exact h
        · norm_num at h
        · norm_num at h
      · intro h
        exact Or.inl (Or.inl h)
    · rename_i heq
      rw [h1 (by omega), h2 (by omega)]
      simp only [lt_max_iff]
      constructor
      · rintro ((h | h) | h)
        · exact h
        · norm_num at h
        · norm_num at h
      · intro h
        exact Or.inl (Or.inl h)
    · rename_i heq
      rw [h2 (by omega)]
      simp only [lt_max_iff]
      constructor
      · rintro (h | h)
        · exact h
        · norm_num at h
      · intro h
        exact Or.inl h
    · rfl
    · rename_i hn0 hn1 hn2 hn3
      exfalso
      have hx : (w.frames w.reads).channels = 0 ∨ (w.frames w.reads).channels = 1 ∨
          (w.frames w.reads).channels = 2 ∨ (w.frames w.reads).channels = 3 := by omega
      rcases hx with hx | hx | hx | hx
      · exact hn0 hx
      · exact hn1 hx
      · exact hn2 hx
      · exact hn3 hx


/-- C25 (amended) at concrete inputs: a one-channel frame of mean exactly 5 is not
accepted, the bright frame is. -/
theorem retryLoop_accepts_iff_witness :
    grayFiveFrame.empty = false ∧ (cvMean grayFiveFrame).maxOfFirstThree ≤ 5 ∧
    WebcamImageSource.retryLoop cvMean true (0 + 1) Mat.new
        (WebcamImageSource.new (framesOfList [grayFiveFrame]) true 0) =
      WebcamImageSource.retryLoop cvMean true 0 grayFiveFrame
        { WebcamImageSource.new (framesOfList [grayFiveFrame]) true 0 with
          reads := 0 + 1, delays := [] ++ [50] } ∧
    WebcamImageSource.retryLoop cvMean true (0 + 1) Mat.new
        (WebcamImageSource.new (framesOfList [brightFrame]) true 0) =
      (brightFrame,
       { WebcamImageSource.new (framesOfList [brightFrame]) true 0 with reads := 0 + 1 }) :=
  have h5 : (cvMean grayFiveFrame).maxOfFirstThree ≤ 5 := by
    norm_num [cvMean, Mat.channelMean, Mat.channelSum, grayFiveFrame, Scalar.maxOfFirstThree,
      List.range_succ]
  have hb : 5 < (cvMean brightFrame).maxOfFirstThree := by
    norm_num [cvMean, Mat.channelMean, Mat.channelSum, brightFrame, Scalar.maxOfFirstThree,
      List.range_succ]
  ⟨by decide, h5,
    (retryLoop_accepts_iff cvMean 0 Mat.new
      (WebcamImageSource.new (framesOfList [grayFiveFrame]) true 0) rfl (by decide)).2.1 h5,
    (retryLoop_accepts_iff cvMean 0 Mat.new
      (WebcamImageSource.new (framesOfList [brightFrame]) true 0) rfl (by decide)).1.2 hb⟩

/-- C26. With validation off, on an open device: if the `k`-th frame read by the retry
loop (`k < retries`) is the first non-empty one, `getImageWithRetry` returns it,
whatever `cv::mean` says of it, and reads no further frame: `skipFrames + k + 1` reads
were made. -/
theorem getImageWithRetry_without_validation (mean : Mat → Scalar)
    (w : WebcamImageSource) (skipFrames retries : Int) (k : Nat)
    (hopen : w.opened = true) (hk : k < retries.toNat)
    (hne : (w.frames (w.reads + skipFrames.toNat + k)).empty = false)
    (hfirst : ∀ j : Nat, j < k →
      (w.frames (w.reads + skipFrames.toNat + j)).empty = true) :
    w.getImageWithRetry mean skipFrames retries false =
      (w.frames (w.reads + skipFrames.toNat + k),
       { w with
         reads := w.reads + skipFrames.toNat + k + 1
         delays := w.delays ++ List.replicate (skipFrames.toNat - 1) 30 ++
           List.replicate k 50 }) :=
  getImageWithRetry_accepts_at mean w skipFrames retries false k hopen hk
    (fun j hj => acceptsFrame_of_empty mean false _ (hfirst j hj))
    (by simp [acceptsFrame, hne])

/-- C26 at a concrete input: after one skipped frame the retry loop reads an empty frame
and then a black one, which it returns without reading the bright frame behind it. -/
theorem getImageWithRetry_without_validation_witness :
    (1 : Nat) < (3 : Int).toNat ∧ blackFrame.empty = false ∧
    ((WebcamImageSource.new (framesOfList [brightFrame, Mat.new, blackFrame, brightFrame])
      true 0).getImageWithRetry cvMean 1 3 false).1 = blackFrame ∧
    ((WebcamImageSource.new (framesOfList [brightFrame, Mat.new, blackFrame, brightFrame])
      true 0).getImageWithRetry cvMean 1 3 false).2.reads = 3 :=
  have h := getImageWithRetry_without_validation cvMean
    (WebcamImageSource.new (framesOfList [brightFrame, Mat.new, blackFrame, brightFrame])
      true 0) 1 3 1 rfl (by decide) (by decide)
    (by
      intro j hj
      interval_cases j
      decide)
  ⟨by decide, by decide, by rw [h]; rfl, by rw [h]; rfl⟩

theorem getImageLoop_step (n : Nat) (frame : Mat) (w : WebcamImageSource)
    (hopen : w.opened = true) :
    WebcamImageSource.getImageLoop (n + 1) frame w =
      if (w.frames w.reads).empty = false then
        (w.frames w.reads, { w with reads := w.reads + 1, delays := w.delays ++ [50] })
      else
        WebcamImageSource.getImageLoop n (w.frames w.reads)
          { w with reads := w.reads + 1, delays := w.delays ++ [50] } := by
  rw [WebcamImageSource.getImageLoop,
    read_of_opened (w.sleep_for 50) (by simpa [WebcamImageSource.sleep_for] using hopen)]
  cases he : (w.frames w.reads).empty <;> simp [WebcamImageSource.sleep_for, he]

theorem getImageLoop_empty :
    ∀ (k n : Nat) (frame : Mat) (w : WebcamImageSource), w.opened = true →
      (∀ j : Nat, j < k → (w.frames (w.reads + j)).empty = true) →
      WebcamImageSource.getImageLoop (k + n) frame w =
        WebcamImageSource.getImageLoop n
          (if k = 0 then frame else w.frames (w.reads + k - 1))
          { w with reads := w.reads + k, delays := w.delays ++ List.replicate k 50 } := by
  intro k
  induction k with
  | zero =>
    intro n frame w _ _
    simp
  | succ k ih =>
    intro n frame w h hempty
    have h0 := hempty 0 (Nat.succ_pos k)
    rw [Nat.add_zero] at h0
    rw [show k + 1 + n = (k + n) + 1 by omega, getImageLoop_step _ _ _ h]
    simp only [h0, Bool.true_eq_false, if_false]
    rw [ih n (w.frames w.reads)
      { w with reads := w.reads + 1, delays := w.delays ++ [50] } h]
    · by_cases hk : k = 0
      · subst hk
        simp
      · simp [hk, Nat.add_assoc, Nat.add_comm 1 k, List.replicate_succ]
    · intro j hj
      have := hempty (j + 1) (Nat.succ_lt_succ hj)
      simpa [Nat.add_assoc, Nat.add_comm 1 j] using this

theorem getImage_of_opened (w : WebcamImageSource) (hopen : w.opened = true) :
    w.getImage =
      if (w.frames w.reads).empty = true then
        WebcamImageSource.getImageLoop 3 (w.frames w.reads) { w with reads := w.reads + 1 }
      else (w.frames w.reads, { w with reads := w.reads + 1 }) := by
  simp only [WebcamImageSource.getImage, read_of_opened w hopen]
  rw [if_pos hopen]

theorem getImage_first_nonempty (w : WebcamImageSource) (hopen : w.opened = true)
    (k : Nat) (hk : k < 4) (hne : (w.frames (w.reads + k)).empty = false)
    (hfirst : ∀ j : Nat, j < k → (w.frames (w.reads + j)).empty = true) :
    w.getImage =
      (w.frames (w.reads + k),
       { w with reads := w.reads + k + 1, delays := w.delays ++ List.replicate k 50 }) := by
  cases k with
  | zero =>
    simp only [Nat.add_zero] at hne
    rw [getImage_of_opened w hopen, if_neg (by simp [hne])]
    simp
  | succ m =>
    have h0 := hfirst 0 (Nat.succ_pos m)
    rw [Nat.add_zero] at h0
    obtain ⟨n, hn⟩ : ∃ n : Nat, 3 = m + (n + 1) := ⟨2 - m, by omega⟩
    have hloop := getImageLoop_empty m (n + 1) (w.frames w.reads)
      { w with reads := w.reads + 1 } hopen
      (by
        intro j hj
        have := hfirst (j + 1) (Nat.succ_lt_succ hj)
        simpa [Nat.add_assoc, Nat.add_comm 1 j] using this)
    have hne1 : (w.frames (w.reads + 1 + m)).empty = false := by
      simpa [Nat.add_assoc, Nat.add_comm 1 m] using hne
    rw [getImage_of_opened w hopen, if_pos h0, hn, hloop,
      getImageLoop_step _ _ _ (by exact hopen)]
    simp only [hne1, if_true]
    simp [Nat.add_assoc, Nat.add_comm 1 m, List.replicate_succ']

theorem getImage_all_empty (w : WebcamImageSource) (hopen : w.opened = true)
    (hall : ∀ j : Nat, j < 4 → (w.frames (w.reads + j)).empty = true) :
    w.getImage =
      (w.frames (w.reads + 3),
       { w with reads := w.reads + 4, delays := w.delays ++ List.replicate 3 50 }) := by
  have h0 := hall 0 (by decide)
  rw [Nat.add_zero] at h0
  have hloop := getImageLoop_empty 3 0 (w.frames w.reads)
    { w with reads := w.reads + 1 } hopen
    (by
      intro j hj
      have := hall (j + 1) (by omega)
      simpa [Nat.add_assoc, Nat.add_comm 1 j] using this)
  rw [getImage_of_opened w hopen, if_pos h0, show (3 : Nat) = 3 + 0 from rfl, hloop]
  simp [WebcamImageSource.getImageLoop, Nat.add_assoc]

/-- C27. On an open device `getImage` returns the first non-empty frame among the first
four the device delivers, after `k + 1` reads when that frame is the `k`-th (one read
and no delay for `k = 0`: no warm-up frame is skipped), and an empty frame after four
reads when all four are empty; in every case it makes at least 1 and at most 4 reads.
`cv::mean` is not an argument of it: brightness is never looked at. -/
theorem getImage_plain_read (w : WebcamImageSource) (hopen : w.opened = true) :
    (∀ k : Nat, k < 4 → (w.frames (w.reads + k)).empty = false →
      (∀ j : Nat, j < k → (w.frames (w.reads + j)).empty = true) →
      w.getImage =
        (w.frames (w.reads + k),
         { w with reads := w.reads + k + 1, delays := w.delays ++ List.replicate k 50 })) ∧
    ((∀ j : Nat, j < 4 → (w.frames (w.reads + j)).empty = true) →
      w.getImage.1.empty = true ∧ w.getImage.2.reads = w.reads + 4) ∧
    (w.reads + 1 ≤ w.getImage.2.reads ∧ w.getImage.2.reads ≤ w.reads + 4) := by
  refine ⟨fun k hk hne hfirst => getImage_first_nonempty w hopen k hk hne hfirst, ?_, ?_⟩
  · intro hall
    rw [getImage_all_empty w hopen hall]
    exact ⟨hall 3 (by decide), rfl⟩
  · by_cases h0 : (w.frames (w.reads + 0)).empty = false
    · rw [getImage_first_nonempty w hopen 0 (by decide) h0 (by intro j hj; omega)]
      simp
    · by_cases h1 : (w.frames (w.reads + 1)).empty = false
      · rw [getImage_first_nonempty w hopen 1 (by decide) h1
          (by intro j hj; interval_cases j; simpa using h0)]
        simp
      · by_cases h2 : (w.frames (w.reads + 2)).empty = false
        · rw [getImage_first_nonempty w hopen 2 (by decide) h2
            (by intro j hj; interval_cases j <;> simp_all)]
          simp
        · by_cases h3 : (w.frames (w.reads + 3)).empty = false
          · rw [getImage_first_nonempty w hopen 3 (by decide) h3
              (by intro j hj; interval_cases j <;> simp_all)]
            simp
          · rw [getImage_all_empty w hopen
              (by intro j hj; interval_cases j <;> simp_all)]
            simp

/-- C27 at a concrete input: the first frame is empty, the second is black and is
returned after two reads. -/
theorem getImage_plain_read_witness :
    (1 : Nat) < 4 ∧ blackFrame.empty = false ∧
    (WebcamImageSource.new (framesOfList [Mat.new, blackFrame, brightFrame]) true 0).getImage =
      (blackFrame,
       { WebcamImageSource.new (framesOfList [Mat.new, blackFrame, brightFrame]) true 0 with
         reads := 0 + 1 + 1
         delays := [] ++ List.replicate 1 50 }) ∧
    (WebcamImageSource.new (framesOfList [Mat.new, blackFrame, brightFrame])
      true 0).getImage.2.reads ≤ 0 + 4 :=
  have h := getImage_plain_read
    (WebcamImageSource.new (framesOfList [Mat.new, blackFrame, brightFrame]) true 0) rfl
  ⟨by decide, by decide,
    h.1 1 (by decide) (by decide) (by intro j hj; interval_cases j; decide), h.2.2.2⟩

theorem getImageLoop_opened_releases :
    ∀ (n : Nat) (frame : Mat) (w : WebcamImageSource),
      (WebcamImageSource.getImageLoop n frame w).2.opened = w.opened ∧
      (WebcamImageSource.getImageLoop n frame w).2.releases = w.releases := by
  intro n
  induction n with
  | zero =>
    intro frame w
    simp [WebcamImageSource.getImageLoop]
  | succ n ih =>
    intro frame w
    have hr : (w.sleep_for 50).read.2.opened = w.opened ∧
        (w.sleep_for 50).read.2.releases = w.releases := by
      unfold WebcamImageSource.read WebcamImageSource.sleep_for
      split_ifs <;> exact ⟨rfl, rfl⟩
    rw [WebcamImageSource.getImageLoop]
    split_ifs
    · exact hr
    · rw [(ih _ _).1, (ih _ _).2]
      exact hr

theorem getImage_opened_releases (w : WebcamImageSource) :
    w.getImage.2.opened = w.opened ∧ w.getImage.2.releases = w.releases := by
  have hr : w.read.2.opened = w.opened ∧ w.read.2.releases = w.releases := by
    unfold WebcamImageSource.read
    split_ifs <;> exact ⟨rfl, rfl⟩
  unfold WebcamImageSource.getImage
  simp only
  split_ifs
  · rw [(getImageLoop_opened_releases _ _ _).1, (getImageLoop_opened_releases _ _ _).2]
    exact hr
  · exact hr
  · exact ⟨rfl, rfl⟩

theorem captureFrame_of_closed (w : WebcamImageSource) (h : w.opened = false) :
    w.captureFrame = (Mat.new, w) := by
  simp [WebcamImageSource.captureFrame, WebcamImageSource.getImage, h]

theorem captureFrame_opened_releases (w : WebcamImageSource) :
    w.captureFrame.2.opened = false ∧
    w.captureFrame.2.releases = w.releases + (if w.opened then 1 else 0) := by
  obtain ⟨ho, hr⟩ := getImage_opened_releases w
  unfold WebcamImageSource.captureFrame
  simp only
  cases hw : w.opened with
  | false =>
    rw [hw] at ho
    simp [ho, hr]
  | true =>
    rw [hw] at ho
    simp [ho, hr, WebcamImageSource.release]

/-- C28. `captureFrame` returns the frame a plain read returns, after the same reads,
and leaves the device released (`isAvailable` is false), with one more `release()` call
if the device was open and none otherwise; a second `captureFrame` changes nothing and
returns an empty buffer; and after any number of `captureFrame` calls followed by the
destructor, `release()` was called once if the device was open at the start and not at
all otherwise, so at most once. -/
theorem captureFrame_releases_at_most_once (w : WebcamImageSource) (n : Nat) :
    w.captureFrame.1 = w.getImage.1 ∧
    w.captureFrame.2.reads = w.getImage.2.reads ∧
    w.captureFrame.2.isAvailable = false ∧
    w.captureFrame.2.releases = w.releases + (if w.opened then 1 else 0) ∧
    w.captureFrame.2.captureFrame = (Mat.new, w.captureFrame.2) ∧
    ((fun s : WebcamImageSource => s.captureFrame.2)^[n] w).destroy.releases =
      w.releases + (if w.opened then 1 else 0) ∧
    ((fun s : WebcamImageSource => s.captureFrame.2)^[n] w).destroy.releases ≤
      w.releases + 1 := by
  obtain ⟨hclosed, hrel⟩ := captureFrame_opened_releases w
  have hiter : ((fun s : WebcamImageSource => s.captureFrame.2)^[n] w).destroy.releases =
      w.releases + (if w.opened then 1 else 0) := by
    cases n with
    | zero =>
      simp only [Function.iterate_zero, id_eq, WebcamImageSource.destroy]
      cases hw : w.opened <;> simp [WebcamImageSource.release]
    | succ m =>
      have hfix : (fun s : WebcamImageSource => s.captureFrame.2) w.captureFrame.2 =
          w.captureFrame.2 := by
        simp only [captureFrame_of_closed _ hclosed]
      rw [Function.iterate_succ_apply, Function.iterate_fixed hfix]
      simp only [WebcamImageSource.destroy, hclosed, Bool.false_eq_true, if_false]
      exact hrel
  refine ⟨?_, ?_, hclosed, hrel, captureFrame_of_closed _ hclosed, hiter, ?_⟩
  · unfold WebcamImageSource.captureFrame
    simp only
    split_ifs <;> rfl
  · unfold WebcamImageSource.captureFrame
    simp only
    split_ifs <;> rfl
  · rw [hiter]
    split_ifs <;> omega

/-! ## The scenario chain, treatment names, sharpen and mosaic -/

theorem foldl_append_singleton_eq_map (l : List Treatment) :
    ∀ init : List String,
      l.foldl (fun names treatment => names ++ [treatment.getName]) init =
        init ++ l.map Treatment.getName := by
  induction l with
  | nil =>
    intro init
    simp
  | cons t rest ih =>
    intro init
    simp [ih]

theorem processChain_treatments (c : TreatmentChain) (input : Mat) :
    (c.processChain input).chain.treatments = c.treatments := by
  unfold TreatmentChain.processChain
  split_ifs <;> rfl

/-- C29. For OpenCV functions with their documented shapes (conversion of a three-channel
buffer to gray gives one channel and the same size; Gaussian blur and threshold give the
size and channel count of their input), the chain
`[Grayscale, GaussianBlur(5), Threshold(value, max, BINARY)]`, in any prior state, run
on a 100 x 100 buffer of three channels succeeds, returns a 100 x 100 buffer of one
channel, and its intermediate entries 1 and 2 have one channel. -/
theorem scenario_gray_blur_threshold {D : Type} (cv : OpenCV D) (c : TreatmentChain)
    (input : Mat) (sigmaX sigmaY thresh maxVal : D)
    (hgray : ∀ m : Mat, m.channels = 3 →
      (cv.cvtColor m .COLOR_BGR2GRAY).rows = m.rows ∧
      (cv.cvtColor m .COLOR_BGR2GRAY).cols = m.cols ∧
      (cv.cvtColor m .COLOR_BGR2GRAY).channels = 1)
    (hblur : ∀ (m : Mat) (kw kh : Int) (sx sy : D),
      (cv.GaussianBlur m kw kh sx sy).rows = m.rows ∧
      (cv.GaussianBlur m kw kh sx sy).cols = m.cols ∧
      (cv.GaussianBlur m kw kh sx sy).channels = m.channels)
    (hthr : ∀ (m : Mat) (t mv : D) (type : Int),
      (cv.threshold m t mv type).rows = m.rows ∧
      (cv.threshold m t mv type).cols = m.cols ∧
      (cv.threshold m t mv type).channels = m.channels)
    (hts : c.treatments =
      [(TreatmentObject.grayscale GrayscaleTreatment.new).toTreatment cv,
       (TreatmentObject.gaussianBlur (GaussianBlurTreatment.new 5 sigmaX sigmaY)).toTreatment cv,
       (TreatmentObject.threshold
         (ThresholdTreatment.new thresh maxVal THRESH_BINARY)).toTreatment cv])
    (hrows : input.rows = 100) (hcols : input.cols = 100) (hch : input.channels = 3) :
    ∃ result e1 e2 : Mat,
      (c.processChain input).outcome = .ok result ∧
      result.rows = 100 ∧ result.cols = 100 ∧ result.channels = 1 ∧
      (c.processChain input).chain.getIntermediateResult 1 = .ok e1 ∧ e1.channels = 1 ∧
      (c.processChain input).chain.getIntermediateResult 2 = .ok e2 ∧ e2.channels = 1 := by
  have hne : input.empty = false := by
    simp [Mat.empty, hrows, hcols]
  obtain ⟨g1, g2, g3⟩ := hgray input hch
  obtain ⟨b1, b2, b3⟩ := hblur (cv.cvtColor input .COLOR_BGR2GRAY) 5 5 sigmaX sigmaY
  obtain ⟨t1, t2, t3⟩ := hthr
    (cv.GaussianBlur (cv.cvtColor input .COLOR_BGR2GRAY) 5 5 sigmaX sigmaY)
    thresh maxVal THRESH_BINARY
  have hk5 : (GaussianBlurTreatment.new 5 sigmaX sigmaY).kernelSize = 5 := by
    simp [GaussianBlurTreatment.new]
    decide
  have hp1 : TreatmentObject.process cv (.grayscale GrayscaleTreatment.new) input =
      cv.cvtColor input .COLOR_BGR2GRAY := by
    simp [TreatmentObject.process, GrayscaleTreatment.process, hch]
  have hp2 : TreatmentObject.process cv
      (.gaussianBlur (GaussianBlurTreatment.new 5 sigmaX sigmaY))
      (cv.cvtColor input .COLOR_BGR2GRAY) =
      cv.GaussianBlur (cv.cvtColor input .COLOR_BGR2GRAY) 5 5 sigmaX sigmaY := by
    simp only [TreatmentObject.process, GaussianBlurTreatment.process, hk5]
    rfl
  have hp3 : TreatmentObject.process cv
      (.threshold (ThresholdTreatment.new thresh maxVal THRESH_BINARY))
      (cv.GaussianBlur (cv.cvtColor input .COLOR_BGR2GRAY) 5 5 sigmaX sigmaY) =
      cv.threshold (cv.GaussianBlur (cv.cvtColor input .COLOR_BGR2GRAY) 5 5 sigmaX sigmaY)
        thresh maxVal THRESH_BINARY := by
    have hn3 : ¬ (cv.GaussianBlur (cv.cvtColor input .COLOR_BGR2GRAY) 5 5 sigmaX
        sigmaY).channels = 3 := by
      rw [b3, g3]
      decide
    simp [TreatmentObject.process, ThresholdTreatment.process, ThresholdTreatment.new, hn3]
  have hacc : AllAccept c.treatments input := by
    rw [hts]
    refine (allAccept_cons _ _ _).2 ⟨?_, (allAccept_cons _ _ _).2 ⟨?_,
      (allAccept_cons _ _ _).2 ⟨?_, allAccept_nil _⟩⟩⟩
    · simp [TreatmentObject.toTreatment, TreatmentObject.validateInput,
        Treatment.defaultValidateInput, hne]
    · simp only [TreatmentObject.toTreatment, hp1]
      simp [TreatmentObject.validateInput, Treatment.defaultValidateInput, Mat.empty, g1, g2,
        hrows, hcols]
    · simp only [TreatmentObject.toTreatment, hp1, hp2]
      simp [TreatmentObject.validateInput, ThresholdTreatment.validateInput, Mat.empty,
        b1, b2, b3, g1, g2, g3, hrows, hcols]
  obtain ⟨hout, hres⟩ := processChain_of_allAccept c input hne hacc
  have hlen : c.treatments.length = 3 := by rw [hts]; rfl
  have happly : applyInOrder c.treatments input =
      cv.threshold (cv.GaussianBlur (cv.cvtColor input .COLOR_BGR2GRAY) 5 5 sigmaX sigmaY)
        thresh maxVal THRESH_BINARY := by
    rw [hts]
    simp only [applyInOrder, List.foldl_cons, List.foldl_nil, TreatmentObject.toTreatment,
      hp1, hp2, hp3]
  have he1 : applyInOrder (c.treatments.take 1) input =
      cv.cvtColor input .COLOR_BGR2GRAY := by
    rw [hts]
    simp only [List.take, applyInOrder, List.foldl_cons, List.foldl_nil,
      TreatmentObject.toTreatment, hp1]
  have he2 : applyInOrder (c.treatments.take 2) input =
      cv.GaussianBlur (cv.cvtColor input .COLOR_BGR2GRAY) 5 5 sigmaX sigmaY := by
    rw [hts]
    simp only [List.take, applyInOrder, List.foldl_cons, List.foldl_nil,
      TreatmentObject.toTreatment, hp1, hp2]
  refine ⟨applyInOrder c.treatments input, applyInOrder (c.treatments.take 1) input,
    applyInOrder (c.treatments.take 2) input, hout, ?_, ?_, ?_, ?_, ?_, ?_, ?_⟩
  · rw [happly, t1, b1, g1, hrows]
  · rw [happly, t2, b2, g2, hcols]
  · rw [happly, t3, b3, g3]
  · simp only [TreatmentChain.getIntermediateResult, hres,
      stageOutputs_getElem? c.treatments input c.treatments.length 1 (by omega)]
  · rw [he1, g3]
  · simp only [TreatmentChain.getIntermediateResult, hres,
      stageOutputs_getElem? c.treatments input c.treatments.length 2 (by omega)]
  · rw [he2, b3, g3]

/-- C30. `processChain` never changes the treatment sequence: for every chain and every
input, whatever the outcome of the run, the treatment count and the list of treatment
names are the same after the call as before it; the names are those of the treatments
in sequence order, as many as the count. -/
theorem processChain_keeps_treatments (c : TreatmentChain) (input : Mat) :
    (c.processChain input).chain.treatments = c.treatments ∧
    (c.processChain input).chain.getTreatmentCount = c.getTreatmentCount ∧
    (c.processChain input).chain.getTreatmentNames = c.getTreatmentNames ∧
    c.getTreatmentNames = c.treatments.map Treatment.getName ∧
    c.getTreatmentNames.length = c.getTreatmentCount := by
  have ht := processChain_treatments c input
  have hn : c.getTreatmentNames = c.treatments.map Treatment.getName := by
    simp [TreatmentChain.getTreatmentNames, foldl_append_singleton_eq_map]
  refine ⟨ht, ?_, ?_, hn, ?_⟩
  · simp [TreatmentChain.getTreatmentCount, ht]
  · simp [TreatmentChain.getTreatmentNames, ht]
  · simp [hn, TreatmentChain.getTreatmentCount]

/-- C29 at a concrete input: the scenario chain over the shape-only stand-ins for the
OpenCV functions. -/
theorem scenario_gray_blur_threshold_witness :
    hundredSquareInput.rows = 100 ∧ hundredSquareInput.cols = 100 ∧
    hundredSquareInput.channels = 3 ∧
    ∃ result e1 e2 : Mat,
      (scenarioChain.processChain hundredSquareInput).outcome = .ok result ∧
      result.rows = 100 ∧ result.cols = 100 ∧ result.channels = 1 ∧
      (scenarioChain.processChain hundredSquareInput).chain.getIntermediateResult 1 =
        .ok e1 ∧ e1.channels = 1 ∧
      (scenarioChain.processChain hundredSquareInput).chain.getIntermediateResult 2 =
        .ok e2 ∧ e2.channels = 1 :=
  ⟨rfl, rfl, rfl,
    scenario_gray_blur_threshold shapeOnlyOpenCV scenarioChain hundredSquareInput 0 0 127 255
      (fun _ _ => ⟨rfl, rfl, rfl⟩) (fun _ _ _ _ _ => ⟨rfl, rfl, rfl⟩)
      (fun _ _ _ _ => ⟨rfl, rfl, rfl⟩) rfl rfl rfl rfl⟩

/-- C21 (the code at the failing input). `SharpenTreatment(-1.0)` stores the strength
-1, which is below 0, although `setParameter("strength", "-1")` is refused. -/
theorem sharpen_constructor_keeps_negative_strength :
    Reachable intDoubleOps (.sharpen (SharpenTreatment.new (-1))) ∧
    (SharpenTreatment.new (-1 : Int)).strength = -1 ∧
    intDoubleOps.ltZero (SharpenTreatment.new (-1 : Int)).strength = true ∧
    intDoubleOps.geZero (SharpenTreatment.new (-1 : Int)).strength = false ∧
    (SharpenTreatment.new (1 : Int)).setParameter intDoubleOps "strength" "-1" =
      (false, SharpenTreatment.new 1) :=
  ⟨Reachable.sharpen (-1), rfl, by decide, by decide, rfl⟩

theorem mosaic_reachable_blockSize (t : MosaicTreatment) (h : MosaicTreatment.Reachable t) :
    1 ≤ t.blockSize := by
  induction h with
  | new blockSize hb =>
    unfold MosaicTreatment.new
    split_ifs <;> simp only <;> omega
  | setParameter t paramName value _ ih =>
    unfold MosaicTreatment.setParameter
    split_ifs
    · split
      · exact ih
      · split_ifs
        · simp only
          omega
        · exact ih
    · exact ih
  | setBlockSize t size _ _ ih =>
    unfold MosaicTreatment.setBlockSize
    split_ifs
    · simp only
      omega
    · exact ih

/-- C22. For the mosaic treatment the stored block size is at least 1 in every state
reachable by the constructor, `setParameter` and `setBlockSize`: the constructor
replaces an argument below 1 by 1 and keeps any other; `setParameter("blockSize", value)`
stores the integer `v` that `std::stoi` reads when `v >= 1` and otherwise (also when
`std::stoi` throws) leaves the object unchanged and returns `false`; `setBlockSize(v)`
stores `v` when `v >= 1` and otherwise changes nothing. -/
theorem mosaic_blockSize_at_least_one (t u : MosaicTreatment) (blockSize size : Int)
    (value : String) :
    (MosaicTreatment.Reachable t → 1 ≤ t.blockSize) ∧
    (MosaicTreatment.new blockSize).blockSize = (if blockSize < 1 then 1 else blockSize) ∧
    (∀ v : Int, stoi value = some v →
      u.setParameter "blockSize" value =
        (if 1 ≤ v then (true, { blockSize := v }) else (false, u))) ∧
    (stoi value = none → u.setParameter "blockSize" value = (false, u)) ∧
    u.setBlockSize size = (if 1 ≤ size then { blockSize := size } else u) := by
  refine ⟨mosaic_reachable_blockSize t, ?_, ?_, ?_, ?_⟩
  · unfold MosaicTreatment.new
    split_ifs <;> rfl
  · intro v hv
    simp only [MosaicTreatment.setParameter, hv, if_true, ge_iff_le]
  · intro hv
    simp only [MosaicTreatment.setParameter, hv, if_true]
  · simp only [MosaicTreatment.setBlockSize, ge_iff_le]

/-- C22 at a concrete input: a mosaic treatment built with block size -3, then given 0
through `setBlockSize` and "25" through `setParameter`. -/
theorem mosaic_blockSize_at_least_one_witness :
    MosaicTreatment.Reachable
      (((MosaicTreatment.new (-3)).setBlockSize 0).setParameter "blockSize" "25").2 ∧
    (1 : Int) ≤ (((MosaicTreatment.new (-3)).setBlockSize 0).setParameter
      "blockSize" "25").2.blockSize ∧
    stoi "25" = some 25 ∧
    (MosaicTreatment.new (-3)).setParameter "blockSize" "25" =
      (if (1 : Int) ≤ 25 then (true, { blockSize := 25 })
       else (false, MosaicTreatment.new (-3))) :=
  have hr : MosaicTreatment.Reachable
      (((MosaicTreatment.new (-3)).setBlockSize 0).setParameter "blockSize" "25").2 :=
    MosaicTreatment.Reachable.setParameter _ _ _
      (MosaicTreatment.Reachable.setBlockSize _ 0 (by decide)
        (MosaicTreatment.Reachable.new (-3) (by decide)))
  have hs : stoi "25" = some 25 := by decide
  have h := mosaic_blockSize_at_least_one
    (((MosaicTreatment.new (-3)).setBlockSize 0).setParameter "blockSize" "25").2
    (MosaicTreatment.new (-3)) (-3) 0 "25"
  ⟨hr, h.1 hr, hs, h.2.2.1 25 hs⟩

/-! ## Bounds of the hardened read, closed devices -/

theorem retryLoop_bounds (mean : Mat → Scalar) (validateNonBlack : Bool) :
    ∀ (n : Nat) (frame : Mat) (w : WebcamImageSource), w.opened = true →
      ∃ p m : Nat, p ≤ n ∧ m ≤ p ∧ (n = 0 ∨ 1 ≤ p) ∧
        WebcamImageSource.retryLoop mean validateNonBlack n frame w =
          (if p = 0 then frame else w.frames (w.reads + p - 1),
           { w with reads := w.reads + p, delays := w.delays ++ List.replicate m 50 }) := by
  intro n
  induction n with
  | zero =>
    intro frame w _
    exact ⟨0, 0, le_refl 0, le_refl 0, Or.inl rfl, by simp [WebcamImageSource.retryLoop]⟩
  | succ n ih =>
    intro frame w h
    rw [retryLoop_step, read_of_opened w h]
    by_cases hacc : acceptsFrame mean validateNonBlack (w.frames w.reads) = true
    · refine ⟨1, 0, by omega, by omega, Or.inr (le_refl 1), ?_⟩
      simp [hacc]
    · obtain ⟨p, m, hp, hm, hn, heq⟩ := ih (w.frames w.reads)
        (WebcamImageSource.sleep_for { w with reads := w.reads + 1 } 50)
        (by simp [WebcamImageSource.sleep_for, h])
      refine ⟨p + 1, m + 1, by omega, by omega, Or.inr (by omega), ?_⟩
      · simp only [hacc, Bool.false_eq_true, if_false]
        rw [heq]
        by_cases hp0 : p = 0
        · subst hp0
          simp [WebcamImageSource.sleep_for, List.replicate_succ]
        · simp [WebcamImageSource.sleep_for, hp0, Nat.add_assoc, Nat.add_comm 1 p,
            List.replicate_succ]

/-- C31. On an open device, with `skipFrames >= 0` and `retries >= 1`, the frame that
`getImageWithRetry` returns is the frame of a read at a position `q` with
`skipFrames <= q < skipFrames + retries` (positions counted from the first read of the
call), and it is the last frame the call read: the `skipFrames` frames of the warm-up
are never returned, whatever they hold and whatever `cv::mean` says about them. -/
theorem getImageWithRetry_skips_warmup (mean : Mat → Scalar) (w : WebcamImageSource)
    (skipFrames retries : Int) (validateNonBlack : Bool)
    (hopen : w.opened = true) (hs : 0 ≤ skipFrames) (hr : 1 ≤ retries) :
    ∃ q : Nat, skipFrames ≤ (q : Int) ∧ (q : Int) < skipFrames + retries ∧
      (w.getImageWithRetry mean skipFrames retries validateNonBlack).1 =
        w.frames (w.reads + q) ∧
      (w.getImageWithRetry mean skipFrames retries validateNonBlack).2.reads =
        w.reads + q + 1 := by
  obtain ⟨p, m, hp, _, hn, heq⟩ := retryLoop_bounds mean validateNonBlack retries.toNat
    (if skipFrames.toNat = 0 then Mat.new else w.frames (w.reads + skipFrames.toNat - 1))
    { w with
      reads := w.reads + skipFrames.toNat
      delays := w.delays ++ List.replicate (skipFrames.toNat - 1) 30 } hopen
  have hp1 : 1 ≤ p := by
    rcases hn with h0 | h1
    · omega
    · exact h1
  rw [getImageWithRetry_eq mean w skipFrames retries validateNonBlack hopen, heq]
  refine ⟨skipFrames.toNat + p - 1, by omega, by omega, ?_, ?_⟩
  · simp only
    rw [if_neg (by omega)]
    congr 1
    omega
  · simp only
    omega

/-- C31 at a concrete input: the device delivers a bright frame, then black frames; one
frame is skipped and two retries validate, so the call returns the black frame of
position 2 and not the bright frame of position 0. -/
theorem getImageWithRetry_skips_warmup_witness :
    (0 : Int) ≤ 1 ∧ (1 : Int) ≤ 2 ∧
    (∃ q : Nat, (1 : Int) ≤ (q : Int) ∧ (q : Int) < 1 + 2 ∧
      ((WebcamImageSource.new (framesOfList [brightFrame, blackFrame, blackFrame])
          true 0).getImageWithRetry cvMean 1 2 true).1 =
        (WebcamImageSource.new (framesOfList [brightFrame, blackFrame, blackFrame])
          true 0).frames
          ((WebcamImageSource.new (framesOfList [brightFrame, blackFrame, blackFrame])
            true 0).reads + q) ∧
      ((WebcamImageSource.new (framesOfList [brightFrame, blackFrame, blackFrame])
          true 0).getImageWithRetry cvMean 1 2 true).2.reads =
        (WebcamImageSource.new (framesOfList [brightFrame, blackFrame, blackFrame])
          true 0).reads + q + 1) :=
  ⟨by decide, by decide,
    getImageWithRetry_skips_warmup cvMean
      (WebcamImageSource.new (framesOfList [brightFrame, blackFrame, blackFrame]) true 0)
      1 2 true rfl (by decide) (by decide)⟩

/-- C32. `getImageWithRetry` is a total function of the device and its arguments, and
for `skipFrames >= 0` and `retries >= 0` it reads the device at most
`skipFrames + retries` times; its delays are at most `max(skipFrames - 1, 0)` delays of
30 ms (the skip loop) followed by at most `retries` delays of 50 ms (the retry loop).
`getStableImage` is `getImageWithRetry(8, 20, true)` and reads at most 28 times. -/
theorem getImageWithRetry_bounded (mean : Mat → Scalar) (w : WebcamImageSource)
    (skipFrames retries : Int) (validateNonBlack : Bool)
    (hs : 0 ≤ skipFrames) (hr : 0 ≤ retries) :
    (∃ k n30 n50 : Nat,
      (k : Int) ≤ skipFrames + retries ∧ (n30 : Int) ≤ max (skipFrames - 1) 0 ∧
      (n50 : Int) ≤ retries ∧
      (w.getImageWithRetry mean skipFrames retries validateNonBlack).2 =
        { w with
          reads := w.reads + k
          delays := w.delays ++ List.replicate n30 30 ++ List.replicate n50 50 }) ∧
    w.getStableImage mean = w.getImageWithRetry mean 8 20 true ∧
    (w.getStableImage mean).2.reads ≤ w.reads + 28 := by
  have key : ∀ (s r : Int) (v : Bool), 0 ≤ s → 0 ≤ r →
      ∃ k n30 n50 : Nat,
        (k : Int) ≤ s + r ∧ (n30 : Int) ≤ max (s - 1) 0 ∧ (n50 : Int) ≤ r ∧
        (w.getImageWithRetry mean s r v).2 =
          { w with
            reads := w.reads + k
            delays := w.delays ++ List.replicate n30 30 ++ List.replicate n50 50 } := by
    intro s r v hs hr
    by_cases hopen : w.opened = true
    swap
    · have h1 : w.getImageWithRetry mean s r v = (Mat.new, w) := by
        simp [WebcamImageSource.getImageWithRetry, hopen]
      refine ⟨0, 0, 0, by omega, by omega, by omega, ?_⟩
      rw [h1]
      cases w
      simp
    · obtain ⟨p, m, hp, hm, _, heq⟩ := retryLoop_bounds mean v r.toNat
        (if s.toNat = 0 then Mat.new else w.frames (w.reads + s.toNat - 1))
        { w with
          reads := w.reads + s.toNat
          delays := w.delays ++ List.replicate (s.toNat - 1) 30 } hopen
      refine ⟨s.toNat + p, s.toNat - 1, m, by omega, by omega, by omega, ?_⟩
      rw [getImageWithRetry_eq mean w s r v hopen, heq]
      simp [Nat.add_assoc]
  refine ⟨key skipFrames retries validateNonBlack hs hr, rfl, ?_⟩
  obtain ⟨k, _, _, hk, _, _, heq⟩ := key 8 20 true (by decide) (by decide)
  show (w.getImageWithRetry mean 8 20 true).2.reads ≤ w.reads + 28
  rw [heq]
  simp only
  omega

/-- C32 at a concrete input: three warm-up frames and two retries on a device that
delivers only empty buffers. -/
theorem getImageWithRetry_bounded_witness :
    (0 : Int) ≤ 3 ∧ (0 : Int) ≤ 2 ∧
    ((WebcamImageSource.new (framesOfList []) true 0).getImageWithRetry cvMean 3 2 true).2
      = { WebcamImageSource.new (framesOfList []) true 0 with
          reads := 5, delays := [30, 30, 50, 50] } ∧
    ((∃ k n30 n50 : Nat,
      (k : Int) ≤ 3 + 2 ∧ (n30 : Int) ≤ max (3 - 1) 0 ∧ (n50 : Int) ≤ 2 ∧
      ((WebcamImageSource.new (framesOfList []) true 0).getImageWithRetry
          cvMean 3 2 true).2 =
        { WebcamImageSource.new (framesOfList []) true 0 with
          reads := (WebcamImageSource.new (framesOfList []) true 0).reads + k
          delays := (WebcamImageSource.new (framesOfList []) true 0).delays ++
            List.replicate n30 30 ++ List.replicate n50 50 }) ∧
    (WebcamImageSource.new (framesOfList []) true 0).getStableImage cvMean =
      (WebcamImageSource.new (framesOfList []) true 0).getImageWithRetry cvMean 8 20 true ∧
    ((WebcamImageSource.new (framesOfList []) true 0).getStableImage cvMean).2.reads ≤
      (WebcamImageSource.new (framesOfList []) true 0).reads + 28) :=
  ⟨by decide, by decide, rfl,
    getImageWithRetry_bounded cvMean (WebcamImageSource.new (framesOfList []) true 0)
      3 2 true (by decide) (by decide)⟩

/-- C38. On an open device with `retries <= 0` the retry loop does not run: the result
does not depend on `cv::mean` or on `validateNonBlack`, and the only reads are the
`skipFrames` reads of the warm-up.  With `skipFrames >= 1` the call returns the frame of
read position `skipFrames - 1`, the last one the warm-up discarded, whatever it holds;
with `skipFrames <= 0` it returns an empty buffer and leaves the device untouched. -/
theorem getImageWithRetry_no_retries (mean : Mat → Scalar) (w : WebcamImageSource)
    (skipFrames retries : Int) (validateNonBlack : Bool)
    (hopen : w.opened = true) (hr : retries ≤ 0) :
    (∀ (mean2 : Mat → Scalar) (validate2 : Bool),
      w.getImageWithRetry mean2 skipFrames retries validate2 =
        w.getImageWithRetry mean skipFrames retries validateNonBlack) ∧
    (1 ≤ skipFrames →
      w.getImageWithRetry mean skipFrames retries validateNonBlack =
        (w.frames (w.reads + skipFrames.toNat - 1),
         { w with
           reads := w.reads + skipFrames.toNat
           delays := w.delays ++ List.replicate (skipFrames.toNat - 1) 30 })) ∧
    (skipFrames ≤ 0 →
      w.getImageWithRetry mean skipFrames retries validateNonBlack = (Mat.new, w) ∧
      Mat.new.empty = true) := by
  have h0 : retries.toNat = 0 := by omega
  have key : ∀ (mn : Mat → Scalar) (v : Bool),
      w.getImageWithRetry mn skipFrames retries v =
        (if skipFrames.toNat = 0 then Mat.new
         else w.frames (w.reads + skipFrames.toNat - 1),
         { w with
           reads := w.reads + skipFrames.toNat
           delays := w.delays ++ List.replicate (skipFrames.toNat - 1) 30 }) := by
    intro mn v
    rw [getImageWithRetry_eq mn w skipFrames retries v hopen, h0]
    rfl
  refine ⟨fun mean2 validate2 => by rw [key, key], ?_, ?_⟩
  · intro hs
    rw [key, if_neg (by omega)]
  · intro hs
    have hz : skipFrames.toNat = 0 := by omega
    refine ⟨?_, rfl⟩
    rw [key, hz]
    simp

/-- C38 at a concrete input: two warm-up frames, no retry; the black frame of position 1
is returned although validation is on. -/
theorem getImageWithRetry_no_retries_witness :
    (0 : Int) ≤ 0 ∧
    ((WebcamImageSource.new (framesOfList [brightFrame, blackFrame, brightFrame])
        true 0).getImageWithRetry cvMean 2 0 true).1 = blackFrame ∧
    ((WebcamImageSource.new (framesOfList [brightFrame, blackFrame, brightFrame])
        true 0).getImageWithRetry cvMean 2 0 true).2.reads = 2 ∧
    ((WebcamImageSource.new (framesOfList [brightFrame, blackFrame, brightFrame])
        true 0).getImageWithRetry cvMean 0 0 true).2.reads = 0 :=
  have h := getImageWithRetry_no_retries cvMean
    (WebcamImageSource.new (framesOfList [brightFrame, blackFrame, brightFrame]) true 0)
    2 0 true rfl (by decide)
  have h2 := getImageWithRetry_no_retries cvMean
    (WebcamImageSource.new (framesOfList [brightFrame, blackFrame, brightFrame]) true 0)
    0 0 true rfl (by decide)
  ⟨by decide, by rw [h.2.1 (by decide)]; rfl, by rw [h.2.1 (by decide)]; rfl,
    by rw [(h2.2.2 (by decide)).1]; rfl⟩

/-- C39. When the source is not open, `getImage`, `getImageWithRetry` with any
arguments, `getStableImage` and `captureFrame` each return an empty buffer and leave the
source as it was: no device read, no delay, no release; they are total functions, so
nothing is thrown.  `isAvailable` is false in that state, and a source is in that state
when opening failed and after `release`. -/
theorem closed_device_never_read (mean : Mat → Scalar) (w : WebcamImageSource)
    (skipFrames retries : Int) (validateNonBlack : Bool) (hclosed : w.opened = false) :
    w.isAvailable = false ∧ Mat.new.empty = true ∧
    w.getImage = (Mat.new, w) ∧
    w.getImageWithRetry mean skipFrames retries validateNonBlack = (Mat.new, w) ∧
    w.getStableImage mean = (Mat.new, w) ∧
    w.captureFrame = (Mat.new, w) := by
  refine ⟨?_, rfl, ?_, ?_, ?_, captureFrame_of_closed w hclosed⟩
  · simp [WebcamImageSource.isAvailable, hclosed]
  · simp [WebcamImageSource.getImage, hclosed]
  · simp [WebcamImageSource.getImageWithRetry, hclosed]
  · simp [WebcamImageSource.getStableImage, WebcamImageSource.getImageWithRetry, hclosed]

/-- C39 at concrete inputs: a device that failed to open, and a device after
`release`. -/
theorem closed_device_never_read_witness :
    (WebcamImageSource.new (framesOfList [brightFrame]) false 0).opened = false ∧
    ((WebcamImageSource.new (framesOfList [brightFrame]) true 0).release).opened = false ∧
    ((WebcamImageSource.new (framesOfList [brightFrame]) false 0).getImageWithRetry
      cvMean 5 15 true).2.reads = 0 ∧
    (((WebcamImageSource.new (framesOfList [brightFrame]) true 0).release).getStableImage
      cvMean).1 = Mat.new :=
  have h := closed_device_never_read cvMean
    (WebcamImageSource.new (framesOfList [brightFrame]) false 0) 5 15 true rfl
  have h2 := closed_device_never_read cvMean
    ((WebcamImageSource.new (framesOfList [brightFrame]) true 0).release) 5 15 true rfl
  ⟨rfl, rfl, by rw [h.2.2.2.1]; rfl, by rw [h2.2.2.2.2.1]⟩

/-! ## Indexed access after a run, composition of runs, insert and remove -/

theorem processChain_ok_results (c : TreatmentChain) (input m : Mat)
    (h : (c.processChain input).outcome = .ok m) :
    input.empty = false ∧
    (c.processChain input).chain.intermediateResults =
      stageOutputs c.treatments input c.treatments.length := by
  cases hne : input.empty with
  | true => simp [TreatmentChain.processChain, hne] at h
  | false =>
    have h1 : (TreatmentChain.processLoop c.treatments 0 input [input.clone] []).1 = .ok m := by
      simpa [TreatmentChain.processChain, hne] using h
    exact ⟨rfl, (processChain_of_allAccept c input hne
      (processLoop_ok_allAccept c.treatments 0 input [input.clone] [] m h1)).2⟩

theorem displayLoop_ok (label : String) (skipEmpty : Bool) (c : TreatmentChain) (k : Nat)
    (hres : ∀ i : Nat, i ≤ k → ∃ r : Mat, c.getIntermediateResult i = .ok r)
    (htr : ∀ i : Nat, i < k → ∃ t : Treatment, (c.getTreatment i).1 = .ok t) :
    ∀ (l : List Nat) (shown : List (String × Mat)), (∀ i ∈ l, i ≤ k) →
      ∃ r : List (String × Mat), displayLoop label skipEmpty c l shown = .ok r := by
  intro l
  induction l with
  | nil =>
    intro shown _
    exact ⟨shown, rfl⟩
  | cons i rest ih =>
    intro shown hl
    have hi : i ≤ k := hl i (List.mem_cons_self i rest)
    have hrest : ∀ j ∈ rest, j ≤ k := fun j hj => hl j (List.mem_cons_of_mem i hj)
    obtain ⟨r, hr⟩ := hres i hi
    rw [displayLoop, hr]
    simp only
    split_ifs with h1 h2
    · exact ih _ hrest
    · exact ih _ hrest
    · obtain ⟨t, ht⟩ := htr (i - 1) (by omega)
      rw [ht]
      exact ih _ hrest

/-- C33. After a successful `processChain` on a chain of `k` treatments, on the chain as
the run left it: `getIntermediateResult(i)` returns a buffer for every `i <= k` and
throws `out_of_range` for every `i > k`; `getTreatment(i - 1)` returns a treatment for
every `i` in `1..k` and leaves the chain as it is; `getTreatmentCount()` is `k`; and the
display loop of the demos, which reads entry `i` and the name of treatment `i - 1` for
`i = 0..count`, ends without an exception (with or without its `continue` on an empty
entry). -/
theorem indexed_access_after_run (c : TreatmentChain) (input m : Mat)
    (label : String) (skipEmpty : Bool)
    (h : (c.processChain input).outcome = .ok m) :
    (c.processChain input).chain.getTreatmentCount = c.treatments.length ∧
    (∀ i : Nat, i ≤ c.treatments.length →
      ∃ r : Mat, (c.processChain input).chain.getIntermediateResult i = .ok r) ∧
    (∀ i : Nat, c.treatments.length < i →
      (c.processChain input).chain.getIntermediateResult i =
        .error (.out_of_range "Index out of range")) ∧
    (∀ i : Nat, 1 ≤ i → i ≤ c.treatments.length →
      ∃ t : Treatment, (c.processChain input).chain.getTreatment (i - 1) =
        (.ok t, (c.processChain input).chain)) ∧
    (∃ shown : List (String × Mat),
      showIntermediateResults label skipEmpty (c.processChain input).chain = .ok shown) := by
  obtain ⟨_, hres⟩ := processChain_ok_results c input m h
  have htre := processChain_treatments c input
  have h1 : ∀ i : Nat, i ≤ c.treatments.length →
      ∃ r : Mat, (c.processChain input).chain.getIntermediateResult i = .ok r := by
    intro i hi
    refine ⟨applyInOrder (c.treatments.take i) input, ?_⟩
    simp only [TreatmentChain.getIntermediateResult, hres,
      stageOutputs_getElem? c.treatments input c.treatments.length i hi]
  have h2 : ∀ i : Nat, i < c.treatments.length →
      ∃ t : Treatment, (c.processChain input).chain.getTreatment i =
        (.ok t, (c.processChain input).chain) := by
    intro i hi
    refine ⟨c.treatments[i], ?_⟩
    simp only [TreatmentChain.getTreatment, htre, List.getElem?_eq_getElem hi]
  refine ⟨by rw [TreatmentChain.getTreatmentCount, htre], h1, ?_,
    fun i hi1 hik => h2 (i - 1) (by omega), ?_⟩
  · intro i hi
    have hnone : (stageOutputs c.treatments input c.treatments.length)[i]? = none := by
      apply List.getElem?_eq_none
      simp [stageOutputs]
      omega
    simp only [TreatmentChain.getIntermediateResult, hres, hnone]
  · unfold showIntermediateResults
    apply displayLoop_ok label skipEmpty _ c.treatments.length h1
    · intro i hi
      obtain ⟨t, ht⟩ := h2 i hi
      exact ⟨t, by rw [ht]⟩
    · intro i hi
      rw [TreatmentChain.getTreatmentCount, htre] at hi
      have := List.mem_range.1 hi
      omega

/-- C33 at a concrete input: the example chain of two stages on the example input. -/
theorem indexed_access_after_run_witness :
    (exampleChain.processChain exampleInput).outcome =
      .ok (applyInOrder exampleChain.treatments exampleInput) ∧
    (∃ r : Mat,
      (exampleChain.processChain exampleInput).chain.getIntermediateResult 2 = .ok r) ∧
    (exampleChain.processChain exampleInput).chain.getIntermediateResult 3 =
      .error (.out_of_range "Index out of range") ∧
    (∃ shown : List (String × Mat),
      showIntermediateResults "Etape " true (exampleChain.processChain exampleInput).chain =
        .ok shown) :=
  have h := indexed_access_after_run exampleChain exampleInput
    (applyInOrder exampleChain.treatments exampleInput) "Etape " true rfl
  ⟨rfl, h.2.1 2 (by decide), h.2.2.1 3 (by decide), h.2.2.2.2⟩

theorem processLoop_from_zero (ts : List Treatment) :
    ∀ (i : Nat) (current : Mat) (results : List Mat) (calls : List Nat),
      (TreatmentChain.processLoop ts i current results calls).2.1 =
        results ++ (TreatmentChain.processLoop ts 0 current [] []).2.1 ∧
      ∀ m : Mat, (TreatmentChain.processLoop ts i current results calls).1 = .ok m ↔
        (TreatmentChain.processLoop ts 0 current [] []).1 = .ok m := by
  induction ts with
  | nil =>
    intro i current results calls
    simp [TreatmentChain.processLoop]
  | cons t rest ih =>
    intro i current results calls
    rw [TreatmentChain.processLoop, TreatmentChain.processLoop]
    cases hv : t.validateInput current with
    | false => simp
    | true =>
      simp only [Bool.not_true, Bool.false_eq_true, if_false]
      obtain ⟨h1, h2⟩ := ih (i + 1) (t.process current)
        (results ++ [(t.process current).clone]) (calls ++ [i])
      obtain ⟨h3, h4⟩ := ih (0 + 1) (t.process current)
        ([] ++ [(t.process current).clone]) ([] ++ [0])
      refine ⟨?_, fun m => (h2 m).trans (h4 m).symm⟩
      rw [h1, h3, List.nil_append, List.append_assoc]

theorem processLoop_append (a b : List Treatment) :
    ∀ (i : Nat) (current : Mat) (results : List Mat) (calls : List Nat) (y : Mat),
      (TreatmentChain.processLoop a i current results calls).1 = .ok y →
      TreatmentChain.processLoop (a ++ b) i current results calls =
        TreatmentChain.processLoop b (i + a.length) y
          (TreatmentChain.processLoop a i current results calls).2.1
          (TreatmentChain.processLoop a i current results calls).2.2 := by
  induction a with
  | nil =>
    intro i current results calls y h
    simp only [TreatmentChain.processLoop, Except.ok.injEq] at h
    simp [TreatmentChain.processLoop, h]
  | cons t rest ih =>
    intro i current results calls y h
    rw [List.cons_append, TreatmentChain.processLoop]
    rw [TreatmentChain.processLoop] at h ⊢
    cases hv : t.validateInput current with
    | false => simp [hv] at h
    | true =>
      simp only [hv, Bool.not_true, Bool.false_eq_true, if_false] at h ⊢
      rw [ih _ _ _ _ y h, List.length_cons, Nat.add_assoc, Nat.add_comm 1]

/-- C34. Let the chain `cAB` hold the treatments of `cA` followed by those of `cB`
(the chains may be in any prior state).  If the run of `cA` on `x` returns `y` and `y`
is not empty, then the run of `cAB` on `x` returns a buffer `m` exactly when the run of
`cB` on `y` returns `m`, and, whether or not they succeed, the intermediate list `cAB`
is left with is the intermediate list of `cA` on `x` followed by the intermediate list
of `cB` on `y` without its entry 0. -/
theorem processChain_append (cA cB cAB : TreatmentChain) (x y : Mat)
    (hAB : cAB.treatments = cA.treatments ++ cB.treatments)
    (hA : (cA.processChain x).outcome = .ok y) (hy : y.empty = false) :
    (∀ m : Mat, (cAB.processChain x).outcome = .ok m ↔
      (cB.processChain y).outcome = .ok m) ∧
    (cAB.processChain x).chain.intermediateResults =
      (cA.processChain x).chain.intermediateResults ++
        (cB.processChain y).chain.intermediateResults.tail := by
  obtain ⟨hx, _⟩ := processChain_ok_results cA x y hA
  have hA1 : (TreatmentChain.processLoop cA.treatments 0 x [x.clone] []).1 = .ok y := by
    simpa [TreatmentChain.processChain, hx] using hA
  have happ := processLoop_append cA.treatments cB.treatments 0 x [x.clone] [] y hA1
  obtain ⟨h1, h2⟩ := processLoop_from_zero cB.treatments (0 + cA.treatments.length) y
    (TreatmentChain.processLoop cA.treatments 0 x [x.clone] []).2.1
    (TreatmentChain.processLoop cA.treatments 0 x [x.clone] []).2.2
  obtain ⟨h3, h4⟩ := processLoop_from_zero cB.treatments 0 y [y.clone] []
  constructor
  · intro m
    simp only [TreatmentChain.processChain, hx, hy, Bool.false_eq_true, if_false, hAB, happ]
    exact (h2 m).trans (h4 m).symm
  · simp only [TreatmentChain.processChain, hx, hy, Bool.false_eq_true, if_false, hAB, happ]
    rw [h1, h3]
    rfl

/-- C34 at concrete inputs: the stage to gray followed by the edge stage, which succeeds,
and the stage adding a fourth channel followed by the edge stage, which rejects what the
first stage returns. -/
theorem processChain_append_witness :
    (exampleChain.processChain exampleInput).outcome =
      (chainEdges.processChain (stageToGray.process exampleInput)).outcome ∧
    (∀ m : Mat, (rejectingChain.processChain exampleInput).outcome ≠ .ok m) ∧
    (rejectingChain.processChain exampleInput).chain.intermediateResults =
      [exampleInput, stageAddAlpha.process exampleInput] := by
  have h2 := processChain_append chainAddAlpha chainEdges rejectingChain
    exampleInput (stageAddAlpha.process exampleInput) rfl rfl rfl
  have he : (chainEdges.processChain (stageAddAlpha.process exampleInput)).outcome =
      .error (.runtime_error "Treatment 0 cannot process the current image") := rfl
  refine ⟨rfl, ?_, ?_⟩
  · intro m hm
    have hB := (h2.1 m).1 hm
    rw [he] at hB
    cases hB
  · rw [h2.2]
    rfl

/-- C35. On a chain of `n` treatments and for `i <= n`, `insertTreatment(i, t)` throws
nothing and gives a sequence of `n + 1` treatments with `t` at position `i`, the
treatments that were before position `i` at their positions and those that were at
position `j >= i` at position `j + 1`; `removeTreatment(i)` on the result throws nothing
and gives back the chain as it was before the insertion, with its `n` treatments. -/
theorem insert_then_remove (c : TreatmentChain) (i : Nat) (t : Treatment)
    (hi : i ≤ c.treatments.length) :
    (c.insertTreatment i t).1 = .ok () ∧
    (c.insertTreatment i t).2.getTreatmentCount = c.getTreatmentCount + 1 ∧
    ((c.insertTreatment i t).2.getTreatment i).1 = .ok t ∧
    (∀ j : Nat, j < i →
      (c.insertTreatment i t).2.treatments[j]? = c.treatments[j]?) ∧
    (∀ j : Nat, i ≤ j →
      (c.insertTreatment i t).2.treatments[j + 1]? = c.treatments[j]?) ∧
    (c.insertTreatment i t).2.removeTreatment i = (.ok (), c) := by
  have hins : c.insertTreatment i t =
      (.ok (), { c with
        treatments := c.treatments.take i ++ t :: c.treatments.drop i }) := by
    unfold TreatmentChain.insertTreatment
    rw [if_neg (by omega)]
  have hlen : (c.treatments.take i).length = i := by
    rw [List.length_take]
    omega
  rw [hins]
  refine ⟨rfl, ?_, ?_, ?_, ?_, ?_⟩
  · simp [TreatmentChain.getTreatmentCount, hlen]
    omega
  · have hget : (c.treatments.take i ++ t :: c.treatments.drop i)[i]? = some t := by
      rw [List.getElem?_append_right (by omega), hlen]
      simp
    simp only [TreatmentChain.getTreatment, hget]
  · intro j hj
    simp only
    rw [List.getElem?_append_left (by omega), List.getElem?_take_of_lt hj]
  · intro j hj
    simp only
    rw [List.getElem?_append_right (by omega), hlen,
      show j + 1 - i = (j - i) + 1 by omega, List.getElem?_cons_succ, List.getElem?_drop]
    congr 1
    omega
  · have herase : (c.treatments.take i ++ t :: c.treatments.drop i).eraseIdx i =
        c.treatments := by
      rw [List.eraseIdx_append_of_length_le (by omega), hlen, Nat.sub_self]
      simp
    unfold TreatmentChain.removeTreatment
    simp only
    rw [if_neg (by simp [hlen]), herase]

/-- C35 at a concrete input: insertion in the middle of the example chain. -/
theorem insert_then_remove_witness :
    1 ≤ exampleChain.treatments.length ∧
    ((exampleChain.insertTreatment 1 stageAddAlpha).2.getTreatmentNames =
      ["Grayscale", "Add alpha", "Canny Edge Detection"]) ∧
    (exampleChain.insertTreatment 1 stageAddAlpha).2.removeTreatment 1 =
      (.ok (), exampleChain) :=
  ⟨by decide, by decide,
    (insert_then_remove exampleChain 1 stageAddAlpha (by decide)).2.2.2.2.2⟩

/-! ## The self-description of the treatments -/

theorem find_set (m : StdMap) (k v k2 : String) :
    (m.set k v).find k2 = if k2 = k then some v else m.find k2 := by
  induction m with
  | nil => simp [StdMap.set, StdMap.find]
  | cons e rest ih =>
    obtain ⟨k0, v0⟩ := e
    unfold StdMap.set
    by_cases h1 : k = k0
    · subst h1
      simp only [if_true, StdMap.find]
      split_ifs <;> rfl
    · rw [if_neg h1]
      by_cases h2 : ltChars k.toList k0.toList = true
      · rw [if_pos h2]
        simp only [StdMap.find]
      · rw [if_neg h2]
        simp only [StdMap.find, ih]
        by_cases h3 : k2 = k0
        · subst h3
          have h4 : ¬ k2 = k := fun h => h1 h.symm
          simp [h4]
        · simp [h3]

theorem setParameter_unknown_false {D : Type} (ops : DoubleOps D) (o : TreatmentObject D)
    (paramName value : String) (h : paramName ∉ o.getParameterInfo.keys) :
    (o.setParameter ops paramName value).1 = false := by
  revert h
  cases o <;>
  simp only [TreatmentObject.getParameterInfo, BrightnessTreatment.getParameterInfo,
    GaussianBlurTreatment.getParameterInfo, MedianBlurTreatment.getParameterInfo,
    GrayscaleTreatment.getParameterInfo, CannyEdgeTreatment.getParameterInfo,
    ThresholdTreatment.getParameterInfo, SharpenTreatment.getParameterInfo,
    ErosionTreatment.getParameterInfo, DilationTreatment.getParameterInfo,
    MosaicTreatment.getParameterInfo, StdMap.keys, StdMap.set] <;>
  simp +contextual [ltChars, TreatmentObject.setParameter,
    BrightnessTreatment.setParameter,
    GaussianBlurTreatment.setParameter, MedianBlurTreatment.setParameter,
    GrayscaleTreatment.setParameter, CannyEdgeTreatment.setParameter,
    ThresholdTreatment.setParameter, SharpenTreatment.setParameter,
    ErosionTreatment.setParameter, DilationTreatment.setParameter,
    MosaicTreatment.setParameter]

theorem getParameters_keys {D : Type} (ops : DoubleOps D) (o : TreatmentObject D) :
    (o.getParameters ops).keys = o.getParameterInfo.keys := by
  cases o <;>
  simp [TreatmentObject.getParameters, TreatmentObject.getParameterInfo,
    BrightnessTreatment.getParameters, BrightnessTreatment.getParameterInfo,
    GaussianBlurTreatment.getParameters, GaussianBlurTreatment.getParameterInfo,
    MedianBlurTreatment.getParameters, MedianBlurTreatment.getParameterInfo,
    GrayscaleTreatment.getParameters, GrayscaleTreatment.getParameterInfo,
    CannyEdgeTreatment.getParameters, CannyEdgeTreatment.getParameterInfo,
    ThresholdTreatment.getParameters, ThresholdTreatment.getParameterInfo,
    SharpenTreatment.getParameters, SharpenTreatment.getParameterInfo,
    ErosionTreatment.getParameters, ErosionTreatment.getParameterInfo,
    DilationTreatment.getParameters, DilationTreatment.getParameterInfo,
    MosaicTreatment.getParameters, MosaicTreatment.getParameterInfo,
    StdMap.keys, StdMap.set, ltChars]

theorem setParameter_sameClass {D : Type} (ops : DoubleOps D) (o : TreatmentObject D)
    (paramName value : String) :
    (o.setParameter ops paramName value).2.sameClass o = true := by
  cases o <;> rfl

theorem getParameterInfo_of_sameClass {D : Type} (o o2 : TreatmentObject D)
    (h : o2.sameClass o = true) : o2.getParameterInfo = o.getParameterInfo := by
  cases o <;> cases o2 <;> first | rfl | exact absurd h (by simp [TreatmentObject.sameClass])

/-- C37. For an object of any class, in any state: the keys of `getParameters()` are the
keys of `getParameterInfo()`; `getParameterInfo()` is the same map for every object of
the class, in particular before and after any `setParameter`; and `setParameter` returns
`true` only for a name that is one of these keys. -/
theorem self_description_consistent {D : Type} (ops : DoubleOps D) (o : TreatmentObject D)
    (paramName value : String) :
    (o.getParameters ops).keys = o.getParameterInfo.keys ∧
    (∀ o2 : TreatmentObject D, o2.sameClass o = true →
      o2.getParameterInfo = o.getParameterInfo) ∧
    (o.setParameter ops paramName value).2.getParameterInfo = o.getParameterInfo ∧
    ((o.setParameter ops paramName value).1 = true →
      paramName ∈ o.getParameterInfo.keys) := by
  refine ⟨getParameters_keys ops o, fun o2 h => getParameterInfo_of_sameClass o o2 h,
    getParameterInfo_of_sameClass o _ (setParameter_sameClass ops o paramName value), ?_⟩
  intro h
  by_contra hn
  rw [setParameter_unknown_false ops o paramName value hn] at h
  exact Bool.false_ne_true h

/-- C37 at a concrete input: the Gaussian blur after a change of its kernel size. -/
theorem self_description_consistent_witness :
    (exampleBlur.setParameter intDoubleOps "kernelSize" "9").1 = true ∧
    ((exampleBlur.setParameter intDoubleOps "kernelSize" "9").2.sameClass exampleBlur
      = true) ∧
    (exampleBlur.getParameters intDoubleOps).keys = ["kernelSize", "sigmaX", "sigmaY"] ∧
    exampleBlur.getParameterInfo.keys = ["kernelSize", "sigmaX", "sigmaY"] ∧
    (exampleBlur.setParameter intDoubleOps "kernelSize" "9").2.getParameterInfo =
      exampleBlur.getParameterInfo ∧
    "kernelSize" ∈ exampleBlur.getParameterInfo.keys :=
  have h := self_description_consistent intDoubleOps exampleBlur "kernelSize" "9"
  ⟨by decide, rfl, by decide, by decide,
    h.2.1 _ (setParameter_sameClass intDoubleOps exampleBlur "kernelSize" "9"),
    h.2.2.2 (by decide)⟩

theorem setParameter_find_other {D : Type} (ops : DoubleOps D) (o : TreatmentObject D)
    (paramName value k : String) (hk : k ≠ paramName) :
    ((o.setParameter ops paramName value).2.getParameters ops).find k =
      (o.getParameters ops).find k := by
  cases hs : stoi value <;> cases hd : ops.stod value <;> cases o <;>
  simp only [TreatmentObject.setParameter, BrightnessTreatment.setParameter,
    GaussianBlurTreatment.setParameter, MedianBlurTreatment.setParameter,
    GrayscaleTreatment.setParameter, CannyEdgeTreatment.setParameter,
    ThresholdTreatment.setParameter, SharpenTreatment.setParameter,
    ErosionTreatment.setParameter, DilationTreatment.setParameter,
    MosaicTreatment.setParameter, hs, hd] <;>
  (try split_ifs) <;>
  (try subst_vars) <;>
  simp [TreatmentObject.getParameters,
    BrightnessTreatment.getParameters, GaussianBlurTreatment.getParameters,
    MedianBlurTreatment.getParameters, GrayscaleTreatment.getParameters,
    CannyEdgeTreatment.getParameters, ThresholdTreatment.getParameters,
    SharpenTreatment.getParameters, ErosionTreatment.getParameters,
    DilationTreatment.getParameters, MosaicTreatment.getParameters, find_set, hk]

/-- C36. For an object of any class (in particular brightness, Gaussian blur, Canny,
threshold, erosion and dilation, which have several parameters), any state, name and
value: when `setParameter(name, value)` returns `true`, `name` is a key of
`getParameters()`, and `getParameters()` has the same keys as before the call and,
under every key other than `name`, the same value as before the call (this last part
also holds when the call returns `false`). -/
theorem setParameter_changes_only_named {D : Type} (ops : DoubleOps D)
    (o : TreatmentObject D) (paramName value : String)
    (h : (o.setParameter ops paramName value).1 = true) :
    paramName ∈ (o.getParameters ops).keys ∧
    ((o.setParameter ops paramName value).2.getParameters ops).keys =
      (o.getParameters ops).keys ∧
    ∀ k : String, k ≠ paramName →
      ((o.setParameter ops paramName value).2.getParameters ops).find k =
        (o.getParameters ops).find k := by
  refine ⟨?_, ?_, fun k hk => setParameter_find_other ops o paramName value k hk⟩
  · rw [getParameters_keys]
    by_contra hn
    rw [setParameter_unknown_false ops o paramName value hn] at h
    exact Bool.false_ne_true h
  · rw [getParameters_keys, getParameters_keys,
      getParameterInfo_of_sameClass o _ (setParameter_sameClass ops o paramName value)]

/-- C36 at a concrete input: a new kernel size for the Gaussian blur leaves `sigmaX`
and `sigmaY` as they were. -/
theorem setParameter_changes_only_named_witness :
    (exampleBlur.setParameter intDoubleOps "kernelSize" "9").1 = true ∧
    ((exampleBlur.setParameter intDoubleOps "kernelSize" "9").2.getParameters
      intDoubleOps).find "kernelSize" = some "9" ∧
    (exampleBlur.getParameters intDoubleOps).find "kernelSize" ≠ some "9" ∧
    ((exampleBlur.setParameter intDoubleOps "kernelSize" "9").2.getParameters
      intDoubleOps).find "sigmaX" = (exampleBlur.getParameters intDoubleOps).find "sigmaX" ∧
    ((exampleBlur.setParameter intDoubleOps "kernelSize" "9").2.getParameters
      intDoubleOps).find "sigmaY" = (exampleBlur.getParameters intDoubleOps).find "sigmaY" :=
  have h := setParameter_changes_only_named intDoubleOps exampleBlur "kernelSize" "9"
    (by decide)
  ⟨by decide, by decide, by decide, h.2.2 "sigmaX" (by decide),
    h.2.2 "sigmaY" (by decide)⟩

/-! ## The reduced size of the mosaic -/

theorem intDiv_of_pos (a : Nat) (b : Int) (hb : 1 ≤ b) :
    intDiv (a : Int) b = some (Int.tdiv (a : Int) b) ∧
    0 ≤ Int.tdiv (a : Int) b ∧ Int.tdiv (a : Int) b ≤ (a : Int) ∧
    ((a : Int) < b → Int.tdiv (a : Int) b = 0) := by
  have ha : (0 : Int) ≤ (a : Int) := Int.ofNat_nonneg a
  have hdiv : Int.tdiv (a : Int) b = (a : Int) / b := Int.tdiv_eq_ediv ha (by omega)
  refine ⟨?_, ?_, ?_, ?_⟩
  · unfold intDiv
    rw [if_neg (by omega), if_neg (by omega)]
  · rw [hdiv]
    exact Int.ediv_nonneg ha (by omega)
  · rw [hdiv]
    exact Int.ediv_le_self b ha
  · intro hlt
    rw [hdiv]
    exact Int.ediv_eq_zero_of_lt ha hlt

/-- C40. For a mosaic treatment in a reachable state (`blockSize >= 1`, hence not 0) and
a non-empty image (`cols >= 1` and `rows >= 1`): both divisions of `process` are
defined, the reduced size `newWidth x newHeight` has `1 <= newWidth <= cols` and
`1 <= newHeight <= rows`, a dimension smaller than `blockSize` is reduced to 1, and
`process` resizes the image to that size and back to `cols x rows`.  On an empty image
`process` returns the image itself, for any block size. -/
theorem mosaic_reducedSize_safe {D : Type} (cv : OpenCV D) (t : MosaicTreatment)
    (image : Mat) (ht : MosaicTreatment.Reachable t) (hne : image.empty = false) :
    t.blockSize ≠ 0 ∧ 1 ≤ image.cols ∧ 1 ≤ image.rows ∧
    (∃ newWidth newHeight : Int,
      t.reducedSize image = some (newWidth, newHeight) ∧
      1 ≤ newWidth ∧ newWidth ≤ (image.cols : Int) ∧
      1 ≤ newHeight ∧ newHeight ≤ (image.rows : Int) ∧
      ((image.cols : Int) < t.blockSize → newWidth = 1) ∧
      ((image.rows : Int) < t.blockSize → newHeight = 1) ∧
      t.process cv image =
        cv.resize (cv.resize image newWidth newHeight .INTER_LINEAR)
          (image.cols : Int) (image.rows : Int) .INTER_NEAREST) ∧
    (∀ (u : MosaicTreatment) (e : Mat), e.empty = true → u.process cv e = e) := by
  have hb := mosaic_reachable_blockSize t ht
  have hdim : 1 ≤ image.cols ∧ 1 ≤ image.rows := by
    have h0 : image.rows * image.cols ≠ 0 := by
      simpa [Mat.empty] using hne
    constructor
    · rcases Nat.eq_zero_or_pos image.cols with h | h
      · exact absurd (by rw [h, Nat.mul_zero]) h0
      · exact h
    · rcases Nat.eq_zero_or_pos image.rows with h | h
      · exact absurd (by rw [h, Nat.zero_mul]) h0
      · exact h
  obtain ⟨hc1, hc2, hc3, hc4⟩ := intDiv_of_pos image.cols t.blockSize hb
  obtain ⟨hr1, hr2, hr3, hr4⟩ := intDiv_of_pos image.rows t.blockSize hb
  refine ⟨by omega, hdim.1, hdim.2,
    ⟨max 1 (Int.tdiv (image.cols : Int) t.blockSize),
     max 1 (Int.tdiv (image.rows : Int) t.blockSize), ?_, ?_, ?_, ?_, ?_, ?_, ?_, ?_⟩, ?_⟩
  · simp only [MosaicTreatment.reducedSize, hc1, hr1]
  · exact le_max_left _ _
  · exact max_le (by omega) hc3
  · exact le_max_left _ _
  · exact max_le (by omega) hr3
  · intro h
    rw [hc4 h]
    rfl
  · intro h
    rw [hr4 h]
    rfl
  · simp only [MosaicTreatment.process, hne, Bool.false_eq_true, if_false]
  · intro u e he
    simp only [MosaicTreatment.process, he, if_true]

/-- C40 at concrete inputs: blocks of 10 on a 100 x 100 image give 10 x 10, and on the
2 x 2 example input 1 x 1. -/
theorem mosaic_reducedSize_safe_witness :
    MosaicTreatment.Reachable (MosaicTreatment.new 10) ∧
    hundredSquareInput.empty = false ∧
    (MosaicTreatment.new 10).reducedSize hundredSquareInput = some (10, 10) ∧
    (MosaicTreatment.new 10).reducedSize exampleInput = some (1, 1) ∧
    (MosaicTreatment.new 10).blockSize ≠ 0 ∧
    (MosaicTreatment.new 10).process shapeOnlyOpenCV emptyMat = emptyMat :=
  have hr : MosaicTreatment.Reachable (MosaicTreatment.new 10) :=
    MosaicTreatment.Reachable.new 10 (by decide)
  have h := mosaic_reducedSize_safe shapeOnlyOpenCV (MosaicTreatment.new 10)
    hundredSquareInput hr (by decide)
  ⟨hr, by decide, by decide, by decide, h.1, h.2.2.2.2 _ emptyMat (by decide)⟩

end ImageTreatment
